import Mathlib

/-!
# Traffic-signal allocation: a shallow embedding of `Traffic.c` and `traffic27.c`

The two C programs share the lane record, the ring construction
(`createIntersection`), `calculateRedTime` and `calculatePriority`; they differ
in the data acquisition (`fetchLaneData` against `updateVehicleCounts`), in
`calculateGreenTime` (integer arithmetic against single-precision float) and in
`displaySignalTiming` (only `traffic27.c` builds the priority queue).

Modelling conventions.

* `int` is a 32-bit two's-complement integer.  Fields hold mathematical
  integers (`Int`) and every `+`, `-`, `*` of the source is followed by
  `wrap32`.
* A `Lane*` is an `Option Nat`: `none` is `NULL`, `some a` is the address of the
  `a`-th lane allocated by `malloc`.  The lane heap is the list of all lanes
  allocated so far.  A load or store through `NULL` or through an address that
  was never allocated has no defined behaviour and makes the enclosing
  function return `none`.
* A `do { ... } while (currentLane != intersection->head)` loop is the function
  `doWhile`, which carries a step budget; the theorems show that a budget of
  `laneCount` steps is enough on every ring built by `createIntersection`.
* The singly linked `PriorityQueue` is the list of the lane addresses stored in
  its nodes, read from `pq->head` along `next`.
* `malloc` always succeeds, so the `exit(EXIT_FAILURE)` paths behind a failed
  allocation are not represented; printing is not represented either.
* The data acquisition is a parameter: the rows of the query for
  `fetchLaneData`, the sequence of values of `rand()` for `updateVehicleCounts`.
-/

namespace TrafficManagement

/-! ## Machine integers -/

/-- The constant `INT_MAX` of `<limits.h>` for a 32-bit `int`. -/
def INT_MAX : Int := 2147483647

/-- The constant `INT_MIN` of `<limits.h>` for a 32-bit `int`. -/
def INT_MIN : Int := -2147483648

/-- Reduction of a mathematical integer to the 32-bit two's-complement range. -/
def wrap32 (x : Int) : Int := (x + 2147483648) % 4294967296 - 2147483648

/-- The macro `BASE_GREEN_TIME` of both source files. -/
def BASE_GREEN_TIME : Int := 30

/-! ## Data model -/

/-- The enumeration `IntersectionType`. -/
inductive IntersectionType where
  | T_INTERSECTION
  | PLUS_INTERSECTION
deriving DecidableEq, Repr

/-- A lane pointer: `none` is `NULL`, `some a` the address of an allocated lane. -/
abbrev Ptr := Option Nat

/-- The record `struct Lane`, fields in declaration order. -/
structure Lane where
  vehicleCount : Int
  greenTime : Int
  redTime : Int
  priority : Int
  waitingTime : Int
  emergencyVehicle : Int
  next : Ptr
  prev : Ptr
  laneNumber : Int
deriving DecidableEq, Repr

/-- The lane storage: the lane at address `a` is the `a`-th element. -/
abbrev Heap := List Lane

/-- The record `Intersection`. -/
structure Intersection where
  type : IntersectionType
  laneCount : Int
  head : Ptr
  tail : Ptr
deriving DecidableEq, Repr

/-- Load of the lane stored at address `a`. -/
def load (h : Heap) (a : Nat) : Option Lane := h[a]?

/-- Store of `l` at address `a`; undefined when `a` was never allocated. -/
def store (h : Heap) (a : Nat) (l : Lane) : Option Heap :=
  if a < h.length then some (h.set a l) else none

/-- Read-modify-write of the lane at address `a`. -/
def update (h : Heap) (a : Nat) (f : Lane → Lane) : Option Heap :=
  match load h a with
  | none => none
  | some l => store h a (f l)

/-- Allocation of a fresh lane by `malloc`: the new lane is appended and its
address returned. -/
def malloc (h : Heap) (l : Lane) : Heap × Nat := (h ++ [l], h.length)

/-! ## `createIntersection` (identical in both files) -/

/-- One iteration of the `for` loop of `createIntersection`, with loop index
`i`: allocate a lane, zero its fields, number it `i + 1` and link it behind
the current tail.  The `next` field of a fresh lane is not written by the
iteration; it is modelled as `NULL` until the following iteration or the
closing of the ring stores into it. -/
def createLane (st : Heap × Intersection) (i : Nat) : Option (Heap × Intersection) :=
  let (h, x) := st
  let newLane : Lane :=
    { vehicleCount := 0, greenTime := 0, redTime := 0, priority := 0,
      waitingTime := 0, emergencyVehicle := 0, next := none, prev := none,
      laneNumber := wrap32 ((i : Int) + 1) }
  let (h1, p) := malloc h newLane
  match x.tail with
  | some t =>
    -- intersection->tail->next = newLane; newLane->prev = intersection->tail;
    match update h1 t (fun l => { l with next := some p }) with
    | none => none
    | some h2 =>
      match update h2 p (fun l => { l with prev := some t }) with
      | none => none
      | some h3 => some (h3, { x with tail := some p })
  | none =>
    -- intersection->head = newLane; newLane->prev = NULL;
    match update h1 p (fun l => { l with prev := none }) with
    | none => none
    | some h2 => some (h2, { x with head := some p, tail := some p })

/-- The `for (int i = 0; i < laneCount; i++)` loop of `createIntersection`. -/
def createLanes (st : Heap × Intersection) : List Nat → Option (Heap × Intersection)
  | [] => some st
  | i :: is =>
    match createLane st i with
    | none => none
    | some st1 => createLanes st1 is

/-- The function `createIntersection`, run on an empty lane heap. -/
def createIntersection (type : IntersectionType) : Option (Heap × Intersection) :=
  let laneCount : Int :=
    match type with
    | .T_INTERSECTION => 3
    | .PLUS_INTERSECTION => 4
  let x : Intersection := { type := type, laneCount := laneCount, head := none, tail := none }
  match createLanes ([], x) (List.range laneCount.toNat) with
  | none => none
  | some (h, x1) =>
    -- Making it circular
    match x1.tail, x1.head with
    | some t, some hd =>
      match update h t (fun l => { l with next := some hd }) with
      | none => none
      | some h1 =>
        match update h1 hd (fun l => { l with prev := some t }) with
        | none => none
        | some h2 => some (h2, x1)
    | _, _ => none

/-- The ring of a T-junction as `createIntersection` leaves it. -/
def tRing : Heap × Intersection :=
  ([ { vehicleCount := 0, greenTime := 0, redTime := 0, priority := 0, waitingTime := 0,
       emergencyVehicle := 0, next := some 1, prev := some 2, laneNumber := 1 },
     { vehicleCount := 0, greenTime := 0, redTime := 0, priority := 0, waitingTime := 0,
       emergencyVehicle := 0, next := some 2, prev := some 0, laneNumber := 2 },
     { vehicleCount := 0, greenTime := 0, redTime := 0, priority := 0, waitingTime := 0,
       emergencyVehicle := 0, next := some 0, prev := some 1, laneNumber := 3 } ],
   { type := .T_INTERSECTION, laneCount := 3, head := some 0, tail := some 2 })

/-- The ring of a +-junction as `createIntersection` leaves it. -/
def plusRing : Heap × Intersection :=
  ([ { vehicleCount := 0, greenTime := 0, redTime := 0, priority := 0, waitingTime := 0,
       emergencyVehicle := 0, next := some 1, prev := some 3, laneNumber := 1 },
     { vehicleCount := 0, greenTime := 0, redTime := 0, priority := 0, waitingTime := 0,
       emergencyVehicle := 0, next := some 2, prev := some 0, laneNumber := 2 },
     { vehicleCount := 0, greenTime := 0, redTime := 0, priority := 0, waitingTime := 0,
       emergencyVehicle := 0, next := some 3, prev := some 1, laneNumber := 3 },
     { vehicleCount := 0, greenTime := 0, redTime := 0, priority := 0, waitingTime := 0,
       emergencyVehicle := 0, next := some 0, prev := some 2, laneNumber := 4 } ],
   { type := .PLUS_INTERSECTION, laneCount := 4, head := some 0, tail := some 3 })

/-- The link part of a lane: the fields `createIntersection` sets for good and
no later function writes. -/
def Lane.links (l : Lane) : Ptr × Ptr × Int := (l.next, l.prev, l.laneNumber)

/-- The heap `h` and record `x` form a ring built by `createIntersection type`
whose data fields (`vehicleCount`, `greenTime`, `redTime`, `priority`,
`waitingTime`, `emergencyVehicle`) hold arbitrary values. -/
def IsRing (type : IntersectionType) (h : Heap) (x : Intersection) : Prop :=
  ∃ h0, createIntersection type = some (h0, x) ∧ h.map Lane.links = h0.map Lane.links

/-! ## The traversal idiom -/

/-- The loop
`currentLane = start; do { body; currentLane = currentLane->next; } while (currentLane != start);`
with `cur` the current value of `currentLane`, `s` the local variables of the
enclosing function and `h` the lane heap.  The first argument bounds the
number of iterations: the result is `none` when the bound is exhausted, when
`currentLane` is `NULL` on entry to the body, or when the body is undefined. -/
def doWhile {σ : Type} (body : σ → Heap → Nat → Option (σ × Heap)) (start : Ptr) :
    Nat → Ptr → σ → Heap → Option (σ × Heap)
  | 0, _, _, _ => none
  | fuel + 1, cur, s, h =>
    match cur with
    | none => none
    | some a =>
      match body s h a with
      | none => none
      | some (s1, h1) =>
        match load h1 a with
        | none => none
        | some l => if l.next = start then some (s1, h1) else doWhile body start fuel l.next s1 h1

/-- A full traversal whose body records the `laneNumber` of the lane it is
applied to: the result lists the lanes in the order the body met them. -/
def visitOrder (fuel : Nat) (h : Heap) (start : Ptr) : Option (List Int) :=
  (doWhile (fun (log : List Int) h a => (load h a).map (fun l => (log ++ [l.laneNumber], h)))
    start fuel start [] h).map Prod.fst

/-! ## `calculateRedTime` and `calculatePriority` (identical in both files) -/

/-- The function `calculateRedTime`. -/
def calculateRedTime (lane : Lane) (totalTime : Int) : Lane :=
  { lane with redTime := wrap32 (totalTime - lane.greenTime) }

/-- The function `calculatePriority`. -/
def calculatePriority (lane : Lane) : Lane :=
  if lane.emergencyVehicle ≠ 0 then { lane with priority := INT_MAX }
  else { lane with priority := lane.vehicleCount }

/-! ## The priority queue of `traffic27.c` -/

namespace Traffic27

/-- The `while (current->next && current->next->lane->priority >= lane->priority)`
loop of `enqueue` followed by the insertion after `current`; the list argument
is the part of the queue behind `current`, and `p` is `lane->priority`. -/
def enqueueLoop (h : Heap) (lane : Nat) (p : Int) : List Nat → Option (List Nat)
  | [] => some [lane]
  | n :: rest =>
    match load h n with
    | none => none
    | some ln =>
      if ln.priority ≥ p then (enqueueLoop h lane p rest).map (fun r => n :: r)
      else some (lane :: n :: rest)

/-- The function `enqueue`: the queue is the list of lane addresses held by its
nodes, and the lanes are read through the heap. -/
def enqueue (h : Heap) (pq : List Nat) (lane : Nat) : Option (List Nat) :=
  match pq with
  | [] => some [lane]
  | hd :: rest =>
    match load h hd, load h lane with
    | some lh, some ll =>
      if lh.priority < ll.priority then some (lane :: hd :: rest)
      else (enqueueLoop h lane ll.priority rest).map (fun r => hd :: r)
    | _, _ => none

/-- The queue-building loop of `displaySignalTiming`: every lane is enqueued
once, from the head along `next`, into the queue of `createPriorityQueue`.
The result is the dispatch sequence, which the rest of the function prints
from front to back. -/
def displaySignalTiming (fuel : Nat) (h : Heap) (x : Intersection) : Option (List Nat) :=
  (doWhile (fun (pq : List Nat) h a => (enqueue h pq a).map (fun q => (q, h)))
    x.head fuel x.head [] h).map Prod.fst

end Traffic27

/-! ## Signal timing in `Traffic.c` -/

namespace Traffic

/-- The row loop of `fetchLaneData`: each row of the query result
`(lane_number, vehicle_count, emergency_vehicle)`, already converted by `atoi`,
is written into the current lane, and the cursor moves along `next`.  The
value `lane_number` is read and not used. -/
def fetchRows : List (Int × Int × Int) → Ptr → Heap → Option Heap
  | [], _, h => some h
  | (_, vc, ev) :: rows, cur, h =>
    match cur with
    | none => none
    | some a =>
      match update h a (fun l => { l with vehicleCount := vc, emergencyVehicle := ev }) with
      | none => none
      | some h1 =>
        match load h1 a with
        | none => none
        | some l => fetchRows rows l.next h1

/-- The function `fetchLaneData`, given the rows the query returns. -/
def fetchLaneData (rows : List (Int × Int × Int)) (h : Heap) (x : Intersection) : Option Heap :=
  fetchRows rows x.head h

/-- The function `calculateGreenTime` of `Traffic.c`.  The quotient of two
`int`s is undefined for a zero divisor and for `INT_MIN / -1`. -/
def calculateGreenTime (lane : Lane) (totalVehicles _laneCount : Int) : Option Lane :=
  if lane.emergencyVehicle ≠ 0 then some { lane with greenTime := INT_MAX }
  else if totalVehicles = 0 then none
  else if wrap32 (lane.vehicleCount * 60) = INT_MIN ∧ totalVehicles = -1 then none
  else some { lane with greenTime := Int.tdiv (wrap32 (lane.vehicleCount * 60)) totalVehicles }

/-- The three `do`-`while` passes of `calculateSignalTiming`, which follow the
call of `fetchLaneData`. -/
def timingPasses (fuel : Nat) (h : Heap) (x : Intersection) : Option Heap :=
  match doWhile (fun (totalVehicles : Int) h a =>
      (load h a).map (fun l => (wrap32 (totalVehicles + l.vehicleCount), h)))
      x.head fuel x.head 0 h with
  | none => none
  | some (totalVehicles, h1) =>
    match doWhile (fun (totalTime : Int) h a =>
        match load h a with
        | none => none
        | some l =>
          match calculateGreenTime l totalVehicles x.laneCount with
          | none => none
          | some l1 => (store h a l1).map (fun h2 => (wrap32 (totalTime + l1.greenTime), h2)))
        x.head fuel x.head 0 h1 with
    | none => none
    | some (totalTime, h2) =>
      (doWhile (fun (u : Unit) h a =>
          (update h a (fun l => calculatePriority (calculateRedTime l totalTime))).map
            (fun h3 => (u, h3)))
        x.head fuel x.head () h2).map Prod.snd

/-- The function `calculateSignalTiming` of `Traffic.c`. -/
def calculateSignalTiming (rows : List (Int × Int × Int)) (fuel : Nat) (h : Heap)
    (x : Intersection) : Option Heap :=
  match fetchLaneData rows h x with
  | none => none
  | some h0 => timingPasses fuel h0 x

end Traffic

/-! ## Single-precision arithmetic

`traffic27.c` computes the green time in `float`.  The model is IEEE 754
binary32 with round-to-nearest-even, every operation rounded to `float`
(`FLT_EVAL_METHOD` 0).  Only zero and the finite values of the normal range are
represented.  A quotient by zero does not trap: it is infinite or not a
number, and so is every value computed from it up to the conversion to `int`,
for which ISO C fixes no result (an implementation stores some value of its
own choice, `INT_MIN` on x86-64).  The model covers the operands for which the
language fixes the result: the quotient by zero returns `none` at once, and
`none` stands for a value that the language does not determine, not for a
trap.  A result outside the normal range returns `none` as well; the operands
that `int` values give `calculateGreenTime` stay far inside it. -/

/-- A finite binary32 value `m * 2 ^ e`. -/
structure F32 where
  m : Int
  e : Int
deriving DecidableEq, Repr

/-- Binary logarithm, rounded down, by repeated halving (budget first). -/
def ilog2Aux : Nat → Nat → Nat
  | 0, _ => 0
  | fuel + 1, n => if n < 2 then 0 else ilog2Aux fuel (n / 2) + 1

/-- Binary logarithm of `n`, rounded down; `0` for `n = 0`. -/
def ilog2 (n : Nat) : Nat := ilog2Aux n n

/-- The fraction `N / D` multiplied by `2 ^ sh`, as numerator and denominator. -/
def scale (N D : Nat) (sh : Int) : Nat × Nat :=
  if 0 ≤ sh then (N * 2 ^ sh.toNat, D) else (N, D * 2 ^ (-sh).toNat)

/-- The integer nearest to `N / D`, ties to the even one. -/
def roundHalfEven (N D : Nat) : Nat :=
  let q := N / D
  let r := N % D
  if 2 * r < D then q
  else if D < 2 * r then q + 1
  else if q % 2 = 0 then q else q + 1

/-- Rounding of the rational `± (N / D) * 2 ^ k` to binary32: the value is scaled
so that its integer part has 24 bits, rounded to the nearest integer (ties to
even) and renormalised when the rounding carries into a 25th bit. -/
def round24 (neg : Bool) (N D : Nat) (k : Int) : Option F32 :=
  if N = 0 then some ⟨0, 0⟩
  else
    let sh0 : Int := 24 + (ilog2 D : Int) - (ilog2 N : Int)
    let sh : Int := if (scale N D sh0).1 / (scale N D sh0).2 < 2 ^ 24 then sh0 else sh0 - 1
    let m0 := roundHalfEven (scale N D sh).1 (scale N D sh).2
    let m : Nat := if m0 = 2 ^ 24 then 2 ^ 23 else m0
    let e : Int := if m0 = 2 ^ 24 then k - sh + 1 else k - sh
    if -149 ≤ e ∧ e ≤ 104 then some ⟨if neg then -(m : Int) else m, e⟩ else none

/-- The conversion `(float) n` of an `int`. -/
def F32.ofInt (n : Int) : Option F32 := round24 (decide (n < 0)) n.natAbs 1 0

/-- The `float` quotient `x / y`; `none` for a zero divisor, where the
quotient is not a finite value. -/
def F32.div (x y : F32) : Option F32 :=
  if y.m = 0 then none
  else round24 (decide (x.m < 0) != decide (y.m < 0)) x.m.natAbs y.m.natAbs (x.e - y.e)

/-- The `float` product `x * y`. -/
def F32.mul (x y : F32) : Option F32 :=
  round24 (decide (x.m < 0) != decide (y.m < 0)) (x.m.natAbs * y.m.natAbs) 1 (x.e + y.e)

/-- The conversion `(int) x`: truncation toward zero; `none` when the
truncated value is not an `int`, where ISO C fixes no result. -/
def F32.toInt (x : F32) : Option Int :=
  let t : Int := if 0 ≤ x.e then x.m * 2 ^ x.e.toNat else Int.tdiv x.m (2 ^ (-x.e).toNat)
  if INT_MIN ≤ t ∧ t ≤ INT_MAX then some t else none

/-- The rational number a binary32 value stands for. -/
def F32.toRat (x : F32) : ℚ := x.m * 2 ^ x.e

/-! ## Signal timing in `traffic27.c` -/

namespace Traffic27

/-- The function `updateVehicleCounts`.  The results of the successive calls of
`rand()` are the values `rand 0`, `rand 1`, ...; the loop state is the number
of calls made so far. -/
def updateVehicleCounts (rand : Nat → Nat) (fuel : Nat) (h : Heap) (x : Intersection) :
    Option Heap :=
  (doWhile (fun (calls : Nat) h a =>
      (update h a (fun l =>
        { l with vehicleCount := wrap32 (l.vehicleCount + (rand calls % 5 : Nat)),
                 waitingTime := wrap32 (l.waitingTime + 10),
                 emergencyVehicle := (rand (calls + 1) % 2 : Nat) })).map
        (fun h1 => (calls + 2, h1)))
    x.head fuel x.head 0 h).map Prod.snd

/-- The value `(int)(ratio * BASE_GREEN_TIME * laneCount)` with
`ratio = (float)vehicleCount / totalVehicles`. -/
def greenSeconds (vehicleCount totalVehicles laneCount : Int) : Option Int :=
  match F32.ofInt vehicleCount, F32.ofInt totalVehicles, F32.ofInt BASE_GREEN_TIME,
      F32.ofInt laneCount with
  | some v, some t, some b, some n =>
    match F32.div v t with
    | none => none
    | some ratio =>
      match F32.mul ratio b with
      | none => none
      | some r1 =>
        match F32.mul r1 n with
        | none => none
        | some r2 => F32.toInt r2
  | _, _, _, _ => none

/-- The function `calculateGreenTime` of `traffic27.c`. -/
def calculateGreenTime (lane : Lane) (totalVehicles laneCount : Int) : Option Lane :=
  (greenSeconds lane.vehicleCount totalVehicles laneCount).map
    (fun g => { lane with greenTime := g })

/-- The three `do`-`while` passes of `calculateSignalTiming`, which follow the
call of `updateVehicleCounts`. -/
def timingPasses (fuel : Nat) (h : Heap) (x : Intersection) : Option Heap :=
  match doWhile (fun (totalVehicles : Int) h a =>
      (load h a).map (fun l => (wrap32 (totalVehicles + l.vehicleCount), h)))
      x.head fuel x.head 0 h with
  | none => none
  | some (totalVehicles, h1) =>
    match doWhile (fun (totalTime : Int) h a =>
        match load h a with
        | none => none
        | some l =>
          match calculateGreenTime l totalVehicles x.laneCount with
          | none => none
          | some l1 => (store h a l1).map (fun h2 => (wrap32 (totalTime + l1.greenTime), h2)))
        x.head fuel x.head 0 h1 with
    | none => none
    | some (totalTime, h2) =>
      (doWhile (fun (u : Unit) h a =>
          (update h a (fun l => calculatePriority (calculateRedTime l totalTime))).map
            (fun h3 => (u, h3)))
        x.head fuel x.head () h2).map Prod.snd

/-- The function `calculateSignalTiming` of `traffic27.c`. -/
def calculateSignalTiming (rand : Nat → Nat) (fuel : Nat) (h : Heap) (x : Intersection) :
    Option Heap :=
  match updateVehicleCounts rand fuel h x with
  | none => none
  | some h0 => timingPasses fuel h0 x

end Traffic27

/-! ## Rings and the traversal idiom -/

/-- Successive application of a loop body to the lanes at the given addresses. -/
def runOver {σ : Type} (body : σ → Heap → Nat → Option (σ × Heap)) :
    List Nat → σ → Heap → Option (σ × Heap)
  | [], s, h => some (s, h)
  | a :: as, s, h =>
    match body s h a with
    | none => none
    | some (s1, h1) => runOver body as s1 h1

/-- The `next` fields of `h` close a cycle through the addresses `0, ..., n - 1`. -/
def RingLinks (n : Nat) (h : Heap) : Prop :=
  h.map Lane.next = (List.range n).map (fun a => some ((a + 1) % n))

/-- A loop body that leaves every `next` field as it found it. -/
def PreservesNext {σ : Type} (body : σ → Heap → Nat → Option (σ × Heap)) : Prop :=
  ∀ s h a s1 h1, body s h a = some (s1, h1) → h1.map Lane.next = h.map Lane.next

/-- The lanes met when following `next` for `k` steps from `p`. -/
def lanesFrom (h : Heap) : Nat → Ptr → List Lane
  | 0, _ => []
  | k + 1, p =>
    match p.bind (load h) with
    | none => []
    | some l => l :: lanesFrom h k l.next

/-- The priority field of the lane at address `a` (`0` when there is no such lane). -/
def prioOf (h : Heap) (a : Nat) : Int := ((load h a).map Lane.priority).getD 0

/-- Insertion of `x` in front of the first element whose priority is strictly
smaller than that of `x`, at the end when there is none. -/
def insertByPriority (prio : Nat → Int) (x : Nat) : List Nat → List Nat
  | [] => [x]
  | y :: ys => if prio y < prio x then x :: y :: ys else y :: insertByPriority prio x ys

/-- The order in which the dispatch sequence lists two lanes: higher priority
first, and the lower address first among equal priorities. -/
def DispatchBefore (prio : Nat → Int) (a b : Nat) : Prop :=
  prio b < prio a ∨ (prio a = prio b ∧ a < b)

/-- The lanes of `h` after the pairs `(vehicleCount, emergencyVehicle)` have
been written into them in address order. -/
def populate (h : Heap) (d : List (Int × Int)) : Heap :=
  List.zipWith (fun l p => { l with vehicleCount := p.1, emergencyVehicle := p.2 }) h d

/-- The lanes of `h` after the given values have been written into their
`priority` fields in address order. -/
def withPriorities (h : Heap) (ps : List Int) : Heap :=
  List.zipWith (fun l p => { l with priority := p }) h ps

/-- A loop body that reads the current lane, computes from it and from the
local variables a new value of the lane and of the local variables, and
writes the lane back. -/
def laneBody {σ : Type} (g : σ → Lane → Option (σ × Lane)) (s : σ) (h : Heap) (a : Nat) :
    Option (σ × Heap) :=
  match load h a with
  | none => none
  | some l =>
    match g s l with
    | none => none
    | some (s1, l1) => (store h a l1).map (fun h1 => (s1, h1))

/-- One pass of a lane-wise computation over a list of lanes, front to back. -/
def sweep {σ : Type} (g : σ → Lane → Option (σ × Lane)) : σ → List Lane → Option (σ × List Lane)
  | s, [] => some (s, [])
  | s, l :: ls =>
    match g s l with
    | none => none
    | some (s1, l1) =>
      match sweep g s1 ls with
      | none => none
      | some (s2, ls2) => some (s2, l1 :: ls2)

/-- A lane-wise computation that leaves `next`, `prev` and `laneNumber` alone. -/
def KeepsLinks {σ : Type} (g : σ → Lane → Option (σ × Lane)) : Prop :=
  ∀ s l s1 l1, g s l = some (s1, l1) → l1.links = l.links

/-- The body of the first pass of `calculateSignalTiming` as a lane-wise step:
`totalVehicles += currentLane->vehicleCount`. -/
def countStep (totalVehicles : Int) (l : Lane) : Option (Int × Lane) :=
  some (wrap32 (totalVehicles + l.vehicleCount), l)

/-- The body of the third pass of `calculateSignalTiming` as a lane-wise step. -/
def redPriorityStep (totalTime : Int) (u : Unit) (l : Lane) : Option (Unit × Lane) :=
  some (u, calculatePriority (calculateRedTime l totalTime))

/-- The body of the second pass of `calculateSignalTiming` in `traffic27.c` as
a lane-wise step. -/
def Traffic27.greenStep (totalVehicles laneCount : Int) (totalTime : Int) (l : Lane) :
    Option (Int × Lane) :=
  (Traffic27.calculateGreenTime l totalVehicles laneCount).map
    (fun l1 => (wrap32 (totalTime + l1.greenTime), l1))

/-- The body of the second pass of `calculateSignalTiming` in `Traffic.c` as a
lane-wise step. -/
def Traffic.greenStep (totalVehicles laneCount : Int) (totalTime : Int) (l : Lane) :
    Option (Int × Lane) :=
  (Traffic.calculateGreenTime l totalVehicles laneCount).map
    (fun l1 => (wrap32 (totalTime + l1.greenTime), l1))

/-- The body of the loop of `updateVehicleCounts` as a lane-wise step. -/
def Traffic27.updateStep (rand : Nat → Nat) (calls : Nat) (l : Lane) : Option (Nat × Lane) :=
  some (calls + 2,
    { l with vehicleCount := wrap32 (l.vehicleCount + (rand calls % 5 : Nat)),
             waitingTime := wrap32 (l.waitingTime + 10),
             emergencyVehicle := (rand (calls + 1) % 2 : Nat) })

/-- The lanes of `h` with `waitingTime` set to `w`. -/
def withWaitingTime (h : Heap) (w : Int) : Heap :=
  h.map (fun l => { l with waitingTime := w })

/-- The lane `l` with the green time that `calculateGreenTime` of `traffic27.c`
computes for it (`0` where the computation is undefined). -/
def Traffic27.withGreen (totalVehicles laneCount : Int) (l : Lane) : Lane :=
  { l with greenTime := (Traffic27.greenSeconds l.vehicleCount totalVehicles laneCount).getD 0 }

/-- The pointer reached from `p` by following `next` for `k` steps (`NULL`
when a step starts from `NULL` or from an address that was never allocated). -/
def nextN (h : Heap) : Nat → Ptr → Ptr
  | 0, p => p
  | k + 1, p =>
    match p.bind (load h) with
    | none => none
    | some l => nextN h k l.next

/-- A lane like the first lane of a fresh T-junction, holding the given
`vehicleCount` and `emergencyVehicle`. -/
def laneWith (vehicleCount emergencyVehicle : Int) : Lane :=
  { vehicleCount := vehicleCount, greenTime := 0, redTime := 0, priority := 0, waitingTime := 0,
    emergencyVehicle := emergencyVehicle, next := some 1, prev := some 2, laneNumber := 1 }

/-- The fields of a lane other than `greenTime`, `redTime` and `priority`. -/
def Lane.untimed (l : Lane) : Int × Int × Int × Ptr × Ptr × Int :=
  (l.vehicleCount, l.waitingTime, l.emergencyVehicle, l.next, l.prev, l.laneNumber)

/-- The input of a cycle held by a lane: `vehicleCount` and `emergencyVehicle`. -/
def Lane.snapshot (l : Lane) : Int × Int := (l.vehicleCount, l.emergencyVehicle)

/-- The results of a cycle held by a lane: `greenTime`, `redTime`, `priority`. -/
def Lane.timing (l : Lane) : Int × Int × Int := (l.greenTime, l.redTime, l.priority)

/-- The snapshot of a lane together with its green time. -/
def Lane.snapGreen (l : Lane) : (Int × Int) × Int := (l.snapshot, l.greenTime)

/-- The value `totalVehicles` after the first pass of `calculateSignalTiming`. -/
def totalOf (h : Heap) : Int := h.foldl (fun tv l => wrap32 (tv + l.vehicleCount)) 0

/-- One iteration of the `while (1)` loop of `main` in `traffic27.c`:
`calculateSignalTiming` followed by `displaySignalTiming` (the `sleep` is not
represented).  The result is the lane heap and the dispatch sequence. -/
def Traffic27.cycle (rand : Nat → Nat) (fuel : Nat) (h : Heap) (x : Intersection) :
    Option (Heap × List Nat) :=
  match Traffic27.calculateSignalTiming rand fuel h x with
  | none => none
  | some h1 => (Traffic27.displaySignalTiming fuel h1 x).map (fun seq => (h1, seq))
/-- The snapshot of a lane together with its links. -/
def Lane.snapLinks (l : Lane) : (Int × Int) × (Ptr × Ptr × Int) := (l.snapshot, l.links)


/-! ## Sorting the lanes by a composite key -/

/-- Lexicographic comparison of two composite keys: smaller first component
first, then smaller second component, then smaller third component. -/
def keyLE (k1 k2 : Int × Int × Int) : Bool :=
  decide (k1.1 < k2.1 ∨ (k1.1 = k2.1 ∧ (k1.2.1 < k2.2.1 ∨ (k1.2.1 = k2.2.1 ∧ k1.2.2 ≤ k2.2.2))))

/-- The key of the lane at address `a` (the zero key when there is no such lane). -/
def keyAt (key : Lane → Int × Int × Int) (h : Heap) (a : Nat) : Int × Int × Int :=
  ((load h a).map key).getD (0, 0, 0)

/-- The addresses of the lanes of `h`, sorted by a standard insertion sort
into ascending order of their keys. -/
def sortByKey (key : Lane → Int × Int × Int) (h : Heap) : List Nat :=
  (List.range h.length).insertionSort (fun a b => keyLE (keyAt key h a) (keyAt key h b) = true)

/-- The composite key in the words of the specification: emergency tier
first (emergency lanes before the others), then `vehicleCount` descending,
then `laneNumber` ascending. -/
def specCompositeKey (l : Lane) : Int × Int × Int :=
  (if l.emergencyVehicle ≠ 0 then 0 else 1, -l.vehicleCount, l.laneNumber)

/-- The composite key that `calculatePriority` and `enqueue` realise: emergency
tier first, then `vehicleCount` descending among the lanes without an
emergency vehicle only, then `laneNumber` ascending. -/
def tieredKey (l : Lane) : Int × Int × Int :=
  (if l.emergencyVehicle ≠ 0 then 0 else 1,
    if l.emergencyVehicle ≠ 0 then 0 else -l.vehicleCount, l.laneNumber)


/-! ## Reading and validating the input -/

/-- The three `exit(EXIT_FAILURE)` branches that `main` and
`inputVehicleCounts` take on invalid input, one for each message:
"Invalid intersection type.", "Invalid vehicle count." and
"Invalid input for emergency vehicle.". -/
inductive InvalidInput where
  | intersectionType
  | vehicleCount
  | emergencyVehicle
  deriving DecidableEq

deriving instance DecidableEq for Except

/-- Standard input as the successive calls of `scanf("%d", ...)` see it: the
entry `some v` is a field that converts to the `int` `v`, the entry `none` is a
field that does not convert, and the empty list is the end of the input. -/
abbrev Stdin := List (Option Int)

/-- One call `scanf("%d", p)`: the value stored through `p` and the rest of the
input when the call returns 1, `none` when it returns anything else. -/
def scanInt : Stdin → Option (Int × Stdin)
  | some v :: rest => some (v, rest)
  | _ => none

/-- The intersection type that the cast `(IntersectionType)typeInput` yields
for the values 0 and 1. -/
def typeOfInput (typeInput : Int) : IntersectionType :=
  if typeInput = 0 then .T_INTERSECTION else .PLUS_INTERSECTION

namespace Traffic27

/-- The body of the loop of `inputVehicleCounts` for the lane at address
`a`, up to the step to the next lane: each of the two `scanf` calls stores
the value it reads into the lane before the value is checked, and a failed
check ends the program. -/
def inputLane (input : Stdin) (h : Heap) (a : Nat) :
    Option (Except InvalidInput (Stdin × Heap)) :=
  match scanInt input with
  | none => some (.error .vehicleCount)
  | some (vc, input1) =>
    match update h a (fun l => { l with vehicleCount := vc }) with
    | none => none
    | some h1 =>
      if vc < 0 then some (.error .vehicleCount)
      else
        match scanInt input1 with
        | none => some (.error .emergencyVehicle)
        | some (ev, input2) =>
          match update h1 a (fun l => { l with emergencyVehicle := ev }) with
          | none => none
          | some h2 =>
            if ev < 0 ∨ ev > 1 then some (.error .emergencyVehicle)
            else some (.ok (input2, h2))

/-- The `do`-`while` loop of `inputVehicleCounts`, with `cur` the current value
of `currentLane`.  The result is `none` when the bound on the number of
iterations is exhausted or a lane pointer is invalid, an error when a check
ends the program, and otherwise the unread input and the heap on return. -/
def inputLoop (start : Ptr) : Nat → Ptr → Stdin → Heap →
    Option (Except InvalidInput (Stdin × Heap))
  | 0, _, _, _ => none
  | fuel + 1, cur, input, h =>
    match cur with
    | none => none
    | some a =>
      match inputLane input h a with
      | none => none
      | some (.error e) => some (.error e)
      | some (.ok (input1, h1)) =>
        match load h1 a with
        | none => none
        | some l =>
          if l.next = start then some (.ok (input1, h1))
          else inputLoop start fuel l.next input1 h1

/-- The function `inputVehicleCounts`. -/
def inputVehicleCounts (fuel : Nat) (input : Stdin) (h : Heap) (x : Intersection) :
    Option (Except InvalidInput (Stdin × Heap)) :=
  inputLoop x.head fuel x.head input h

/-- The function `main` of `traffic27.c` up to the first call of
`calculateSignalTiming`: the result is the ring on which that call is made,
or the error with which the program ends before it. -/
def main (fuel : Nat) (input : Stdin) : Option (Except InvalidInput (Heap × Intersection)) :=
  match scanInt input with
  | none => some (.error .intersectionType)
  | some (typeInput, input1) =>
    if typeInput ≠ 0 ∧ typeInput ≠ 1 then some (.error .intersectionType)
    else
      match createIntersection (typeOfInput typeInput) with
      | none => none
      | some (h, x) =>
        match inputVehicleCounts fuel input1 h x with
        | none => none
        | some (.error e) => some (.error e)
        | some (.ok (_, h1)) => some (.ok (h1, x))

end Traffic27

/-- The function `main` of `Traffic.c` up to the return of the first call of
`calculateSignalTiming`, given the rows that the query of `fetchLaneData`
returns: the result is the lane heap after that call, or the error with which
the program ends before it. -/
def Traffic.main (rows : List (Int × Int × Int)) (fuel : Nat) (input : Stdin) :
    Option (Except InvalidInput Heap) :=
  match scanInt input with
  | none => some (.error .intersectionType)
  | some (typeInput, _) =>
    if typeInput ≠ 0 ∧ typeInput ≠ 1 then some (.error .intersectionType)
    else
      match createIntersection (typeOfInput typeInput) with
      | none => none
      | some (h, x) => (Traffic.calculateSignalTiming rows fuel h x).map .ok

/-- The input fields that hold the pairs `(vehicleCount, emergencyVehicle)` of
`d`, lane after lane. -/
def tokens : List (Int × Int) → Stdin
  | [] => []
  | p :: d => some p.1 :: some p.2 :: tokens d

/-- The heap `h` after the pairs of `d` have been written into the lanes at
the addresses `i`, `i + 1`, ... -/
def writeFrom : Nat → List (Int × Int) → Heap → Heap
  | _, [], h => h
  | i, p :: d, h =>
    writeFrom (i + 1) d
      (h.modify (fun l => { l with vehicleCount := p.1, emergencyVehicle := p.2 }) i)

/-- The pair `(vehicleCount, emergencyVehicle)` is in the domain of the
computation: the count is not negative and the flag is 0 or 1. -/
def InDomain (p : Int × Int) : Prop := 0 ≤ p.1 ∧ (p.2 = 0 ∨ p.2 = 1)


/-- The vehicle counts of the lanes of `h` are not negative, and their total is
positive and an `int`. -/
def CountsInRange (h : Heap) : Prop :=
  (∀ l ∈ h, 0 ≤ l.vehicleCount) ∧ 0 < (h.map Lane.vehicleCount).sum ∧
    (h.map Lane.vehicleCount).sum ≤ INT_MAX

/-- The lanes of a T-junction with the counts 10, 5, 5 and an emergency vehicle
in lane 2, as `createIntersection` and the input leave them. -/
def exampleRing : Heap := populate tRing.1 [(10, 0), (5, 1), (5, 0)]

/-- The lanes of `exampleRing` with the priorities 7, 8, 9 left in them. -/
def exampleRingStale : Heap := withPriorities exampleRing [7, 8, 9]

/-! # Theorems -/

theorem createIntersection_T : createIntersection .T_INTERSECTION = some tRing := by
  decide

theorem createIntersection_PLUS : createIntersection .PLUS_INTERSECTION = some plusRing := by
  decide

theorem ringLinks_length {n : Nat} {h : Heap} (hr : RingLinks n h) : h.length = n := by
  have := congrArg List.length hr
  simpa using this

theorem ringLinks_load {n : Nat} {h : Heap} (hr : RingLinks n h) {a : Nat} (ha : a < n) :
    ∃ l, load h a = some l ∧ l.next = some ((a + 1) % n) := by
  have hlen := ringLinks_length hr
  have hal : a < h.length := by omega
  refine ⟨h[a], by simp [load, hal], ?_⟩
  have h1 : (h.map Lane.next)[a]? = some (some ((a + 1) % n)) := by
    rw [hr]; simp [ha]
  simpa [hal] using h1

theorem doWhile_eq_runOver_aux {σ : Type} (body : σ → Heap → Nat → Option (σ × Heap))
    (hb : PreservesNext body) (n a : Nat) (ha : a < n) :
    ∀ (j i fuel : Nat) (s : σ) (h : Heap), 0 < j → i + j = n → j ≤ fuel → RingLinks n h →
      doWhile body (some a) fuel (some ((a + i) % n)) s h =
        runOver body ((List.range' i j).map (fun i => (a + i) % n)) s h := by
  intro j
  induction j with
  | zero => intro i fuel s h hj; omega
  | succ j ih =>
    intro i fuel s h _ hij hf hr
    obtain ⟨fuel, rfl⟩ : ∃ f, fuel = f + 1 := ⟨fuel - 1, by omega⟩
    rw [doWhile]
    simp only [List.range'_succ, List.map_cons, runOver]
    cases hbody : body s h ((a + i) % n) with
    | none => rfl
    | some r =>
      obtain ⟨s1, h1⟩ := r
      have hr1 : RingLinks n h1 := by
        unfold RingLinks; rw [hb _ _ _ _ _ hbody]; exact hr
      have hlt : (a + i) % n < n := Nat.mod_lt _ (by omega)
      obtain ⟨l, hl, hnext⟩ := ringLinks_load hr1 hlt
      have hstep : ((a + i) % n + 1) % n = (a + (i + 1)) % n := by
        rw [Nat.add_assoc a i 1 |>.symm, Nat.add_mod (a + i) 1 n, Nat.add_mod ((a + i) % n) 1 n,
          Nat.mod_mod]
      simp only [hl, hnext, hstep]
      by_cases hj0 : j = 0
      · subst hj0
        have : (a + (i + 1)) % n = a := by
          have : a + (i + 1) = a + n := by omega
          rw [this, Nat.add_mod_right, Nat.mod_eq_of_lt ha]
        simp [this, runOver]
      · have hne : (a + (i + 1)) % n ≠ a := by
          intro hEq
          have h2 : (a + (i + 1)) % n = a % n := by rw [hEq, Nat.mod_eq_of_lt ha]
          have h3 : (i + 1) % n = 0 := by
            have := (Nat.ModEq.add_left_cancel' a (show a + (i + 1) ≡ a + 0 [MOD n] from by
              simpa [Nat.ModEq] using h2))
            simpa [Nat.ModEq] using this
          rw [Nat.mod_eq_of_lt (by omega)] at h3
          omega
        have hne2 : (some ((a + (i + 1)) % n) : Ptr) ≠ some a := by
          intro hh; exact hne (Option.some.inj hh)
        rw [if_neg hne2]
        exact ih (i + 1) fuel s1 h1 (by omega) (by omega) (by omega) hr1

/-- On a ring of `n` lanes, a `do`-`while` traversal that starts at lane `a`
and whose body leaves the links alone applies the body to the `n` addresses
`a, a + 1, ...` (modulo `n`) in turn, whenever the budget is at least `n`. -/
theorem doWhile_eq_runOver {σ : Type} (body : σ → Heap → Nat → Option (σ × Heap))
    (hb : PreservesNext body) {n a fuel : Nat} (ha : a < n) (hf : n ≤ fuel) (s : σ) {h : Heap}
    (hr : RingLinks n h) :
    doWhile body (some a) fuel (some a) s h =
      runOver body ((List.range n).map (fun i => (a + i) % n)) s h := by
  have := doWhile_eq_runOver_aux body hb n a ha n 0 fuel s h (by omega) (by omega) hf hr
  simpa [Nat.mod_eq_of_lt ha, List.range_eq_range'] using this

/-- The shape that `createIntersection` gives a ring, whatever its data fields hold. -/
theorem isRing_shape {type : IntersectionType} {h : Heap} {x : Intersection}
    (hr : IsRing type h x) :
    ∃ n : Nat, (n = 3 ∨ n = 4) ∧ x.laneCount = n ∧ x.head = some 0 ∧ h.length = n ∧
      RingLinks n h ∧ h.map Lane.laneNumber = (List.range n).map (fun i : Nat => (i : Int) + 1) := by
  obtain ⟨h0, hc, hm⟩ := hr
  have hnext : h.map Lane.next = (h.map Lane.links).map (fun p => p.1) := by
    simp [List.map_map, Function.comp_def, Lane.links]
  have hnum : h.map Lane.laneNumber = (h.map Lane.links).map (fun p => p.2.2) := by
    simp [List.map_map, Function.comp_def, Lane.links]
  have hlen : h.length = h0.length := by simpa using congrArg List.length hm
  cases type with
  | T_INTERSECTION =>
    rw [createIntersection_T] at hc
    obtain ⟨rfl, rfl⟩ := Prod.mk.inj (Option.some.inj hc)
    refine ⟨3, Or.inl rfl, rfl, rfl, hlen, ?_, ?_⟩
    · unfold RingLinks; rw [hnext, hm]; decide
    · rw [hnum, hm]; decide
  | PLUS_INTERSECTION =>
    rw [createIntersection_PLUS] at hc
    obtain ⟨rfl, rfl⟩ := Prod.mk.inj (Option.some.inj hc)
    refine ⟨4, Or.inr rfl, rfl, rfl, hlen, ?_, ?_⟩
    · unfold RingLinks; rw [hnext, hm]; decide
    · rw [hnum, hm]; decide

theorem load_of_lt {h : Heap} {a : Nat} (ha : a < h.length) : load h a = some (h.get ⟨a, ha⟩) := by
  simp [load, ha]

theorem isRing_laneNumber {type : IntersectionType} {h : Heap} {x : Intersection}
    (hr : IsRing type h x) {a : Nat} {l : Lane} (hl : load h a = some l) :
    l.laneNumber = (a : Int) + 1 := by
  obtain ⟨n, _, _, _, hlen, _, hnum⟩ := isRing_shape hr
  have h2 : h[a]? = some l := hl
  have ha : a < h.length := by
    by_contra hc
    rw [List.getElem?_eq_none (Nat.not_lt.mp hc)] at h2
    exact Option.noConfusion h2
  have h1 : (h.map Lane.laneNumber)[a]? = some ((a : Int) + 1) := by
    rw [hnum, List.getElem?_map, List.getElem?_range (by omega)]
    rfl
  rw [List.getElem?_map, h2] at h1
  exact Option.some.inj h1

/-! ## C10: `createIntersection` -/

/-- C10: `createIntersection type` returns a ring whose `laneCount` is 3 for a
T-junction and 4 for a +-junction, whose lanes read from `head` along `next`
carry the lane numbers `1, ..., laneCount` in that order, and all of whose
lanes have `vehicleCount`, `greenTime`, `redTime`, `priority`, `waitingTime`
and `emergencyVehicle` equal to 0. -/
theorem createIntersection_spec (type : IntersectionType) :
    ∃ h x, createIntersection type = some (h, x) ∧ x.type = type ∧
      x.laneCount = (match type with
        | .T_INTERSECTION => 3
        | .PLUS_INTERSECTION => 4) ∧
      (h.length : Int) = x.laneCount ∧
      (lanesFrom h x.laneCount.toNat x.head).map Lane.laneNumber =
        (List.range x.laneCount.toNat).map (fun i : Nat => (i : Int) + 1) ∧
      ∀ l ∈ h, l.vehicleCount = 0 ∧ l.greenTime = 0 ∧ l.redTime = 0 ∧ l.priority = 0 ∧
        l.waitingTime = 0 ∧ l.emergencyVehicle = 0 := by
  cases type with
  | T_INTERSECTION =>
    exact ⟨tRing.1, tRing.2, createIntersection_T, by decide⟩
  | PLUS_INTERSECTION =>
    exact ⟨plusRing.1, plusRing.2, createIntersection_PLUS, by decide⟩

/-! ## C9: the traversal -/

theorem preservesNext_log :
    PreservesNext (fun (log : List Int) (h : Heap) (a : Nat) =>
      (load h a).map (fun l => (log ++ [l.laneNumber], h))) := by
  intro s h a s1 h1 hb
  cases hl : load h a with
  | none => simp [hl] at hb
  | some l =>
    simp only [hl, Option.map_some', Option.some.injEq, Prod.mk.injEq] at hb
    rw [hb.2]

theorem runOver_log {type : IntersectionType} {h : Heap} {x : Intersection}
    (hr : IsRing type h x) :
    ∀ (as : List Nat) (log : List Int), (∀ a ∈ as, a < h.length) →
      runOver (fun (log : List Int) (h : Heap) (a : Nat) =>
        (load h a).map (fun l => (log ++ [l.laneNumber], h))) as log h =
      some (log ++ as.map (fun a : Nat => (a : Int) + 1), h) := by
  intro as
  induction as with
  | nil => intro log _; simp [runOver]
  | cons a as ih =>
    intro log hall
    have ha : a < h.length := hall a (List.mem_cons_self _ _)
    have hl := load_of_lt ha
    have hnum := isRing_laneNumber hr hl
    simp only [runOver, hl, Option.map_some', hnum]
    rw [ih _ (fun b hb => hall b (List.mem_cons_of_mem _ hb))]
    simp

/-- A traversal started at the second lane of a T-junction meets the lanes in
the order 2, 3, 1, which is not ascending. -/
theorem traversal_from_second_lane_not_ascending :
    (createIntersection .T_INTERSECTION).bind (fun r => visitOrder 3 r.1 (some 1)) =
        some [2, 3, 1] ∧
      ¬ List.Pairwise (fun a b : Int => a < b) [2, 3, 1] := by
  decide

/-- C9 (amended): on every ring built by `createIntersection`, whatever its
data fields hold, the `do`-`while` traversal started at any lane of the ring
and given a budget of at least `laneCount` iterations terminates after
applying its body exactly `laneCount` times, to each lane exactly once, in
ring order from the starting lane (lane numbers `start, start + 1, ...`,
wrapping from `laneCount` to 1); the order is ascending in `laneNumber` when
the traversal starts at the head, as every pass of the source does.  The
first part states this for a body that records the lane numbers it meets, the
last part for every body that leaves the `next` fields alone. -/
theorem traversal_visits_each_lane_once_in_ring_order (type : IntersectionType) (h : Heap)
    (x : Intersection) (hr : IsRing type h x) (start fuel : Nat) (hs : start < h.length)
    (hf : x.laneCount ≤ fuel) :
    (∃ log, visitOrder fuel h (some start) = some log ∧
      log = (List.range h.length).map (fun i : Nat => (((start + i) % h.length : Nat) : Int) + 1) ∧
      (log.length : Int) = x.laneCount ∧
      log.Perm (h.map Lane.laneNumber) ∧ log.Nodup ∧
      (some start = x.head → log = (List.range h.length).map (fun i : Nat => (i : Int) + 1))) ∧
    ∀ (σ : Type) (body : σ → Heap → Nat → Option (σ × Heap)) (s : σ), PreservesNext body →
      doWhile body (some start) fuel (some start) s h =
        runOver body ((List.range h.length).map (fun i => (start + i) % h.length)) s h := by
  obtain ⟨n, hn, hcount, hhead, hlen, hlinks, hnum⟩ := isRing_shape hr
  have hfn : n ≤ fuel := by rw [hcount] at hf; exact_mod_cast hf
  rw [hlen] at hs
  have hrun := doWhile_eq_runOver _ preservesNext_log hs hfn ([] : List Int) hlinks
  have hall : ∀ a ∈ (List.range n).map (fun i => (start + i) % n), a < h.length := by
    intro a ha
    obtain ⟨i, _, rfl⟩ := List.mem_map.mp ha
    rw [hlen]; exact Nat.mod_lt _ (by omega)
  rw [runOver_log hr _ _ hall] at hrun
  refine ⟨⟨_, by simp [visitOrder, hrun]; rfl, ?_, ?_, ?_, ?_, ?_⟩, ?_⟩
  · rw [hlen]; simp [List.map_map, Function.comp_def]
  · simp [hcount]
  · rw [hnum]
    rcases hn with rfl | rfl <;> interval_cases start <;> decide
  · rcases hn with rfl | rfl <;> interval_cases start <;> decide
  · intro h0
    rw [hhead] at h0
    obtain rfl : start = 0 := Option.some.inj h0
    rw [hlen]
    rcases hn with rfl | rfl <;> decide
  · intro σ body s hb
    rw [hlen]
    exact doWhile_eq_runOver body hb hs hfn s hlinks

/-- Witness for C9: the T-junction ring, traversal started at its second lane. -/
theorem traversal_visits_each_lane_once_in_ring_order_witness :
    IsRing .T_INTERSECTION tRing.1 tRing.2 ∧ 1 < tRing.1.length ∧ tRing.2.laneCount ≤ (3 : Nat) ∧
    (∃ log, visitOrder 3 tRing.1 (some 1) = some log ∧
      log = (List.range tRing.1.length).map
        (fun i : Nat => (((1 + i) % tRing.1.length : Nat) : Int) + 1) ∧
      (log.length : Int) = tRing.2.laneCount ∧
      log.Perm (tRing.1.map Lane.laneNumber) ∧ log.Nodup ∧
      (some 1 = tRing.2.head →
        log = (List.range tRing.1.length).map (fun i : Nat => (i : Int) + 1))) ∧
    ∀ (σ : Type) (body : σ → Heap → Nat → Option (σ × Heap)) (s : σ), PreservesNext body →
      doWhile body (some 1) 3 (some 1) s tRing.1 =
        runOver body ((List.range tRing.1.length).map (fun i => (1 + i) % tRing.1.length)) s
          tRing.1 :=
  ⟨⟨tRing.1, createIntersection_T, rfl⟩, by decide, by decide,
    traversal_visits_each_lane_once_in_ring_order .T_INTERSECTION tRing.1 tRing.2
      ⟨tRing.1, createIntersection_T, rfl⟩ 1 3 (by decide) (by decide)⟩

/-! ## The priority queue -/

theorem prioOf_of_load {h : Heap} {a : Nat} {l : Lane} (hl : load h a = some l) :
    prioOf h a = l.priority := by
  simp [prioOf, hl]

theorem enqueueLoop_eq (h : Heap) (lane : Nat) :
    ∀ rest : List Nat, (∀ a ∈ rest, a < h.length) →
      Traffic27.enqueueLoop h lane (prioOf h lane) rest =
        some (insertByPriority (prioOf h) lane rest) := by
  intro rest
  induction rest with
  | nil => intro _; rfl
  | cons n rest ih =>
    intro hall
    have hn : n < h.length := hall n (List.mem_cons_self _ _)
    have hl := load_of_lt hn
    have hp := prioOf_of_load hl
    simp only [Traffic27.enqueueLoop, hl, insertByPriority, hp]
    by_cases hlt : (h.get ⟨n, hn⟩).priority < prioOf h lane
    · rw [if_neg (by omega), if_pos hlt]
    · rw [if_pos (by omega), if_neg hlt, ih (fun b hb => hall b (List.mem_cons_of_mem _ hb))]
      rfl

theorem enqueue_eq (h : Heap) (pq : List Nat) (lane : Nat) (hq : ∀ a ∈ pq, a < h.length)
    (hl : lane < h.length) :
    Traffic27.enqueue h pq lane = some (insertByPriority (prioOf h) lane pq) := by
  cases pq with
  | nil => rfl
  | cons hd rest =>
    have hhd : hd < h.length := hq hd (List.mem_cons_self _ _)
    have h1 := load_of_lt hhd
    have h2 := load_of_lt hl
    simp only [Traffic27.enqueue, h1, h2, insertByPriority, prioOf_of_load h1]
    rw [← prioOf_of_load h2]
    by_cases hlt : (h.get ⟨hd, hhd⟩).priority < prioOf h lane
    · rw [if_pos hlt, if_pos hlt]
    · rw [if_neg hlt, if_neg hlt,
        enqueueLoop_eq h lane rest (fun b hb => hq b (List.mem_cons_of_mem _ hb))]
      rfl

theorem insertByPriority_perm (prio : Nat → Int) (x : Nat) :
    ∀ l : List Nat, (insertByPriority prio x l).Perm (x :: l) := by
  intro l
  induction l with
  | nil => exact List.Perm.refl _
  | cons y ys ih =>
    simp only [insertByPriority]
    split
    · exact List.Perm.refl _
    · exact (List.Perm.cons y ih).trans (List.Perm.swap x y ys)

theorem mem_insertByPriority {prio : Nat → Int} {x z : Nat} {l : List Nat} :
    z ∈ insertByPriority prio x l ↔ z = x ∨ z ∈ l := by
  rw [(insertByPriority_perm prio x l).mem_iff, List.mem_cons]

theorem foldl_insertByPriority_perm (prio : Nat → Int) :
    ∀ (as q : List Nat),
      (as.foldl (fun q a => insertByPriority prio a q) q).Perm (q ++ as) := by
  intro as
  induction as with
  | nil => intro q; simp
  | cons a as ih =>
    intro q
    simp only [List.foldl_cons]
    refine (ih _).trans ?_
    refine ((insertByPriority_perm prio a q).append_right as).trans ?_
    simpa using (@List.perm_middle _ a q as).symm

theorem insertByPriority_pairwise (prio : Nat → Int) (x : Nat) :
    ∀ l : List Nat, l.Pairwise (DispatchBefore prio) → (∀ y ∈ l, y < x) →
      (insertByPriority prio x l).Pairwise (DispatchBefore prio) := by
  intro l
  induction l with
  | nil => intro _ _; simp [insertByPriority]
  | cons y ys ih =>
    intro hp hlt
    rw [List.pairwise_cons] at hp
    simp only [insertByPriority]
    split
    · rename_i hyx
      refine List.pairwise_cons.mpr ⟨?_, List.pairwise_cons.mpr hp⟩
      intro z hz
      rcases List.mem_cons.mp hz with rfl | hz
      · exact Or.inl hyx
      · rcases hp.1 z hz with h1 | h1
        · exact Or.inl (by omega)
        · exact Or.inl (by omega)
    · rename_i hyx
      refine List.pairwise_cons.mpr ⟨?_, ih hp.2 (fun z hz => hlt z (List.mem_cons_of_mem _ hz))⟩
      intro z hz
      rcases mem_insertByPriority.mp hz with rfl | hz
      · have := hlt y (List.mem_cons_self _ _)
        unfold DispatchBefore
        omega
      · exact hp.1 z hz

theorem foldl_insertByPriority_pairwise (prio : Nat → Int) :
    ∀ (as q : List Nat), q.Pairwise (DispatchBefore prio) → as.Pairwise (fun a b => a < b) →
      (∀ y ∈ q, ∀ a ∈ as, y < a) →
      (as.foldl (fun q a => insertByPriority prio a q) q).Pairwise (DispatchBefore prio) := by
  intro as
  induction as with
  | nil => intro q hq _ _; simpa using hq
  | cons a as ih =>
    intro q hq has hlt
    rw [List.pairwise_cons] at has
    simp only [List.foldl_cons]
    refine ih _ (insertByPriority_pairwise prio a q hq
      (fun y hy => hlt y hy a (List.mem_cons_self _ _))) has.2 ?_
    intro y hy b hb
    rcases mem_insertByPriority.mp hy with rfl | hy
    · exact has.1 b hb
    · exact hlt y hy b (List.mem_cons_of_mem _ hb)

theorem pairwise_indexOf_lt {R : Nat → Nat → Prop} :
    ∀ (l : List Nat) (a b : Nat), l.Pairwise R → a ∈ l → b ∈ l → a ≠ b → ¬ R b a →
      l.indexOf a < l.indexOf b := by
  intro l
  induction l with
  | nil => intro a b _ ha; simp at ha
  | cons y ys ih =>
    intro a b hp ha hb hab hR
    rw [List.pairwise_cons] at hp
    by_cases hay : a = y
    · subst hay
      rw [List.indexOf_cons_self, List.indexOf_cons_ne _ (fun h => hab h)]
      exact Nat.succ_pos _
    · have ha1 : a ∈ ys := (List.mem_cons.mp ha).resolve_left hay
      by_cases hby : b = y
      · subst hby
        exact absurd (hp.1 a ha1) hR
      · have hb1 : b ∈ ys := (List.mem_cons.mp hb).resolve_left hby
        rw [List.indexOf_cons_ne _ (fun h => hay h.symm), List.indexOf_cons_ne _ (fun h => hby h.symm)]
        exact Nat.succ_lt_succ (ih a b hp.2 ha1 hb1 hab hR)

theorem preservesNext_enqueue :
    PreservesNext (fun (pq : List Nat) (h : Heap) (a : Nat) =>
      (Traffic27.enqueue h pq a).map (fun q => (q, h))) := by
  intro s h a s1 h1 hb
  cases hl : Traffic27.enqueue h s a with
  | none => simp [hl] at hb
  | some l =>
    simp only [hl, Option.map_some', Option.some.injEq, Prod.mk.injEq] at hb
    rw [hb.2]

theorem runOver_enqueue (h : Heap) :
    ∀ (as pq : List Nat), (∀ a ∈ as, a < h.length) → (∀ a ∈ pq, a < h.length) →
      runOver (fun (pq : List Nat) (h : Heap) (a : Nat) =>
        (Traffic27.enqueue h pq a).map (fun q => (q, h))) as pq h =
      some (as.foldl (fun q a => insertByPriority (prioOf h) a q) pq, h) := by
  intro as
  induction as with
  | nil => intro pq _ _; rfl
  | cons a as ih =>
    intro pq has hpq
    have ha : a < h.length := has a (List.mem_cons_self _ _)
    simp only [runOver, enqueue_eq h pq a hpq ha, Option.map_some', List.foldl_cons]
    refine ih _ (fun b hb => has b (List.mem_cons_of_mem _ hb)) ?_
    intro b hb
    rcases mem_insertByPriority.mp hb with rfl | hb
    · exact ha
    · exact hpq b hb

/-- The dispatch sequence of a ring is the result of inserting the addresses
`0, ..., laneCount - 1` one after the other into the empty list. -/
theorem displaySignalTiming_eq {type : IntersectionType} {h : Heap} {x : Intersection}
    (hr : IsRing type h x) {fuel : Nat} (hf : x.laneCount ≤ fuel) :
    Traffic27.displaySignalTiming fuel h x =
      some ((List.range h.length).foldl (fun q a => insertByPriority (prioOf h) a q) []) := by
  obtain ⟨n, hn, hcount, hhead, hlen, hlinks, _⟩ := isRing_shape hr
  have hfn : n ≤ fuel := by rw [hcount] at hf; exact_mod_cast hf
  have hrun := doWhile_eq_runOver _ preservesNext_enqueue (show 0 < n by omega) hfn
    ([] : List Nat) hlinks
  have hl : (List.range n).map (fun i => (0 + i) % n) = List.range n := by
    rcases hn with rfl | rfl <;> decide
  rw [hl, runOver_enqueue h _ _ (by intro a ha; rw [hlen]; exact List.mem_range.mp ha)
    (by intro a ha; simp at ha)] at hrun
  simp [Traffic27.displaySignalTiming, hhead, hrun, hlen]

theorem isRing_populate_T (d0 d1 d2 : Int × Int) :
    IsRing .T_INTERSECTION (populate tRing.1 [d0, d1, d2]) tRing.2 :=
  ⟨tRing.1, createIntersection_T, rfl⟩

theorem isRing_populate_PLUS (d0 d1 d2 d3 : Int × Int) :
    IsRing .PLUS_INTERSECTION (populate plusRing.1 [d0, d1, d2, d3]) plusRing.2 :=
  ⟨plusRing.1, createIntersection_PLUS, rfl⟩

theorem isRing_withPriorities_T (p0 p1 p2 : Int) :
    IsRing .T_INTERSECTION (withPriorities tRing.1 [p0, p1, p2]) tRing.2 :=
  ⟨tRing.1, createIntersection_T, rfl⟩

theorem isRing_withPriorities_PLUS (p0 p1 p2 p3 : Int) :
    IsRing .PLUS_INTERSECTION (withPriorities plusRing.1 [p0, p1, p2, p3]) plusRing.2 :=
  ⟨plusRing.1, createIntersection_PLUS, rfl⟩

theorem dispatch_facts {type : IntersectionType} {h : Heap} {x : Intersection}
    (hr : IsRing type h x) {fuel : Nat} (hf : x.laneCount ≤ fuel) :
    ∃ seq, Traffic27.displaySignalTiming fuel h x = some seq ∧
      seq.Perm (List.range h.length) ∧ seq.Pairwise (DispatchBefore (prioOf h)) := by
  refine ⟨_, displaySignalTiming_eq hr hf, ?_, ?_⟩
  · simpa using foldl_insertByPriority_perm (prioOf h) (List.range h.length) []
  · refine foldl_insertByPriority_pairwise (prioOf h) _ [] List.Pairwise.nil ?_ ?_
    · exact List.pairwise_lt_range _
    · intro y hy; simp at hy

/-! ## C1: the dispatch sequence is a permutation of the lanes -/

/-- C1: for every ring built by `createIntersection` (3 or 4 lanes) and every
assignment of priorities to its lanes, the queue that `displaySignalTiming`
builds by enqueueing each lane once from the head into an empty priority
queue is a permutation of the ring's lanes: its length is `laneCount` and
every lane occurs in it exactly once. -/
theorem dispatch_sequence_is_permutation (type : IntersectionType) (h : Heap) (x : Intersection)
    (hr : IsRing type h x) (fuel : Nat) (hf : x.laneCount ≤ fuel) :
    ∃ seq, Traffic27.displaySignalTiming fuel h x = some seq ∧
      (seq.length : Int) = x.laneCount ∧ seq.Perm (List.range h.length) ∧
      (∀ a, a < h.length → seq.count a = 1) ∧ ∀ a ∈ seq, a < h.length := by
  obtain ⟨seq, hseq, hperm, _⟩ := dispatch_facts hr hf
  obtain ⟨n, _, hcount, _, hlen, _, _⟩ := isRing_shape hr
  refine ⟨seq, hseq, ?_, hperm, ?_, ?_⟩
  · rw [hperm.length_eq, List.length_range, hlen, hcount]
  · intro a ha
    rw [hperm.count_eq]
    exact List.count_eq_one_of_mem (List.nodup_range _) (List.mem_range.mpr ha)
  · intro a ha
    exact List.mem_range.mp (hperm.mem_iff.mp ha)

/-- Witness for C1: a T-junction whose lanes hold the priorities 5, 9, 5. -/
theorem dispatch_sequence_is_permutation_witness :
    IsRing .T_INTERSECTION (withPriorities tRing.1 [5, 9, 5]) tRing.2 ∧
    tRing.2.laneCount ≤ (3 : Nat) ∧
    ∃ seq, Traffic27.displaySignalTiming 3 (withPriorities tRing.1 [5, 9, 5]) tRing.2 = some seq ∧
      (seq.length : Int) = tRing.2.laneCount ∧
      seq.Perm (List.range (withPriorities tRing.1 [5, 9, 5]).length) ∧
      (∀ a, a < (withPriorities tRing.1 [5, 9, 5]).length → seq.count a = 1) ∧
      ∀ a ∈ seq, a < (withPriorities tRing.1 [5, 9, 5]).length :=
  ⟨isRing_withPriorities_T 5 9 5, by decide,
    dispatch_sequence_is_permutation .T_INTERSECTION (withPriorities tRing.1 [5, 9, 5]) tRing.2
      (isRing_withPriorities_T 5 9 5) 3 (by decide)⟩

/-! ## C2: the dispatch sequence is sorted by priority -/

/-- C2: for every ring and every assignment of priorities to its lanes, the
dispatch sequence built by `displaySignalTiming` is sorted non-increasing by
priority: the priority of each element is greater than or equal to the
priority of the element that follows it (and of every later element). -/
theorem dispatch_sequence_sorted (type : IntersectionType) (h : Heap) (x : Intersection)
    (hr : IsRing type h x) (fuel : Nat) (hf : x.laneCount ≤ fuel) :
    ∃ seq, Traffic27.displaySignalTiming fuel h x = some seq ∧
      seq.Chain' (fun a b => prioOf h b ≤ prioOf h a) ∧
      seq.Pairwise (fun a b => prioOf h b ≤ prioOf h a) ∧
      ∀ a ∈ seq, ∃ l, load h a = some l ∧ prioOf h a = l.priority := by
  obtain ⟨seq, hseq, hperm, hpw⟩ := dispatch_facts hr hf
  have hsorted : seq.Pairwise (fun a b => prioOf h b ≤ prioOf h a) := by
    refine hpw.imp ?_
    intro a b hab
    rcases hab with h1 | h1
    · exact Int.le_of_lt h1
    · exact Int.le_of_eq h1.1.symm
  refine ⟨seq, hseq, hsorted.chain', hsorted, ?_⟩
  intro a ha
  have hlt : a < h.length := List.mem_range.mp (hperm.mem_iff.mp ha)
  exact ⟨_, load_of_lt hlt, prioOf_of_load (load_of_lt hlt)⟩

/-- Witness for C2: a +-junction whose lanes hold the priorities 3, 8, 8, 1. -/
theorem dispatch_sequence_sorted_witness :
    IsRing .PLUS_INTERSECTION (withPriorities plusRing.1 [3, 8, 8, 1]) plusRing.2 ∧
    plusRing.2.laneCount ≤ (4 : Nat) ∧
    ∃ seq, Traffic27.displaySignalTiming 4 (withPriorities plusRing.1 [3, 8, 8, 1]) plusRing.2 =
        some seq ∧
      seq.Chain' (fun a b => prioOf (withPriorities plusRing.1 [3, 8, 8, 1]) b ≤
        prioOf (withPriorities plusRing.1 [3, 8, 8, 1]) a) ∧
      seq.Pairwise (fun a b => prioOf (withPriorities plusRing.1 [3, 8, 8, 1]) b ≤
        prioOf (withPriorities plusRing.1 [3, 8, 8, 1]) a) ∧
      ∀ a ∈ seq, ∃ l, load (withPriorities plusRing.1 [3, 8, 8, 1]) a = some l ∧
        prioOf (withPriorities plusRing.1 [3, 8, 8, 1]) a = l.priority :=
  ⟨isRing_withPriorities_PLUS 3 8 8 1, by decide,
    dispatch_sequence_sorted .PLUS_INTERSECTION (withPriorities plusRing.1 [3, 8, 8, 1]) plusRing.2
      (isRing_withPriorities_PLUS 3 8 8 1) 4 (by decide)⟩

/-! ## C3: the dispatch sequence is stable -/

/-- C3: for every ring and every two lanes with equal priority (two emergency
lanes that both hold the top priority included), the lane with the smaller
`laneNumber` stands before the lane with the larger `laneNumber` in the
sequence built by `displaySignalTiming`. -/
theorem dispatch_sequence_stable (type : IntersectionType) (h : Heap) (x : Intersection)
    (hr : IsRing type h x) (fuel : Nat) (hf : x.laneCount ≤ fuel) :
    ∃ seq, Traffic27.displaySignalTiming fuel h x = some seq ∧
      ∀ a b la lb, load h a = some la → load h b = some lb → la.priority = lb.priority →
        la.laneNumber < lb.laneNumber → a ∈ seq ∧ b ∈ seq ∧ seq.indexOf a < seq.indexOf b := by
  obtain ⟨seq, hseq, hperm, hpw⟩ := dispatch_facts hr hf
  refine ⟨seq, hseq, ?_⟩
  intro a b la lb hla hlb hp hnum
  have hmem : ∀ {c : Nat} {lc : Lane}, load h c = some lc → c ∈ seq := by
    intro c lc hc
    refine hperm.mem_iff.mpr (List.mem_range.mpr ?_)
    by_contra hge
    have h2 : h[c]? = some lc := hc
    rw [List.getElem?_eq_none (Nat.not_lt.mp hge)] at h2
    exact Option.noConfusion h2
  rw [isRing_laneNumber hr hla, isRing_laneNumber hr hlb] at hnum
  have hab : a < b := by omega
  refine ⟨hmem hla, hmem hlb, pairwise_indexOf_lt seq a b hpw (hmem hla) (hmem hlb) (by omega) ?_⟩
  rw [DispatchBefore, prioOf_of_load hla, prioOf_of_load hlb]
  omega

/-- Witness for C3: a +-junction in which lanes 2 and 4 both hold `INT_MAX`. -/
theorem dispatch_sequence_stable_witness :
    IsRing .PLUS_INTERSECTION (withPriorities plusRing.1 [7, INT_MAX, 7, INT_MAX]) plusRing.2 ∧
    plusRing.2.laneCount ≤ (4 : Nat) ∧
    ∃ seq, Traffic27.displaySignalTiming 4 (withPriorities plusRing.1 [7, INT_MAX, 7, INT_MAX])
        plusRing.2 = some seq ∧
      ∀ a b la lb, load (withPriorities plusRing.1 [7, INT_MAX, 7, INT_MAX]) a = some la →
        load (withPriorities plusRing.1 [7, INT_MAX, 7, INT_MAX]) b = some lb →
        la.priority = lb.priority → la.laneNumber < lb.laneNumber →
        a ∈ seq ∧ b ∈ seq ∧ seq.indexOf a < seq.indexOf b :=
  ⟨isRing_withPriorities_PLUS 7 INT_MAX 7 INT_MAX, by decide,
    dispatch_sequence_stable .PLUS_INTERSECTION
      (withPriorities plusRing.1 [7, INT_MAX, 7, INT_MAX]) plusRing.2
      (isRing_withPriorities_PLUS 7 INT_MAX 7 INT_MAX) 4 (by decide)⟩

/-! ## C4: emergency lanes and priority -/

/-- A non-emergency lane that holds `INT_MAX` vehicles receives the same
priority as an emergency lane; on the T-junction with counts
`INT_MAX, 0, 0` and an emergency vehicle in lane 2 only, both programs give
lanes 1 and 2 the priority `INT_MAX`, and the dispatch sequence of
`traffic27.c` lists the non-emergency lane 1 before the emergency lane 2. -/
theorem emergency_priority_not_strictly_greater :
    (Traffic27.timingPasses 3 (populate tRing.1 [(2147483647, 0), (0, 1), (0, 0)]) tRing.2).map
        (fun h => h.map (fun l => (l.emergencyVehicle, l.priority))) =
      some [(0, 2147483647), (1, 2147483647), (0, 0)] ∧
    (Traffic.timingPasses 3 (populate tRing.1 [(2147483647, 0), (0, 1), (0, 0)]) tRing.2).map
        (fun h => h.map (fun l => (l.emergencyVehicle, l.priority))) =
      some [(0, 2147483647), (1, 2147483647), (0, 0)] ∧
    (Traffic27.timingPasses 3 (populate tRing.1 [(2147483647, 0), (0, 1), (0, 0)]) tRing.2).bind
        (fun h => Traffic27.displaySignalTiming 3 h tRing.2) = some [0, 1, 2] := by
  decide

/-- C4 (amended): once every lane of a ring holds the priority that
`calculatePriority` computes from its `vehicleCount` and `emergencyVehicle`,
and the vehicle counts are `int`s, every lane with `emergencyVehicle` set has
priority `INT_MAX`, which is greater than or equal to the priority of every
lane without `emergencyVehicle` set, and strictly greater than the priority of
every such lane whose `vehicleCount` is below `INT_MAX`; the emergency lane
then stands before that lane in the dispatch sequence. -/
theorem emergency_priority_dominates (type : IntersectionType) (h : Heap) (x : Intersection)
    (hr : IsRing type h x) (fuel : Nat) (hf : x.laneCount ≤ fuel)
    (hprio : ∀ l ∈ h, l.priority = (calculatePriority l).priority)
    (hint : ∀ l ∈ h, l.vehicleCount ≤ INT_MAX) :
    ∃ seq, Traffic27.displaySignalTiming fuel h x = some seq ∧
      ∀ a b le ln, load h a = some le → load h b = some ln →
        le.emergencyVehicle ≠ 0 → ln.emergencyVehicle = 0 →
        le.priority = INT_MAX ∧ ln.priority ≤ le.priority ∧
        (ln.vehicleCount < INT_MAX →
          ln.priority < le.priority ∧ a ∈ seq ∧ b ∈ seq ∧ seq.indexOf a < seq.indexOf b) := by
  obtain ⟨seq, hseq, hperm, hpw⟩ := dispatch_facts hr hf
  refine ⟨seq, hseq, ?_⟩
  intro a b le ln hle hln hem hnon
  have hmemh : ∀ {c : Nat} {lc : Lane}, load h c = some lc → lc ∈ h ∧ c ∈ seq := by
    intro c lc hc
    have h2 : h[c]? = some lc := hc
    have hlt : c < h.length := by
      by_contra hge
      rw [List.getElem?_eq_none (Nat.not_lt.mp hge)] at h2
      exact Option.noConfusion h2
    exact ⟨List.getElem?_mem h2, hperm.mem_iff.mpr (List.mem_range.mpr hlt)⟩
  have hpe : le.priority = INT_MAX := by
    rw [hprio le (hmemh hle).1, calculatePriority, if_pos hem]
  have hpn : ln.priority = ln.vehicleCount := by
    rw [hprio ln (hmemh hln).1, calculatePriority, if_neg (by simpa using hnon)]
  have hvn := hint ln (hmemh hln).1
  refine ⟨hpe, by omega, ?_⟩
  intro hlt
  have hne : a ≠ b := by
    rintro rfl
    rw [hle] at hln
    obtain rfl := Option.some.inj hln
    exact hem hnon
  refine ⟨by omega, (hmemh hle).2, (hmemh hln).2,
    pairwise_indexOf_lt seq a b hpw (hmemh hle).2 (hmemh hln).2 hne ?_⟩
  rw [DispatchBefore, prioOf_of_load hle, prioOf_of_load hln]
  omega

/-- Witness for C4: the T-junction with counts 10, 5, 5 and an emergency
vehicle in lane 2, after `calculatePriority` has run on every lane. -/
theorem emergency_priority_dominates_witness :
    IsRing .T_INTERSECTION ((populate tRing.1 [(10, 0), (5, 1), (5, 0)]).map calculatePriority)
      tRing.2 ∧
    tRing.2.laneCount ≤ (3 : Nat) ∧
    (∀ l ∈ (populate tRing.1 [(10, 0), (5, 1), (5, 0)]).map calculatePriority,
      l.priority = (calculatePriority l).priority) ∧
    (∀ l ∈ (populate tRing.1 [(10, 0), (5, 1), (5, 0)]).map calculatePriority,
      l.vehicleCount ≤ INT_MAX) ∧
    ∃ seq, Traffic27.displaySignalTiming 3
        ((populate tRing.1 [(10, 0), (5, 1), (5, 0)]).map calculatePriority) tRing.2 = some seq ∧
      ∀ a b le ln,
        load ((populate tRing.1 [(10, 0), (5, 1), (5, 0)]).map calculatePriority) a = some le →
        load ((populate tRing.1 [(10, 0), (5, 1), (5, 0)]).map calculatePriority) b = some ln →
        le.emergencyVehicle ≠ 0 → ln.emergencyVehicle = 0 →
        le.priority = INT_MAX ∧ ln.priority ≤ le.priority ∧
        (ln.vehicleCount < INT_MAX →
          ln.priority < le.priority ∧ a ∈ seq ∧ b ∈ seq ∧ seq.indexOf a < seq.indexOf b) :=
  ⟨⟨tRing.1, createIntersection_T, by decide⟩, by decide, by decide, by decide,
    emergency_priority_dominates .T_INTERSECTION
      ((populate tRing.1 [(10, 0), (5, 1), (5, 0)]).map calculatePriority) tRing.2
      ⟨tRing.1, createIntersection_T, by decide⟩ 3 (by decide) (by decide) (by decide)⟩

/-- The example of C4: with an emergency vehicle in lane 2 of the T-junction
with counts 10, 5, 5, the dispatch sequence is lane 2, lane 1, lane 3. -/
theorem dispatch_example_emergency_lane2 :
    (Traffic27.timingPasses 3 (populate tRing.1 [(10, 0), (5, 1), (5, 0)]) tRing.2).bind
        (fun h => Traffic27.displaySignalTiming 3 h tRing.2) = some [1, 0, 2] := by
  decide

/-! ## C5, C6: red times in `Traffic.c` -/

/-- C5 (failing input): on the T-junction whose rows give the counts 10, 5, 5
and an emergency vehicle in lanes 1 and 2, `calculateSignalTiming` of
`Traffic.c` adds `INT_MAX` twice into `totalTime`, which wraps to 13, and
leaves both emergency lanes with the red time `13 - INT_MAX`, a negative
number. -/
theorem two_emergency_lanes_negative_red_time :
    (Traffic.calculateSignalTiming [(1, 10, 1), (2, 5, 1), (3, 5, 0)] 3 tRing.1 tRing.2).map
        (fun h => h.map (fun l => (l.emergencyVehicle, l.greenTime, l.redTime))) =
      some [(1, 2147483647, -2147483634), (1, 2147483647, -2147483634), (0, 15, -2)] := by
  decide

/-- C6 (failing input): on the T-junction whose rows give the counts 10, 5, 5
and an emergency vehicle in lane 2 only, `calculateSignalTiming` of
`Traffic.c` computes `totalTime = 30 + INT_MAX + 15`, which wraps to
`INT_MIN + 44`, and leaves the non-emergency lanes 1 and 3 with negative red
times. -/
theorem emergency_neighbour_negative_red_time :
    (Traffic.calculateSignalTiming [(1, 10, 0), (2, 5, 1), (3, 5, 0)] 3 tRing.1 tRing.2).map
        (fun h => h.map (fun l => (l.emergencyVehicle, l.greenTime, l.redTime))) =
      some [(0, 30, -2147483634), (1, 2147483647, 45), (0, 15, -2147483619)] := by
  decide

/-- The same junction without any emergency vehicle: `Traffic.c` gives the green
times 30, 15, 15 and the red times 30, 45, 45. -/
theorem red_times_without_emergency :
    (Traffic.calculateSignalTiming [(1, 10, 0), (2, 5, 0), (3, 5, 0)] 3 tRing.1 tRing.2).map
        (fun h => h.map (fun l => (l.emergencyVehicle, l.greenTime, l.redTime))) =
      some [(0, 30, 30), (0, 15, 45), (0, 15, 45)] := by
  decide

/-! ## C7: no vehicles at all -/

/-- C7 (failing input): in `Traffic.c`, when the query rows leave every lane
with 0 vehicles (or the result set is empty on the freshly created ring),
`fetchLaneData` returns, `totalVehicles` is 0 and the green-time pass
evaluates the integer quotient `(vehicleCount * 60) / 0`, which is undefined:
`calculateGreenTime` has no result for a non-emergency lane and
`calculateSignalTiming` has none either, although the budget suffices for the
traversals (the same call with the counts 1, 0, 0 returns the green times 60,
0, 0). -/
theorem zero_total_green_time_undefined :
    Traffic.calculateGreenTime
        { vehicleCount := 0, greenTime := 0, redTime := 0, priority := 0, waitingTime := 0,
          emergencyVehicle := 0, next := some 1, prev := some 2, laneNumber := 1 } 0 3 = none ∧
    (Traffic.fetchLaneData [(1, 0, 0), (2, 0, 0), (3, 0, 0)] tRing.1 tRing.2).map
        (fun h => h.map Lane.snapshot) = some [(0, 0), (0, 0), (0, 0)] ∧
    Traffic.calculateSignalTiming [(1, 0, 0), (2, 0, 0), (3, 0, 0)] 3 tRing.1 tRing.2 = none ∧
    Traffic.calculateSignalTiming [] 3 tRing.1 tRing.2 = none ∧
    (Traffic.calculateSignalTiming [(1, 1, 0), (2, 0, 0), (3, 0, 0)] 3 tRing.1 tRing.2).map
        (fun h => h.map Lane.greenTime) = some [60, 0, 0] :=
  ⟨by decide, by decide, by decide, by decide, by decide⟩

/-! ## C8: single-precision green times in `traffic27.c` -/

theorem ilog2Aux_spec : ∀ (fuel n : Nat), n ≤ fuel → 0 < n →
    2 ^ ilog2Aux fuel n ≤ n ∧ n < 2 ^ (ilog2Aux fuel n + 1) := by
  intro fuel
  induction fuel with
  | zero => intro n h1 h2; omega
  | succ fuel ih =>
    intro n hn hpos
    rw [ilog2Aux]
    by_cases h2 : n < 2
    · rw [if_pos h2]
      constructor
      · simpa using hpos
      · simpa using h2
    · rw [if_neg h2]
      obtain ⟨h3, h4⟩ := ih (n / 2) (by omega) (by omega)
      rw [pow_succ] at h4
      constructor
      · rw [pow_succ]; omega
      · rw [pow_succ, pow_succ]; omega

theorem ilog2_spec {n : Nat} (hn : 0 < n) : 2 ^ ilog2 n ≤ n ∧ n < 2 ^ (ilog2 n + 1) :=
  ilog2Aux_spec n n (Nat.le_refl n) hn

theorem scale_spec (N D : Nat) (hD : 0 < D) (sh : Int) :
    0 < (scale N D sh).2 ∧
      ((scale N D sh).1 : ℚ) / ((scale N D sh).2 : ℚ) = (N : ℚ) / (D : ℚ) * 2 ^ sh := by
  unfold scale
  by_cases h : 0 ≤ sh
  · rw [if_pos h]
    refine ⟨hD, ?_⟩
    obtain ⟨s, rfl⟩ := Int.eq_ofNat_of_zero_le h
    simp only [Int.toNat_ofNat, Nat.cast_mul, Nat.cast_pow, Nat.cast_ofNat, zpow_natCast]
    ring
  · rw [if_neg h]
    have hneg : 0 ≤ -sh := by omega
    obtain ⟨s, hs⟩ := Int.eq_ofNat_of_zero_le hneg
    have hsh : sh = -(s : Int) := by omega
    refine ⟨by positivity, ?_⟩
    rw [hs, hsh]
    simp only [Int.toNat_ofNat, Nat.cast_mul, Nat.cast_pow, Nat.cast_ofNat, zpow_neg,
      zpow_natCast]
    have hD' : (D : ℚ) ≠ 0 := by exact_mod_cast hD.ne'
    have h2 : ((2 : ℚ) ^ s) ≠ 0 := by positivity
    field_simp

theorem roundHalfEven_spec (N D : Nat) (hD : 0 < D) :
    2 * D * roundHalfEven N D ≤ 2 * N + D ∧ 2 * N ≤ 2 * D * roundHalfEven N D + D := by
  have hdiv := Nat.div_add_mod N D
  have hmod := Nat.mod_lt N hD
  have hq : D * (N / D) = N - N % D := by omega
  unfold roundHalfEven
  simp only
  have e1 : 2 * D * (N / D) = 2 * (D * (N / D)) := by ring
  have e2 : 2 * D * (N / D + 1) = 2 * (D * (N / D)) + 2 * D := by ring
  split
  · rw [e1]; omega
  · split
    · rw [e2]; omega
    · split
      · rw [e1]; omega
      · rw [e2]; omega

theorem scaled_first_guess (N D : Nat) (hN : 0 < N) (hD : 0 < D) :
    (2 : ℚ) ^ (23 : Nat) < (N : ℚ) / D * 2 ^ (24 + (ilog2 D : Int) - (ilog2 N : Int)) ∧
      (N : ℚ) / D * 2 ^ (24 + (ilog2 D : Int) - (ilog2 N : Int)) < 2 ^ (25 : Nat) := by
  obtain ⟨ha1, ha2⟩ := ilog2_spec hN
  obtain ⟨hb1, hb2⟩ := ilog2_spec hD
  have hA1 : ((2 : ℚ) ^ ilog2 N) ≤ N := by exact_mod_cast ha1
  have hA2 : (N : ℚ) < 2 * 2 ^ ilog2 N := by
    have : (N : ℚ) < ((2 ^ (ilog2 N + 1) : Nat) : ℚ) := by exact_mod_cast ha2
    simpa [pow_succ, mul_comm] using this
  have hB1 : ((2 : ℚ) ^ ilog2 D) ≤ D := by exact_mod_cast hb1
  have hB2 : (D : ℚ) < 2 * 2 ^ ilog2 D := by
    have : (D : ℚ) < ((2 ^ (ilog2 D + 1) : Nat) : ℚ) := by exact_mod_cast hb2
    simpa [pow_succ, mul_comm] using this
  have hpow : (2 : ℚ) ^ (24 + (ilog2 D : Int) - (ilog2 N : Int)) =
      2 ^ (24 : Nat) * 2 ^ ilog2 D / 2 ^ ilog2 N := by
    rw [zpow_sub₀ (by norm_num : (2 : ℚ) ≠ 0), zpow_add₀ (by norm_num : (2 : ℚ) ≠ 0),
      zpow_natCast, zpow_natCast]
    norm_num
  rw [hpow]
  generalize (2 : ℚ) ^ ilog2 N = A at *
  generalize (2 : ℚ) ^ ilog2 D = B at *
  have hDq : (0 : ℚ) < D := by exact_mod_cast hD
  have hNq : (0 : ℚ) < N := by exact_mod_cast hN
  have hApos : 0 < A := by linarith
  have hBpos : 0 < B := by linarith
  have e : (N : ℚ) / D * (2 ^ (24 : Nat) * B / A) = 2 ^ (24 : Nat) * (N * B) / (D * A) := by
    field_simp
    ring
  rw [e]
  constructor
  · rw [lt_div_iff₀ (by positivity)]
    have : (D : ℚ) * A < 2 * (N * B) := by nlinarith
    norm_num
    nlinarith
  · rw [div_lt_iff₀ (by positivity)]
    have : (N : ℚ) * B < 2 * (D * A) := by nlinarith
    norm_num
    nlinarith

theorem scaled_exponent (N D : Nat) (hN : 0 < N) (hD : 0 < D) :
    ∃ sh : Int, sh = (if (scale N D (24 + (ilog2 D : Int) - (ilog2 N : Int))).1 /
          (scale N D (24 + (ilog2 D : Int) - (ilog2 N : Int))).2 < 2 ^ 24
        then 24 + (ilog2 D : Int) - (ilog2 N : Int)
        else 24 + (ilog2 D : Int) - (ilog2 N : Int) - 1) ∧
      (2 : ℚ) ^ (23 : Nat) ≤ (N : ℚ) / D * 2 ^ sh ∧ (N : ℚ) / D * 2 ^ sh < 2 ^ (24 : Nat) := by
  obtain ⟨hz1, hz2⟩ := scaled_first_guess N D hN hD
  refine ⟨_, rfl, ?_⟩
  generalize 24 + (ilog2 D : Int) - (ilog2 N : Int) = sh0 at *
  obtain ⟨hd0, hs0⟩ := scale_spec N D hD sh0
  have hd0q : (0 : ℚ) < ((scale N D sh0).2 : ℚ) := by exact_mod_cast hd0
  by_cases hc : (scale N D sh0).1 / (scale N D sh0).2 < 2 ^ 24
  · rw [if_pos hc]
    refine ⟨le_of_lt hz1, ?_⟩
    rw [Nat.div_lt_iff_lt_mul hd0] at hc
    rw [← hs0, div_lt_iff₀ hd0q]
    exact_mod_cast hc
  · rw [if_neg hc]
    have hc' : 2 ^ 24 * (scale N D sh0).2 ≤ (scale N D sh0).1 := by
      rw [Nat.not_lt, Nat.le_div_iff_mul_le hd0] at hc
      exact hc
    have h24 : (2 : ℚ) ^ (24 : Nat) ≤ (N : ℚ) / D * 2 ^ sh0 := by
      rw [← hs0, le_div_iff₀ hd0q]
      exact_mod_cast hc'
    have hhalf : (2 : ℚ) ^ (sh0 - 1) = 2 ^ sh0 / 2 := by
      rw [zpow_sub₀ (by norm_num : (2 : ℚ) ≠ 0)]
      norm_num
    rw [hhalf]
    constructor
    · have : (2 : ℚ) ^ (24 : Nat) = 2 * 2 ^ (23 : Nat) := by norm_num
      linarith
    · have : (2 : ℚ) ^ (25 : Nat) = 2 * 2 ^ (24 : Nat) := by norm_num
      linarith

theorem round24_pos (N D : Nat) (k : Int) (hN : 0 < N) (hD : 0 < D)
    (hlo : (2 : ℚ) ^ (-126 : Int) ≤ (N : ℚ) / D * 2 ^ k)
    (hhi : (N : ℚ) / D * 2 ^ k < 2 ^ (127 : Int)) :
    ∃ f, round24 false N D k = some f ∧ 0 < f.m ∧
      (1 - 1 / 16777216) * ((N : ℚ) / D * 2 ^ k) ≤ f.toRat ∧
      f.toRat ≤ (1 + 1 / 16777216) * ((N : ℚ) / D * 2 ^ k) := by
  obtain ⟨sh, hsh, hzl, hzh⟩ := scaled_exponent N D hN hD
  obtain ⟨hd, hs⟩ := scale_spec N D hD sh
  obtain ⟨hr1, hr2⟩ := roundHalfEven_spec (scale N D sh).1 (scale N D sh).2 hd
  simp only [round24, if_neg (Nat.pos_iff_ne_zero.mp hN), ← hsh]
  generalize roundHalfEven (scale N D sh).1 (scale N D sh).2 = m0 at *
  generalize (scale N D sh).1 = N1 at *
  generalize (scale N D sh).2 = D1 at *
  have hdq : (0 : ℚ) < (D1 : ℚ) := by exact_mod_cast hd
  have hN1 : (N1 : ℚ) = (N : ℚ) / D * 2 ^ sh * D1 := by
    rw [← hs]; field_simp
  -- bounds on the rounded significand
  have hq1 : (2 : ℚ) * D1 * m0 ≤ 2 * N1 + D1 := by exact_mod_cast hr1
  have hq2 : (2 : ℚ) * N1 ≤ 2 * D1 * m0 + D1 := by exact_mod_cast hr2
  set z : ℚ := (N : ℚ) / D * 2 ^ sh with hz
  have hm_le : (m0 : ℚ) ≤ z + 1 / 2 := by
    rw [hN1] at hq1
    have : (2 : ℚ) * m0 * D1 ≤ (2 * z + 1) * D1 := by linarith
    have := le_of_mul_le_mul_right this hdq
    linarith
  have hm_ge : z ≤ (m0 : ℚ) + 1 / 2 := by
    rw [hN1] at hq2
    have : (2 * z) * D1 ≤ (2 * (m0 : ℚ) + 1) * D1 := by linarith
    have := le_of_mul_le_mul_right this hdq
    linarith
  have hm0_lo : 2 ^ 23 ≤ m0 := by
    have h1 : ((2 ^ 23 : Nat) : ℚ) < (m0 : ℚ) + 1 := by
      push_cast; linarith
    have h2 : 2 ^ 23 < m0 + 1 := by exact_mod_cast h1
    omega
  have hm0_hi : m0 ≤ 2 ^ 24 := by
    have h1 : (m0 : ℚ) < ((2 ^ 24 : Nat) : ℚ) + 1 := by
      push_cast; linarith
    have h2 : m0 < 2 ^ 24 + 1 := by exact_mod_cast h1
    omega
  -- the value and its unit in the last place
  have hy : (N : ℚ) / D * 2 ^ k = z * 2 ^ (k - sh) := by
    rw [hz, mul_assoc, ← zpow_add₀ (by norm_num : (2 : ℚ) ≠ 0)]
    congr 2
    ring
  have hP : (0 : ℚ) < 2 ^ (k - sh) := by positivity
  rw [hy] at hlo hhi ⊢
  have hklo : -149 ≤ k - sh := by
    have h1 : (2 : ℚ) ^ (-126 : Int) < 2 ^ (24 + (k - sh)) := by
      rw [zpow_add₀ (by norm_num : (2 : ℚ) ≠ 0)]
      calc (2 : ℚ) ^ (-126 : Int) ≤ z * 2 ^ (k - sh) := hlo
        _ < 2 ^ (24 : Int) * 2 ^ (k - sh) := by
          apply mul_lt_mul_of_pos_right _ hP
          norm_num at hzh ⊢; exact hzh
    have := (zpow_lt_zpow_iff_right₀ (by norm_num : (1 : ℚ) < 2)).mp h1
    omega
  have hkhi : k - sh ≤ 103 := by
    have h1 : (2 : ℚ) ^ (23 + (k - sh)) < 2 ^ (127 : Int) := by
      rw [zpow_add₀ (by norm_num : (2 : ℚ) ≠ 0)]
      calc (2 : ℚ) ^ (23 : Int) * 2 ^ (k - sh) ≤ z * 2 ^ (k - sh) := by
            apply mul_le_mul_of_nonneg_right _ hP.le
            norm_num at hzl ⊢; exact hzl
        _ < 2 ^ (127 : Int) := hhi
    have := (zpow_lt_zpow_iff_right₀ (by norm_num : (1 : ℚ) < 2)).mp h1
    omega
  have hval : ∀ (m : Nat) (e : Int), (m : ℚ) * 2 ^ e = m0 * 2 ^ (k - sh) → 0 < m →
      -149 ≤ e → e ≤ 104 →
      ∃ f, (if -149 ≤ e ∧ e ≤ 104 then some (⟨if false = true then -(m : Int) else m, e⟩ : F32)
          else none) = some f ∧ 0 < f.m ∧
        (1 - 1 / 16777216) * (z * 2 ^ (k - sh)) ≤ f.toRat ∧
        f.toRat ≤ (1 + 1 / 16777216) * (z * 2 ^ (k - sh)) := by
    intro m e hme hmpos he1 he2
    refine ⟨⟨m, e⟩, by simp [he1, he2], by simpa using hmpos, ?_, ?_⟩
    · simp only [F32.toRat, Int.cast_natCast, hme]
      have hz23 : (8388608 : ℚ) ≤ z := by norm_num at hzl; exact hzl
      nlinarith
    · simp only [F32.toRat, Int.cast_natCast, hme]
      have hz23 : (8388608 : ℚ) ≤ z := by norm_num at hzl; exact hzl
      nlinarith
  by_cases hcarry : m0 = 2 ^ 24
  · simp only [if_pos hcarry]
    refine hval _ _ ?_ (by norm_num) (by omega) (by omega)
    rw [hcarry, show k - sh + 1 = 1 + (k - sh) by ring, zpow_add₀ (by norm_num : (2 : ℚ) ≠ 0)]
    norm_num
    ring
  · simp only [if_neg hcarry]
    exact hval _ _ rfl (by omega) hklo (by omega)

theorem natAbs_cast_of_pos {m : Int} (hm : 0 < m) : ((m.natAbs : Nat) : ℚ) = (m : ℚ) := by
  have h : ((m.natAbs : Nat) : Int) = m := Int.natAbs_of_nonneg hm.le
  exact (Int.cast_natCast m.natAbs).symm.trans (congrArg (fun i : Int => (i : ℚ)) h)

theorem F32.ofInt_pos (n : Int) (hn : 0 < n) (hmax : n ≤ INT_MAX) :
    ∃ f, F32.ofInt n = some f ∧ 0 < f.m ∧
      (1 - 1 / 16777216) * (n : ℚ) ≤ f.toRat ∧ f.toRat ≤ (1 + 1 / 16777216) * (n : ℚ) := by
  have hN : 0 < n.natAbs := Int.natAbs_pos.mpr hn.ne'
  have hcast := natAbs_cast_of_pos hn
  have h1 : (1 : ℚ) ≤ (n : ℚ) := by exact_mod_cast hn
  have h2 : (n : ℚ) ≤ 2147483647 := by unfold INT_MAX at hmax; exact_mod_cast hmax
  have hy : ((n.natAbs : Nat) : ℚ) / ((1 : Nat) : ℚ) * 2 ^ (0 : Int) = (n : ℚ) := by
    rw [hcast]; simp
  have hlo : (2 : ℚ) ^ (-126 : Int) ≤ ((n.natAbs : Nat) : ℚ) / ((1 : Nat) : ℚ) * 2 ^ (0 : Int) := by
    rw [hy]
    have : (2 : ℚ) ^ (-126 : Int) ≤ 1 := by
      rw [zpow_neg]; exact inv_le_one_of_one_le₀ (one_le_zpow₀ (by norm_num) (by norm_num))
    linarith
  have hhi : ((n.natAbs : Nat) : ℚ) / ((1 : Nat) : ℚ) * 2 ^ (0 : Int) < 2 ^ (127 : Int) := by
    rw [hy]
    have : (2 : ℚ) ^ (31 : Int) ≤ 2 ^ (127 : Int) :=
      zpow_le_zpow_right₀ (by norm_num) (by norm_num)
    have h31 : (2 : ℚ) ^ (31 : Int) = 2147483648 := by norm_num
    linarith
  obtain ⟨f, hf, hpos, hb1, hb2⟩ := round24_pos n.natAbs 1 0 hN (by norm_num) hlo hhi
  rw [hy] at hb1 hb2
  refine ⟨f, ?_, hpos, hb1, hb2⟩
  unfold F32.ofInt
  rw [decide_eq_false (by omega)]
  exact hf

theorem F32.div_pos (x y : F32) (hx : 0 < x.m) (hy : 0 < y.m)
    (hlo : (2 : ℚ) ^ (-126 : Int) ≤ x.toRat / y.toRat)
    (hhi : x.toRat / y.toRat < 2 ^ (127 : Int)) :
    ∃ f, F32.div x y = some f ∧ 0 < f.m ∧
      (1 - 1 / 16777216) * (x.toRat / y.toRat) ≤ f.toRat ∧
      f.toRat ≤ (1 + 1 / 16777216) * (x.toRat / y.toRat) := by
  have hval : ((x.m.natAbs : Nat) : ℚ) / ((y.m.natAbs : Nat) : ℚ) * 2 ^ (x.e - y.e) =
      x.toRat / y.toRat := by
    rw [natAbs_cast_of_pos hx, natAbs_cast_of_pos hy, F32.toRat, F32.toRat,
      zpow_sub₀ (by norm_num : (2 : ℚ) ≠ 0)]
    have hym : (y.m : ℚ) ≠ 0 := by exact_mod_cast hy.ne'
    have h2 : (2 : ℚ) ^ y.e ≠ 0 := by positivity
    field_simp
  rw [← hval] at hlo hhi ⊢
  obtain ⟨f, hf, hpos, hb⟩ := round24_pos x.m.natAbs y.m.natAbs (x.e - y.e)
    (Int.natAbs_pos.mpr hx.ne') (Int.natAbs_pos.mpr hy.ne') hlo hhi
  refine ⟨f, ?_, hpos, hb⟩
  unfold F32.div
  rw [if_neg hy.ne', decide_eq_false (by omega), decide_eq_false (by omega)]
  exact hf

theorem F32.mul_pos (x y : F32) (hx : 0 < x.m) (hy : 0 < y.m)
    (hlo : (2 : ℚ) ^ (-126 : Int) ≤ x.toRat * y.toRat)
    (hhi : x.toRat * y.toRat < 2 ^ (127 : Int)) :
    ∃ f, F32.mul x y = some f ∧ 0 < f.m ∧
      (1 - 1 / 16777216) * (x.toRat * y.toRat) ≤ f.toRat ∧
      f.toRat ≤ (1 + 1 / 16777216) * (x.toRat * y.toRat) := by
  have hval : ((x.m.natAbs * y.m.natAbs : Nat) : ℚ) / ((1 : Nat) : ℚ) * 2 ^ (x.e + y.e) =
      x.toRat * y.toRat := by
    rw [Nat.cast_mul, natAbs_cast_of_pos hx, natAbs_cast_of_pos hy, F32.toRat, F32.toRat,
      zpow_add₀ (by norm_num : (2 : ℚ) ≠ 0)]
    simp only [Nat.cast_one, div_one]
    ring
  rw [← hval] at hlo hhi ⊢
  obtain ⟨f, hf, hpos, hb⟩ := round24_pos (x.m.natAbs * y.m.natAbs) 1 (x.e + y.e)
    (Nat.mul_pos (Int.natAbs_pos.mpr hx.ne') (Int.natAbs_pos.mpr hy.ne')) (by norm_num) hlo hhi
  refine ⟨f, ?_, hpos, hb⟩
  unfold F32.mul
  rw [decide_eq_false (by omega), decide_eq_false (by omega)]
  exact hf

theorem F32.toInt_nonneg (x : F32) (hx : 0 ≤ x.m) (hhi : x.toRat < 2147483648) :
    ∃ g, F32.toInt x = some g ∧ 0 ≤ g ∧ (g : ℚ) ≤ x.toRat ∧ x.toRat < (g : ℚ) + 1 := by
  obtain ⟨m, e⟩ := x
  simp only at hx
  obtain ⟨m, rfl⟩ := Int.eq_ofNat_of_zero_le hx
  simp only [F32.toRat, Int.cast_natCast] at hhi ⊢
  unfold F32.toInt
  simp only
  by_cases he : 0 ≤ e
  · obtain ⟨s, rfl⟩ := Int.eq_ofNat_of_zero_le he
    simp only [if_pos he, Int.toNat_ofNat]
    have hcast : (((m : Int) * 2 ^ s : Int) : ℚ) = (m : ℚ) * 2 ^ (s : Int) := by
      push_cast; rw [zpow_natCast]
    have hnn : (0 : Int) ≤ (m : Int) * 2 ^ s := by positivity
    have hlt : ((m : Int) * 2 ^ s : Int) < 2147483648 := by
      have : (((m : Int) * 2 ^ s : Int) : ℚ) < ((2147483648 : Int) : ℚ) := by
        rw [hcast]; exact_mod_cast hhi
      exact_mod_cast this
    refine ⟨(m : Int) * 2 ^ s, ?_, hnn, ?_, ?_⟩
    · rw [if_pos]
      unfold INT_MIN INT_MAX
      constructor <;> omega
    · rw [hcast]
    · rw [hcast]; linarith
  · have hneg : 0 ≤ -e := by omega
    obtain ⟨s, hs⟩ := Int.eq_ofNat_of_zero_le hneg
    have hes : e = -(s : Int) := by omega
    subst hes
    simp only [if_neg he, neg_neg, Int.toNat_ofNat]
    have hdiv : Int.tdiv (m : Int) (2 ^ s) = ((m / 2 ^ s : Nat) : Int) := by
      rw [Int.tdiv_eq_ediv (Int.ofNat_nonneg m) (by positivity)]
      norm_cast
    rw [hdiv]
    have hpow : (0 : ℚ) < 2 ^ s := by positivity
    have hval : (m : ℚ) * 2 ^ (-(s : Int)) = (m : ℚ) / 2 ^ s := by
      rw [zpow_neg, zpow_natCast]; rfl
    rw [hval] at hhi ⊢
    have hm : (m : ℚ) = 2 ^ s * ((m / 2 ^ s : Nat) : ℚ) + ((m % 2 ^ s : Nat) : ℚ) := by
      exact_mod_cast (Nat.div_add_mod m (2 ^ s)).symm
    have hr : ((m % 2 ^ s : Nat) : ℚ) < 2 ^ s := by
      exact_mod_cast Nat.mod_lt m (by positivity)
    have hr0 : (0 : ℚ) ≤ ((m % 2 ^ s : Nat) : ℚ) := by positivity
    have hle : (((m / 2 ^ s : Nat) : Int) : ℚ) ≤ (m : ℚ) / 2 ^ s := by
      rw [le_div_iff₀ hpow, Int.cast_natCast]
      nlinarith
    have hlt : (m : ℚ) / 2 ^ s < (((m / 2 ^ s : Nat) : Int) : ℚ) + 1 := by
      rw [div_lt_iff₀ hpow, Int.cast_natCast]
      nlinarith
    have hsmall : ((m / 2 ^ s : Nat) : Int) < 2147483648 := by
      have : (((m / 2 ^ s : Nat) : Int) : ℚ) < ((2147483648 : Int) : ℚ) := by
        push_cast at hle ⊢; linarith
      exact_mod_cast this
    have hnn : (0 : Int) ≤ ((m / 2 ^ s : Nat) : Int) := Int.ofNat_nonneg _
    generalize ((m / 2 ^ s : Nat) : Int) = g at *
    refine ⟨g, ?_, hnn, hle, hlt⟩
    rw [if_pos]
    unfold INT_MIN INT_MAX
    constructor <;> omega

theorem F32.ofInt_zero : F32.ofInt 0 = some ⟨0, 0⟩ := by decide

theorem F32.ofInt_base : F32.ofInt BASE_GREEN_TIME = some ⟨15728640, -19⟩ := by decide

theorem F32.ofInt_three : F32.ofInt 3 = some ⟨12582912, -22⟩ := by decide

theorem F32.ofInt_four : F32.ofInt 4 = some ⟨8388608, -21⟩ := by decide

theorem F32.div_zero_left (e : Int) (y : F32) (hy : 0 < y.m) :
    F32.div ⟨0, e⟩ y = some ⟨0, 0⟩ := by
  unfold F32.div
  rw [if_neg hy.ne']
  simp [round24]

theorem F32.mul_zero_left (e : Int) (y : F32) : F32.mul ⟨0, e⟩ y = some ⟨0, 0⟩ := by
  unfold F32.mul
  simp [round24]

/-- With no vehicle in the lane the computed green time is 0. -/
theorem greenSeconds_zero (T n : Int) (hT : 0 < T) (hmax : T ≤ INT_MAX) (hn : n = 3 ∨ n = 4) :
    Traffic27.greenSeconds 0 T n = some 0 := by
  obtain ⟨t, ht, htpos, _⟩ := F32.ofInt_pos T hT hmax
  rcases hn with rfl | rfl
  · simp only [Traffic27.greenSeconds, F32.ofInt_zero, ht, F32.ofInt_base, F32.ofInt_three,
      F32.div_zero_left 0 t htpos, F32.mul_zero_left]
    decide
  · simp only [Traffic27.greenSeconds, F32.ofInt_zero, ht, F32.ofInt_base, F32.ofInt_four,
      F32.div_zero_left 0 t htpos, F32.mul_zero_left]
    decide

theorem relax_rounding {y f : ℚ} (hy : 0 ≤ y) (h1 : (1 - 1 / 16777216) * y ≤ f)
    (h2 : f ≤ (1 + 1 / 16777216) * y) :
    999999 / 1000000 * y ≤ f ∧ f ≤ 1000001 / 1000000 * y := by
  constructor <;> nlinarith

theorem zpow_neg126_le : (2 : ℚ) ^ (-126 : Int) ≤ 1 / 4294967296 := by
  rw [zpow_neg, one_div]
  apply inv_anti₀ (by norm_num)
  have h : (2 : ℚ) ^ (32 : Int) ≤ 2 ^ (126 : Int) :=
    zpow_le_zpow_right₀ (by norm_num) (by norm_num)
  have h32 : (2 : ℚ) ^ (32 : Int) = 4294967296 := by norm_num
  linarith

theorem le_zpow_127 : (4294967296 : ℚ) ≤ 2 ^ (127 : Int) := by
  have h : (2 : ℚ) ^ (32 : Int) ≤ 2 ^ (127 : Int) :=
    zpow_le_zpow_right₀ (by norm_num) (by norm_num)
  have h32 : (2 : ℚ) ^ (32 : Int) = 4294967296 := by norm_num
  linarith

/-- The `float` value of `(float)vc / T` for `0 < vc ≤ T ≤ INT_MAX`. -/
theorem green_ratio (vc T : Int) (hvc : 0 < vc) (hle : vc ≤ T) (hmax : T ≤ INT_MAX) :
    ∃ v t ratio, F32.ofInt vc = some v ∧ F32.ofInt T = some t ∧ F32.div v t = some ratio ∧
      0 < ratio.m ∧ 999996 / 1000000 * ((vc : ℚ) / T) ≤ ratio.toRat ∧
      ratio.toRat ≤ 1000005 / 1000000 * ((vc : ℚ) / T) ∧
      1 / 2147483647 ≤ (vc : ℚ) / T ∧ (vc : ℚ) / T ≤ 1 := by
  have hT : 0 < T := lt_of_lt_of_le hvc hle
  obtain ⟨v, hv, hvpos, hv1, hv2⟩ := F32.ofInt_pos vc hvc (le_trans hle hmax)
  obtain ⟨t, ht, htpos, ht1, ht2⟩ := F32.ofInt_pos T hT hmax
  have hvcq : (1 : ℚ) ≤ (vc : ℚ) := by exact_mod_cast hvc
  have hTq : (T : ℚ) ≤ 2147483647 := by unfold INT_MAX at hmax; exact_mod_cast hmax
  have hTpos : (0 : ℚ) < (T : ℚ) := by exact_mod_cast hT
  have hleq : (vc : ℚ) ≤ (T : ℚ) := by exact_mod_cast hle
  obtain ⟨hv1, hv2⟩ := relax_rounding (by linarith) hv1 hv2
  obtain ⟨ht1, ht2⟩ := relax_rounding hTpos.le ht1 ht2
  obtain ⟨q, hq⟩ : ∃ q : ℚ, q = (vc : ℚ) / T := ⟨_, rfl⟩
  have hqT : q * T = vc := by rw [hq]; field_simp
  have hq1 : q ≤ 1 := by rw [hq, div_le_one hTpos]; exact hleq
  have hq0 : 1 / 2147483647 ≤ q := by
    rw [hq, div_le_div_iff₀ (by norm_num) hTpos]
    linarith
  have hqpos : 0 < q := by linarith
  rw [← hq]
  have htq : (0 : ℚ) < t.toRat := by linarith
  have hd1 : 999998 / 1000000 * q ≤ v.toRat / t.toRat := by
    rw [le_div_iff₀ htq]
    have h1 : 999998 / 1000000 * q * t.toRat ≤ 999998 / 1000000 * q * (1000001 / 1000000 * T) :=
      mul_le_mul_of_nonneg_left ht2 (by positivity)
    have h2 : 999998 / 1000000 * q * (1000001 / 1000000 * T) =
        999998 / 1000000 * (1000001 / 1000000) * (q * T) := by ring
    rw [h2, hqT] at h1
    linarith
  have hd2 : v.toRat / t.toRat ≤ 1000003 / 1000000 * q := by
    rw [div_le_iff₀ htq]
    have h1 : 1000003 / 1000000 * q * (999999 / 1000000 * T) ≤ 1000003 / 1000000 * q * t.toRat :=
      mul_le_mul_of_nonneg_left ht1 (by positivity)
    have h2 : 1000003 / 1000000 * q * (999999 / 1000000 * T) =
        1000003 / 1000000 * (999999 / 1000000) * (q * T) := by ring
    rw [h2, hqT] at h1
    linarith
  obtain ⟨ratio, hratio, hrpos, hr1, hr2⟩ := F32.div_pos v t hvpos htpos
    (le_trans zpow_neg126_le (by linarith)) (lt_of_lt_of_le (by linarith) le_zpow_127)
  obtain ⟨hr1, hr2⟩ := relax_rounding (by linarith) hr1 hr2
  exact ⟨v, t, ratio, hv, ht, hratio, hrpos, by linarith, by linarith, hq0, hq1⟩

theorem F32.toRat_base : (⟨15728640, -19⟩ : F32).toRat = 30 := by
  simp only [F32.toRat]; norm_num

/-- The `float` value of `ratio * BASE_GREEN_TIME`. -/
theorem green_times_base (ratio : F32) (q : ℚ) (hrpos : 0 < ratio.m)
    (hra : 999996 / 1000000 * q ≤ ratio.toRat) (hrb : ratio.toRat ≤ 1000005 / 1000000 * q)
    (hq0 : 1 / 2147483647 ≤ q) (hq1 : q ≤ 1) :
    ∃ r1, F32.mul ratio ⟨15728640, -19⟩ = some r1 ∧ 0 < r1.m ∧
      30 * (999995 / 1000000) * q ≤ r1.toRat ∧ r1.toRat ≤ 30 * (1000007 / 1000000) * q := by
  obtain ⟨r1, hr1eq, hr1pos, hr11, hr12⟩ := F32.mul_pos ratio ⟨15728640, -19⟩ hrpos (by norm_num)
    (le_trans zpow_neg126_le (by rw [F32.toRat_base]; linarith))
    (lt_of_lt_of_le (by rw [F32.toRat_base]; linarith) le_zpow_127)
  rw [F32.toRat_base] at hr11 hr12
  obtain ⟨hr11, hr12⟩ := relax_rounding (by linarith) hr11 hr12
  exact ⟨r1, hr1eq, hr1pos, by linarith, by linarith⟩

/-- The value `(int)(r1 * laneCount)`. -/
theorem green_times_lanes (r1 nf : F32) (q k : ℚ) (hr1pos : 0 < r1.m)
    (hr1a : 30 * (999995 / 1000000) * q ≤ r1.toRat)
    (hr1b : r1.toRat ≤ 30 * (1000007 / 1000000) * q)
    (hq0 : 1 / 2147483647 ≤ q) (hq1 : q ≤ 1) (hnf : 0 < nf.m) (hk : nf.toRat = k)
    (hk3 : 3 ≤ k) (hk4 : k ≤ 4) :
    ∃ g, (match F32.mul r1 nf with
        | none => none
        | some r2 => F32.toInt r2) = some g ∧ 0 ≤ g ∧
      (g : ℚ) ≤ 30 * k * q + 1 / 8 ∧ 30 * k * q - 9 / 8 < g := by
  have hqpos : 0 < q := by linarith
  have hr1nn : 0 ≤ r1.toRat := by linarith
  have hqk0 : 0 ≤ q * k := by positivity
  have hqk4 : q * k ≤ 4 := by
    have := mul_le_mul hq1 hk4 (by linarith) (by norm_num : (0 : ℚ) ≤ 1)
    linarith
  have hqk3 : 3 / 2147483647 ≤ q * k := by
    have := mul_le_mul hq0 hk3 (by norm_num) hqpos.le
    linarith
  have h1 : r1.toRat * k ≤ 30 * (1000007 / 1000000) * q * k :=
    mul_le_mul_of_nonneg_right hr1b (by linarith)
  have h2 : 30 * (999995 / 1000000) * q * k ≤ r1.toRat * k :=
    mul_le_mul_of_nonneg_right hr1a (by linarith)
  have hr1k : r1.toRat * k ≤ 121 := by linarith
  have hr1k0 : 1 / 4294967296 ≤ r1.toRat * k := by linarith
  obtain ⟨r2, hr2eq, hr2pos, hr21, hr22⟩ := F32.mul_pos r1 nf hr1pos hnf
    (le_trans zpow_neg126_le (by rw [hk]; exact hr1k0))
    (lt_of_lt_of_le (by rw [hk]; linarith) le_zpow_127)
  rw [hk] at hr21 hr22
  obtain ⟨hr21, hr22⟩ := relax_rounding (by linarith) hr21 hr22
  obtain ⟨g, hg, hg0, hg1, hg2⟩ := F32.toInt_nonneg r2 hr2pos.le (by linarith)
  exact ⟨g, by simp only [hr2eq, hg], hg0, by linarith, by linarith⟩

/-- The computed green time of a lane with `vc > 0` of `T` vehicles differs
from the exact share `30 * n * vc / T` by less than `9 / 8` downward and at
most `1 / 8` upward. -/
theorem greenSeconds_pos (vc T n : Int) (hvc : 0 < vc) (hle : vc ≤ T) (hmax : T ≤ INT_MAX)
    (hn : n = 3 ∨ n = 4) :
    ∃ g, Traffic27.greenSeconds vc T n = some g ∧ 0 ≤ g ∧
      (g : ℚ) ≤ 30 * n * (vc / T) + 1 / 8 ∧ 30 * (n : ℚ) * (vc / T) - 9 / 8 < g := by
  obtain ⟨v, t, ratio, hv, ht, hratio, hrpos, hra, hrb, hq0, hq1⟩ := green_ratio vc T hvc hle hmax
  obtain ⟨r1, hr1eq, hr1pos, hr1a, hr1b⟩ := green_times_base ratio _ hrpos hra hrb hq0 hq1
  rcases hn with rfl | rfl
  · simp only [Traffic27.greenSeconds, hv, ht, F32.ofInt_base, F32.ofInt_three, hratio, hr1eq]
    have h3 := green_times_lanes r1 ⟨12582912, -22⟩ _ 3 hr1pos hr1a hr1b hq0 hq1 (by norm_num)
      (by simp only [F32.toRat]; norm_num) (by norm_num) (by norm_num)
    simpa using h3
  · simp only [Traffic27.greenSeconds, hv, ht, F32.ofInt_base, F32.ofInt_four, hratio, hr1eq]
    have h4 := green_times_lanes r1 ⟨8388608, -21⟩ _ 4 hr1pos hr1a hr1b hq0 hq1 (by norm_num)
      (by simp only [F32.toRat]; norm_num) (by norm_num) (by norm_num)
    simpa using h4
/-! ## Lane-wise passes -/

theorem runOver_laneBody {σ : Type} (g : σ → Lane → Option (σ × Lane)) :
    ∀ (ls pre : List Lane) (s : σ),
      runOver (laneBody g) (List.range' pre.length ls.length) s (pre ++ ls) =
        (sweep g s ls).map (fun r => (r.1, pre ++ r.2)) := by
  intro ls
  induction ls with
  | nil => intro pre s; simp [runOver, sweep]
  | cons l ls ih =>
    intro pre s
    have hload : load (pre ++ l :: ls) pre.length = some l := by
      unfold load
      rw [List.getElem?_append_right (Nat.le_refl _), Nat.sub_self]
      exact List.getElem?_cons_zero
    simp only [List.length_cons, List.range'_succ, runOver, laneBody, hload, sweep]
    cases hg : g s l with
    | none => rfl
    | some r =>
      obtain ⟨s1, l1⟩ := r
      have hstore : store (pre ++ l :: ls) pre.length l1 = some ((pre ++ [l1]) ++ ls) := by
        simp [store]
      simp only [hstore, Option.map_some']
      have := ih (pre ++ [l1]) s1
      simp only [List.length_append, List.length_singleton] at this
      rw [this]
      cases sweep g s1 ls with
      | none => rfl
      | some r2 => simp

theorem sweep_links {σ : Type} (g : σ → Lane → Option (σ × Lane)) (hg : KeepsLinks g) :
    ∀ (ls : List Lane) (s : σ) (r : σ × List Lane), sweep g s ls = some r →
      r.2.map Lane.links = ls.map Lane.links := by
  intro ls
  induction ls with
  | nil => intro s r h; simp only [sweep, Option.some.injEq] at h; subst h; rfl
  | cons l ls ih =>
    intro s r h
    simp only [sweep] at h
    cases h1 : g s l with
    | none => simp [h1] at h
    | some p =>
      obtain ⟨s1, l1⟩ := p
      simp only [h1] at h
      cases h2 : sweep g s1 ls with
      | none => simp [h2] at h
      | some p2 =>
        obtain ⟨s2, ls2⟩ := p2
        simp only [h2, Option.some.injEq] at h
        subst h
        simp only [List.map_cons, hg s l s1 l1 h1, ih s1 _ h2]

theorem laneBody_preservesNext {σ : Type} (g : σ → Lane → Option (σ × Lane))
    (hg : KeepsLinks g) : PreservesNext (laneBody g) := by
  intro s h a s1 h1 hb
  unfold laneBody at hb
  cases hl : load h a with
  | none => simp [hl] at hb
  | some l =>
    simp only [hl] at hb
    cases hgl : g s l with
    | none => simp [hgl] at hb
    | some p =>
      obtain ⟨s2, l1⟩ := p
      simp only [hgl, store] at hb
      have hl' : h[a]? = some l := hl
      obtain ⟨ha, hget⟩ := List.getElem?_eq_some_iff.mp hl'
      rw [if_pos ha] at hb
      simp only [Option.map_some', Option.some.injEq, Prod.mk.injEq] at hb
      rw [← hb.2, List.map_set]
      have hn : l1.next = l.next := congrArg Prod.fst (hg s l s2 l1 hgl)
      rw [hn, ← hget]
      apply List.ext_getElem
      · simp
      · intro i h1 h2
        by_cases hia : a = i
        · subst hia; simp
        · simp [List.getElem_set_ne hia]

theorem isRing_of_links {type : IntersectionType} {h h1 : Heap} {x : Intersection}
    (hr : IsRing type h x) (hl : h1.map Lane.links = h.map Lane.links) : IsRing type h1 x := by
  obtain ⟨h0, hc, hm⟩ := hr
  exact ⟨h0, hc, hl.trans hm⟩

/-- On a ring, a traversal from the head with a lane-wise body that keeps the
links is one sweep over the lanes in address order. -/
theorem doWhile_laneBody {σ : Type} (g : σ → Lane → Option (σ × Lane)) (hg : KeepsLinks g)
    {type : IntersectionType} {h : Heap} {x : Intersection} (hr : IsRing type h x) {fuel : Nat}
    (hf : x.laneCount ≤ fuel) (s : σ) :
    doWhile (laneBody g) x.head fuel x.head s h = sweep g s h := by
  obtain ⟨n, hn, hcount, hhead, hlen, hlinks, _⟩ := isRing_shape hr
  have hfn : n ≤ fuel := by rw [hcount] at hf; exact_mod_cast hf
  rw [hhead, doWhile_eq_runOver _ (laneBody_preservesNext g hg) (show 0 < n by omega) hfn s hlinks]
  have hl : (List.range n).map (fun i => (0 + i) % n) = List.range' ([] : Heap).length h.length := by
    rw [hlen]
    rcases hn with rfl | rfl <;> decide
  have := runOver_laneBody g h [] s
  rw [hl]
  simp only [List.nil_append] at this
  rw [this]
  cases sweep g s h with
  | none => rfl
  | some r => rfl

theorem store_self {h : Heap} {a : Nat} {l : Lane} (hl : load h a = some l) :
    store h a l = some h := by
  have hl' : h[a]? = some l := hl
  obtain ⟨ha, hget⟩ := List.getElem?_eq_some_iff.mp hl'
  unfold store
  rw [if_pos ha, ← hget]
  congr 1
  apply List.ext_getElem
  · simp
  · intro i h1 h2
    by_cases hia : a = i
    · subst hia; simp
    · simp [List.getElem_set_ne hia]

theorem countBody_eq :
    (fun (totalVehicles : Int) (h : Heap) (a : Nat) =>
      (load h a).map (fun l => (wrap32 (totalVehicles + l.vehicleCount), h))) =
    laneBody countStep := by
  funext tv h a
  unfold laneBody countStep
  cases hl : load h a with
  | none => rfl
  | some l => simp [store_self hl]

theorem redPriorityBody_eq (totalTime : Int) :
    (fun (u : Unit) (h : Heap) (a : Nat) =>
      (update h a (fun l => calculatePriority (calculateRedTime l totalTime))).map
        (fun h3 => (u, h3))) =
    laneBody (redPriorityStep totalTime) := by
  funext u h a
  unfold laneBody redPriorityStep update
  cases hl : load h a with
  | none => rfl
  | some l => rfl

theorem Traffic27.greenBody_eq (totalVehicles laneCount : Int) :
    (fun (totalTime : Int) (h : Heap) (a : Nat) =>
      match load h a with
      | none => none
      | some l =>
        match Traffic27.calculateGreenTime l totalVehicles laneCount with
        | none => none
        | some l1 => (store h a l1).map (fun h2 => (wrap32 (totalTime + l1.greenTime), h2))) =
    laneBody (Traffic27.greenStep totalVehicles laneCount) := by
  funext tt h a
  unfold laneBody Traffic27.greenStep
  cases hl : load h a with
  | none => rfl
  | some l =>
    cases hg : Traffic27.calculateGreenTime l totalVehicles laneCount with
    | none => simp [hg]
    | some l1 => simp [hg]

theorem Traffic27.updateBody_eq (rand : Nat → Nat) :
    (fun (calls : Nat) (h : Heap) (a : Nat) =>
      (update h a (fun l =>
        { l with vehicleCount := wrap32 (l.vehicleCount + (rand calls % 5 : Nat)),
                 waitingTime := wrap32 (l.waitingTime + 10),
                 emergencyVehicle := (rand (calls + 1) % 2 : Nat) })).map
        (fun h1 => (calls + 2, h1))) =
    laneBody (Traffic27.updateStep rand) := by
  funext calls h a
  unfold laneBody Traffic27.updateStep update
  cases hl : load h a with
  | none => rfl
  | some l => rfl

theorem keepsLinks_countStep : KeepsLinks countStep := by
  intro s l s1 l1 h
  simp only [countStep, Option.some.injEq, Prod.mk.injEq] at h
  rw [← h.2]

theorem keepsLinks_redPriorityStep (totalTime : Int) : KeepsLinks (redPriorityStep totalTime) := by
  intro s l s1 l1 h
  simp only [redPriorityStep, Option.some.injEq, Prod.mk.injEq] at h
  rw [← h.2]
  unfold calculatePriority calculateRedTime Lane.links
  split <;> rfl

theorem Traffic27.keepsLinks_greenStep (totalVehicles laneCount : Int) :
    KeepsLinks (Traffic27.greenStep totalVehicles laneCount) := by
  intro s l s1 l1 h
  unfold Traffic27.greenStep Traffic27.calculateGreenTime at h
  cases hg : Traffic27.greenSeconds l.vehicleCount totalVehicles laneCount with
  | none => simp [hg] at h
  | some g =>
    simp only [hg, Option.map_some', Option.some.injEq, Prod.mk.injEq] at h
    rw [← h.2]
    rfl

theorem Traffic27.keepsLinks_updateStep (rand : Nat → Nat) :
    KeepsLinks (Traffic27.updateStep rand) := by
  intro s l s1 l1 h
  simp only [Traffic27.updateStep, Option.some.injEq, Prod.mk.injEq] at h
  rw [← h.2]
  rfl

/-- On a ring, `updateVehicleCounts` is one sweep of its loop body. -/
theorem Traffic27.updateVehicleCounts_eq {type : IntersectionType} {h : Heap} {x : Intersection}
    (hr : IsRing type h x) {fuel : Nat} (hf : x.laneCount ≤ fuel) (rand : Nat → Nat) :
    Traffic27.updateVehicleCounts rand fuel h x =
      (sweep (Traffic27.updateStep rand) 0 h).map Prod.snd := by
  unfold Traffic27.updateVehicleCounts
  rw [Traffic27.updateBody_eq,
    doWhile_laneBody _ (Traffic27.keepsLinks_updateStep rand) hr hf]

/-- On a ring, the three passes of `calculateSignalTiming` in `traffic27.c`
are three sweeps over the lanes. -/
theorem Traffic27.timingPasses_eq {type : IntersectionType} {h : Heap} {x : Intersection}
    (hr : IsRing type h x) {fuel : Nat} (hf : x.laneCount ≤ fuel) :
    Traffic27.timingPasses fuel h x =
      match sweep countStep 0 h with
      | none => none
      | some (totalVehicles, h1) =>
        match sweep (Traffic27.greenStep totalVehicles x.laneCount) 0 h1 with
        | none => none
        | some (totalTime, h2) => (sweep (redPriorityStep totalTime) () h2).map Prod.snd := by
  unfold Traffic27.timingPasses
  rw [countBody_eq, doWhile_laneBody _ keepsLinks_countStep hr hf]
  cases h1 : sweep countStep 0 h with
  | none => rfl
  | some r1 =>
    obtain ⟨tv, hp1⟩ := r1
    have hr1 : IsRing type hp1 x := isRing_of_links hr (sweep_links _ keepsLinks_countStep _ _ _ h1)
    simp only
    rw [Traffic27.greenBody_eq, doWhile_laneBody _ (Traffic27.keepsLinks_greenStep tv _) hr1 hf]
    cases h2 : sweep (Traffic27.greenStep tv x.laneCount) 0 hp1 with
    | none => rfl
    | some r2 =>
      obtain ⟨tt, hp2⟩ := r2
      have hr2 : IsRing type hp2 x :=
        isRing_of_links hr1 (sweep_links _ (Traffic27.keepsLinks_greenStep tv _) _ _ _ h2)
      simp only
      rw [redPriorityBody_eq, doWhile_laneBody _ (keepsLinks_redPriorityStep tt) hr2 hf]

theorem Traffic.intGreenBody_eq (totalVehicles laneCount : Int) :
    (fun (totalTime : Int) (h : Heap) (a : Nat) =>
      match load h a with
      | none => none
      | some l =>
        match Traffic.calculateGreenTime l totalVehicles laneCount with
        | none => none
        | some l1 => (store h a l1).map (fun h2 => (wrap32 (totalTime + l1.greenTime), h2))) =
    laneBody (Traffic.greenStep totalVehicles laneCount) := by
  funext tt h a
  unfold laneBody Traffic.greenStep
  cases hl : load h a with
  | none => rfl
  | some l =>
    cases hg : Traffic.calculateGreenTime l totalVehicles laneCount with
    | none => simp [hg]
    | some l1 => simp [hg]

theorem Traffic.keepsLinks_intGreenStep (totalVehicles laneCount : Int) :
    KeepsLinks (Traffic.greenStep totalVehicles laneCount) := by
  intro s l s1 l1 h
  unfold Traffic.greenStep Traffic.calculateGreenTime at h
  split at h
  · simp only [Option.map_some', Option.some.injEq, Prod.mk.injEq] at h
    rw [← h.2]
    rfl
  · split at h
    · simp at h
    · split at h
      · simp at h
      · simp only [Option.map_some', Option.some.injEq, Prod.mk.injEq] at h
        rw [← h.2]
        rfl

/-- On a ring, the three passes of `calculateSignalTiming` in `Traffic.c` are
three sweeps over the lanes. -/
theorem Traffic.intTimingPasses_eq {type : IntersectionType} {h : Heap} {x : Intersection}
    (hr : IsRing type h x) {fuel : Nat} (hf : x.laneCount ≤ fuel) :
    Traffic.timingPasses fuel h x =
      match sweep countStep 0 h with
      | none => none
      | some (totalVehicles, h1) =>
        match sweep (Traffic.greenStep totalVehicles x.laneCount) 0 h1 with
        | none => none
        | some (totalTime, h2) => (sweep (redPriorityStep totalTime) () h2).map Prod.snd := by
  unfold Traffic.timingPasses
  rw [countBody_eq, doWhile_laneBody _ keepsLinks_countStep hr hf]
  cases h1 : sweep countStep 0 h with
  | none => rfl
  | some r1 =>
    obtain ⟨tv, hp1⟩ := r1
    have hr1 : IsRing type hp1 x := isRing_of_links hr (sweep_links _ keepsLinks_countStep _ _ _ h1)
    simp only
    rw [Traffic.intGreenBody_eq, doWhile_laneBody _ (Traffic.keepsLinks_intGreenStep tv _) hr1 hf]
    cases h2 : sweep (Traffic.greenStep tv x.laneCount) 0 hp1 with
    | none => rfl
    | some r2 =>
      obtain ⟨tt, hp2⟩ := r2
      have hr2 : IsRing type hp2 x :=
        isRing_of_links hr1 (sweep_links _ (Traffic.keepsLinks_intGreenStep tv _) _ _ _ h2)
      simp only
      rw [redPriorityBody_eq, doWhile_laneBody _ (keepsLinks_redPriorityStep tt) hr2 hf]

theorem wrap32_of_int {x : Int} (h1 : INT_MIN ≤ x) (h2 : x ≤ INT_MAX) : wrap32 x = x := by
  unfold INT_MIN at h1
  unfold INT_MAX at h2
  unfold wrap32
  omega

theorem sweep_countStep : ∀ (ls : List Lane) (s : Int),
    sweep countStep s ls =
      some (ls.foldl (fun tv l => wrap32 (tv + l.vehicleCount)) s, ls) := by
  intro ls
  induction ls with
  | nil => intro s; rfl
  | cons l ls ih => intro s; simp only [sweep, countStep, ih, List.foldl_cons]

theorem foldl_count_exact : ∀ (ls : List Lane) (s : Int), (∀ l ∈ ls, 0 ≤ l.vehicleCount) →
    0 ≤ s → s + (ls.map Lane.vehicleCount).sum ≤ INT_MAX →
    ls.foldl (fun tv l => wrap32 (tv + l.vehicleCount)) s = s + (ls.map Lane.vehicleCount).sum := by
  intro ls
  induction ls with
  | nil => intro s _ _ _; simp
  | cons l ls ih =>
    intro s hnn hs hmax
    have hl : 0 ≤ l.vehicleCount := hnn l (List.mem_cons_self _ _)
    have hrest : 0 ≤ (ls.map Lane.vehicleCount).sum :=
      List.sum_nonneg (by
        intro v hv
        obtain ⟨l', hl', rfl⟩ := List.mem_map.mp hv
        exact hnn l' (List.mem_cons_of_mem _ hl'))
    simp only [List.map_cons, List.sum_cons] at hmax
    have hw : wrap32 (s + l.vehicleCount) = s + l.vehicleCount :=
      wrap32_of_int (by unfold INT_MIN; omega) (by omega)
    simp only [List.foldl_cons, List.map_cons, List.sum_cons, hw]
    rw [ih _ (fun l' hl' => hnn l' (List.mem_cons_of_mem _ hl')) (by omega) (by omega)]
    ring

theorem sweep_redPriorityStep (totalTime : Int) : ∀ (ls : List Lane) (u : Unit),
    sweep (redPriorityStep totalTime) u ls =
      some (u, ls.map (fun l => calculatePriority (calculateRedTime l totalTime))) := by
  intro ls
  induction ls with
  | nil => intro u; rfl
  | cons l ls ih => intro u; simp only [sweep, redPriorityStep, ih, List.map_cons]

theorem Traffic27.sweep_greenStep (T n : Int) : ∀ (ls : List Lane) (s : Int),
    (∀ l ∈ ls, ∃ g, Traffic27.greenSeconds l.vehicleCount T n = some g) →
    ∃ tt, sweep (Traffic27.greenStep T n) s ls = some (tt, ls.map (Traffic27.withGreen T n)) := by
  intro ls
  induction ls with
  | nil => intro s _; exact ⟨s, rfl⟩
  | cons l ls ih =>
    intro s hall
    obtain ⟨g, hg⟩ := hall l (List.mem_cons_self _ _)
    obtain ⟨tt, htt⟩ := ih (wrap32 (s + g)) (fun l' hl' => hall l' (List.mem_cons_of_mem _ hl'))
    refine ⟨tt, ?_⟩
    simp only [sweep, Traffic27.greenStep, Traffic27.calculateGreenTime, hg, Option.map_some',
      htt, List.map_cons, Option.getD_some, Traffic27.withGreen]

theorem greenTime_calculatePriority_calculateRedTime (l : Lane) (totalTime : Int) :
    (calculatePriority (calculateRedTime l totalTime)).greenTime = l.greenTime := by
  unfold calculatePriority calculateRedTime
  split <;> rfl

/-- The computed green time of a lane with `0 ≤ vc ≤ T` vehicles. -/
theorem greenSeconds_bounds (vc T n : Int) (hvc : 0 ≤ vc) (hle : vc ≤ T) (hT : 0 < T)
    (hmax : T ≤ INT_MAX) (hn : n = 3 ∨ n = 4) :
    ∃ g, Traffic27.greenSeconds vc T n = some g ∧ 0 ≤ g ∧
      (g : ℚ) ≤ 30 * n * (vc / T) + 1 / 8 ∧ 30 * (n : ℚ) * (vc / T) - 9 / 8 < g := by
  rcases hvc.lt_or_eq with hpos | hzero
  · exact greenSeconds_pos vc T n hpos hle hmax hn
  · subst hzero
    refine ⟨0, greenSeconds_zero T n hT hmax hn, le_refl _, ?_, ?_⟩ <;> norm_num

theorem green_sum_bounds (T n : Int) (hT : 0 < T) (hmax : T ≤ INT_MAX) (hn : n = 3 ∨ n = 4) :
    ∀ ls : List Lane, (∀ l ∈ ls, 0 ≤ l.vehicleCount ∧ l.vehicleCount ≤ T) →
      (((ls.map (fun l => (Traffic27.greenSeconds l.vehicleCount T n).getD 0)).sum : Int) : ℚ) ≤
          30 * n * (((ls.map Lane.vehicleCount).sum : Int) / T) + (ls.length : ℚ) / 8 ∧
        30 * (n : ℚ) * (((ls.map Lane.vehicleCount).sum : Int) / T) - 9 * (ls.length : ℚ) / 8 ≤
          (((ls.map (fun l => (Traffic27.greenSeconds l.vehicleCount T n).getD 0)).sum : Int) : ℚ) := by
  intro ls
  induction ls with
  | nil => intro _; simp
  | cons l ls ih =>
    intro hall
    obtain ⟨h1, h2⟩ := ih (fun l' hl' => hall l' (List.mem_cons_of_mem _ hl'))
    obtain ⟨hl0, hlT⟩ := hall l (List.mem_cons_self _ _)
    obtain ⟨g, hg, _, hg1, hg2⟩ := greenSeconds_bounds l.vehicleCount T n hl0 hlT hT hmax hn
    simp only [List.map_cons, List.sum_cons, hg, Option.getD_some, List.length_cons]
    generalize (ls.map (fun l => (Traffic27.greenSeconds l.vehicleCount T n).getD 0)).sum = G at *
    generalize (ls.map Lane.vehicleCount).sum = V at *
    push_cast
    rw [add_div, mul_add]
    constructor <;> linarith

/-- With three lanes of `INT_MAX` vehicles each, `totalVehicles` wraps to the
positive value `2147483645`, every ratio is computed as `1.0f`, and every lane
receives 90 seconds of green: the green times add up to 270, not to a value
between 87 and 90.  With the counts 61, 29, 0 the exact shares are 61, 29 and
0 seconds and single precision gives lane 1 only 60: the lane loses a full
second. -/
theorem green_time_sum_after_total_overflow :
    (Traffic27.updateVehicleCounts (fun _ => 0) 3
        (populate tRing.1 [(2147483647, 0), (2147483647, 0), (2147483647, 0)]) tRing.2).map
      (fun h => h.map (fun l => (l.vehicleCount, l.emergencyVehicle))) =
      some [(2147483647, 0), (2147483647, 0), (2147483647, 0)] ∧
    wrap32 (wrap32 (wrap32 (0 + 2147483647) + 2147483647) + 2147483647) = 2147483645 ∧
    (Traffic27.calculateSignalTiming (fun _ => 0) 3
        (populate tRing.1 [(2147483647, 0), (2147483647, 0), (2147483647, 0)]) tRing.2).map
      (fun h => h.map Lane.greenTime) = some [90, 90, 90] ∧
    (Traffic27.calculateSignalTiming (fun _ => 0) 3
        (populate tRing.1 [(61, 0), (29, 0), (0, 0)]) tRing.2).map
      (fun h => h.map Lane.greenTime) = some [60, 29, 0] := by
  decide

/-- C8 (amended): in `traffic27.c`, for every ring with `laneCount` in
`{3, 4}` whose vehicle counts after `updateVehicleCounts` are non-negative,
have a positive total and a total that does not exceed `INT_MAX`, whether or
not lanes carry an emergency vehicle, `calculateSignalTiming` returns, and
the green times of all lanes add up to at most `30 * laneCount` and at least
`30 * laneCount - laneCount`; the green time of each lane lies less than
`9 / 8` below and at most `1 / 8` above its exact share
`30 * laneCount * vehicleCount / total`. -/
theorem green_time_sum_within_tolerance (type : IntersectionType) (rand : Nat → Nat)
    (fuel : Nat) (h0 h : Heap) (x : Intersection) (hr : IsRing type h0 x)
    (hf : x.laneCount ≤ fuel)
    (hupd : Traffic27.updateVehicleCounts rand fuel h0 x = some h)
    (hnn : ∀ l ∈ h, 0 ≤ l.vehicleCount)
    (hpos : 0 < (h.map Lane.vehicleCount).sum)
    (hfit : (h.map Lane.vehicleCount).sum ≤ INT_MAX) :
    ∃ h1, Traffic27.calculateSignalTiming rand fuel h0 x = some h1 ∧
      (h1.map Lane.greenTime).sum ≤ BASE_GREEN_TIME * x.laneCount ∧
      BASE_GREEN_TIME * x.laneCount - x.laneCount ≤ (h1.map Lane.greenTime).sum ∧
      ∀ a l l1, load h a = some l → load h1 a = some l1 →
        (l1.greenTime : ℚ) ≤ 30 * x.laneCount *
            (l.vehicleCount / ((h.map Lane.vehicleCount).sum : Int)) + 1 / 8 ∧
          30 * (x.laneCount : ℚ) * (l.vehicleCount / ((h.map Lane.vehicleCount).sum : Int)) -
            9 / 8 < l1.greenTime := by
  -- the snapshot is a ring again
  have hring : IsRing type h x := by
    rw [Traffic27.updateVehicleCounts_eq hr hf] at hupd
    cases hs : sweep (Traffic27.updateStep rand) 0 h0 with
    | none => simp [hs] at hupd
    | some r =>
      simp only [hs, Option.map_some', Option.some.injEq] at hupd
      subst hupd
      exact isRing_of_links hr (sweep_links _ (Traffic27.keepsLinks_updateStep rand) _ _ _ hs)
  obtain ⟨n, hn, hcount, _, hlen, _, _⟩ := isRing_shape hring
  have hn' : x.laneCount = 3 ∨ x.laneCount = 4 := by
    rcases hn with rfl | rfl
    · exact Or.inl hcount
    · exact Or.inr hcount
  -- first pass
  have htotal : h.foldl (fun tv l => wrap32 (tv + l.vehicleCount)) 0 =
      (h.map Lane.vehicleCount).sum := by
    rw [foldl_count_exact h 0 hnn (le_refl _) (by simpa using hfit)]
    simp
  -- second pass
  have hle : ∀ l ∈ h, 0 ≤ l.vehicleCount ∧ l.vehicleCount ≤ (h.map Lane.vehicleCount).sum := by
    intro l hl
    refine ⟨hnn l hl, List.single_le_sum ?_ _ (List.mem_map_of_mem _ hl)⟩
    intro v hv
    obtain ⟨l', hl', rfl⟩ := List.mem_map.mp hv
    exact hnn l' hl'
  obtain ⟨tt, htt⟩ := Traffic27.sweep_greenStep (h.map Lane.vehicleCount).sum x.laneCount h 0
    (by
      intro l hl
      obtain ⟨g, hg, _⟩ := greenSeconds_bounds l.vehicleCount _ x.laneCount (hle l hl).1
        (hle l hl).2 hpos hfit hn'
      exact ⟨g, hg⟩)
  have hsum : (List.map Lane.greenTime
        (List.map (fun l => calculatePriority (calculateRedTime l tt))
          (List.map (Traffic27.withGreen (h.map Lane.vehicleCount).sum x.laneCount) h))).sum ≤
          BASE_GREEN_TIME * x.laneCount ∧
      BASE_GREEN_TIME * x.laneCount - x.laneCount ≤ (List.map Lane.greenTime
        (List.map (fun l => calculatePriority (calculateRedTime l tt))
          (List.map (Traffic27.withGreen (h.map Lane.vehicleCount).sum x.laneCount) h))).sum := by
    have hgreens : (List.map Lane.greenTime
        (List.map (fun l => calculatePriority (calculateRedTime l tt))
          (List.map (Traffic27.withGreen (h.map Lane.vehicleCount).sum x.laneCount) h))) =
        h.map (fun l => (Traffic27.greenSeconds l.vehicleCount (h.map Lane.vehicleCount).sum
          x.laneCount).getD 0) := by
      simp only [List.map_map]
      apply List.map_congr_left
      intro l _
      simp only [Function.comp_apply, greenTime_calculatePriority_calculateRedTime,
        Traffic27.withGreen]
    rw [hgreens]
    obtain ⟨hb1, hb2⟩ := green_sum_bounds (h.map Lane.vehicleCount).sum x.laneCount hpos hfit hn'
      h hle
    have hTq : (((h.map Lane.vehicleCount).sum : Int) : ℚ) ≠ 0 := by
      exact_mod_cast hpos.ne'
    rw [div_self hTq, hlen] at hb1 hb2
    generalize (h.map (fun l => (Traffic27.greenSeconds l.vehicleCount
      (h.map Lane.vehicleCount).sum x.laneCount).getD 0)).sum = G at *
    unfold BASE_GREEN_TIME
    rw [hcount] at hb1 hb2 ⊢
    rcases hn with rfl | rfl
    · norm_num at hb1 hb2 ⊢
      have h3 : (G : ℚ) < ((91 : Int) : ℚ) := by push_cast; linarith
      have h4 : G < 91 := by exact_mod_cast h3
      have h5 : ((86 : Int) : ℚ) < (G : ℚ) := by push_cast; linarith
      have h6 : 86 < G := by exact_mod_cast h5
      constructor <;> omega
    · norm_num at hb1 hb2 ⊢
      have h3 : (G : ℚ) < ((121 : Int) : ℚ) := by push_cast; linarith
      have h4 : G < 121 := by exact_mod_cast h3
      have h5 : ((115 : Int) : ℚ) < (G : ℚ) := by push_cast; linarith
      have h6 : 115 < G := by exact_mod_cast h5
      constructor <;> omega
  refine ⟨List.map (fun l => calculatePriority (calculateRedTime l tt))
    (List.map (Traffic27.withGreen (h.map Lane.vehicleCount).sum x.laneCount) h), ?_, hsum.1,
    hsum.2, ?_⟩
  · unfold Traffic27.calculateSignalTiming
    rw [hupd]
    simp only
    rw [Traffic27.timingPasses_eq hring hf, sweep_countStep, htotal]
    simp only [htt, sweep_redPriorityStep, Option.map_some']
  · intro a l l1 hl hl1
    have hl' : h[a]? = some l := hl
    have hmem : l ∈ h := List.getElem?_mem hl'
    have hl1' : (List.map (fun l => calculatePriority (calculateRedTime l tt))
        (List.map (Traffic27.withGreen (h.map Lane.vehicleCount).sum x.laneCount) h))[a]? =
        some l1 := hl1
    rw [List.getElem?_map, List.getElem?_map, hl'] at hl1'
    simp only [Option.map_some', Option.some.injEq] at hl1'
    obtain ⟨g, hg, _, hg1, hg2⟩ := greenSeconds_bounds l.vehicleCount _ x.laneCount
      (hle l hmem).1 (hle l hmem).2 hpos hfit hn'
    rw [← hl1', greenTime_calculatePriority_calculateRedTime, Traffic27.withGreen]
    simp only [hg, Option.getD_some]
    exact ⟨hg1, hg2⟩

/-- Witness for C8: the T-junction with counts 10, 5, 5 (the random
increments being 0). -/
theorem green_time_sum_within_tolerance_witness :
    IsRing .T_INTERSECTION (populate tRing.1 [(10, 0), (5, 0), (5, 0)]) tRing.2 ∧
    tRing.2.laneCount ≤ (3 : Nat) ∧
    Traffic27.updateVehicleCounts (fun _ => 0) 3 (populate tRing.1 [(10, 0), (5, 0), (5, 0)])
        tRing.2 = some (withWaitingTime (populate tRing.1 [(10, 0), (5, 0), (5, 0)]) 10) ∧
    (∀ l ∈ withWaitingTime (populate tRing.1 [(10, 0), (5, 0), (5, 0)]) 10,
      0 ≤ l.vehicleCount) ∧
    0 < ((withWaitingTime (populate tRing.1 [(10, 0), (5, 0), (5, 0)]) 10).map
      Lane.vehicleCount).sum ∧
    ((withWaitingTime (populate tRing.1 [(10, 0), (5, 0), (5, 0)]) 10).map
      Lane.vehicleCount).sum ≤ INT_MAX ∧
    ∃ h1, Traffic27.calculateSignalTiming (fun _ => 0) 3
        (populate tRing.1 [(10, 0), (5, 0), (5, 0)]) tRing.2 = some h1 ∧
      (h1.map Lane.greenTime).sum ≤ BASE_GREEN_TIME * tRing.2.laneCount ∧
      BASE_GREEN_TIME * tRing.2.laneCount - tRing.2.laneCount ≤ (h1.map Lane.greenTime).sum ∧
      ∀ a l l1, load (withWaitingTime (populate tRing.1 [(10, 0), (5, 0), (5, 0)]) 10) a = some l →
        load h1 a = some l1 →
        (l1.greenTime : ℚ) ≤ 30 * tRing.2.laneCount *
            (l.vehicleCount / (((withWaitingTime (populate tRing.1 [(10, 0), (5, 0), (5, 0)])
              10).map Lane.vehicleCount).sum : Int)) + 1 / 8 ∧
          30 * (tRing.2.laneCount : ℚ) *
            (l.vehicleCount / (((withWaitingTime (populate tRing.1 [(10, 0), (5, 0), (5, 0)])
              10).map Lane.vehicleCount).sum : Int)) - 9 / 8 < l1.greenTime :=
  ⟨isRing_populate_T _ _ _, by decide, by decide, by decide, by decide, by decide,
    green_time_sum_within_tolerance .T_INTERSECTION (fun _ => 0) 3
      (populate tRing.1 [(10, 0), (5, 0), (5, 0)])
      (withWaitingTime (populate tRing.1 [(10, 0), (5, 0), (5, 0)]) 10) tRing.2
      (isRing_populate_T _ _ _) (by decide) (by decide) (by decide) (by decide) (by decide)⟩

/-- The green times of the witness of C8: the T-junction with counts 10, 5, 5
receives 45, 22 and 22 seconds, 89 in all. -/
theorem green_times_10_5_5 :
    (Traffic27.calculateSignalTiming (fun _ => 0) 3
        (populate tRing.1 [(10, 0), (5, 0), (5, 0)]) tRing.2).map
      (fun h => h.map Lane.greenTime) = some [45, 22, 22] := by
  decide

/-! ## C11: the ring is closed and doubly linked -/

/-- C11: in the ring returned by `createIntersection`, following `next` from
any lane for exactly `laneCount` steps returns to that lane, following it for
`k` steps with `0 < k < laneCount` does not, and `prev` is the inverse of
`next`: `lane->next->prev` and `lane->prev->next` are the lane itself, for
every lane, head and tail included. -/
theorem ring_closed_and_doubly_linked (type : IntersectionType) :
    ∃ h x, createIntersection type = some (h, x) ∧ (h.length : Int) = x.laneCount ∧
      ∀ a, a < h.length →
        nextN h h.length (some a) = some a ∧
        (∀ k, k < h.length → 0 < k → nextN h k (some a) ≠ some a) ∧
        ((load h a).bind (fun l => l.next.bind (load h))).bind (fun l => l.prev) = some a ∧
        ((load h a).bind (fun l => l.prev.bind (load h))).bind (fun l => l.next) = some a := by
  cases type with
  | T_INTERSECTION =>
    exact ⟨tRing.1, tRing.2, createIntersection_T, by decide⟩
  | PLUS_INTERSECTION =>
    exact ⟨plusRing.1, plusRing.2, createIntersection_PLUS, by decide⟩

/-! ## C13: priority of a non-emergency lane -/

/-- C13: for every lane without `emergencyVehicle` set, `calculatePriority`
sets `priority` to the lane's `vehicleCount` and writes no other field, so
among non-emergency lanes a lane with more waiting vehicles never has a lower
priority than a lane with fewer. -/
theorem nonemergency_priority_is_vehicleCount (l : Lane) (hl : l.emergencyVehicle = 0) :
    calculatePriority l = { l with priority := l.vehicleCount } ∧
      (calculatePriority l).priority = l.vehicleCount ∧
      ∀ l2 : Lane, l2.emergencyVehicle = 0 → l2.vehicleCount ≤ l.vehicleCount →
        (calculatePriority l2).priority ≤ (calculatePriority l).priority := by
  have key : ∀ l : Lane, l.emergencyVehicle = 0 →
      calculatePriority l = { l with priority := l.vehicleCount } := by
    intro l hl
    unfold calculatePriority
    rw [if_neg (by simpa using hl)]
  refine ⟨key l hl, by rw [key l hl], ?_⟩
  intro l2 hl2 hle
  rw [key l hl, key l2 hl2]
  exact hle

/-- Witness for C13: a lane holding 7 vehicles and no emergency vehicle. -/
theorem nonemergency_priority_is_vehicleCount_witness :
    (laneWith 7 0).emergencyVehicle = 0 ∧
    (calculatePriority (laneWith 7 0) =
        { laneWith 7 0 with priority := (laneWith 7 0).vehicleCount } ∧
      (calculatePriority (laneWith 7 0)).priority = (laneWith 7 0).vehicleCount ∧
      ∀ l2 : Lane, l2.emergencyVehicle = 0 → l2.vehicleCount ≤ (laneWith 7 0).vehicleCount →
        (calculatePriority l2).priority ≤ (calculatePriority (laneWith 7 0)).priority) :=
  ⟨rfl, nonemergency_priority_is_vehicleCount (laneWith 7 0) rfl⟩

/-! ## C17: where `enqueue` inserts -/

theorem insertByPriority_eq_takeWhile (prio : Nat → Int) (x : Nat) :
    ∀ q : List Nat, insertByPriority prio x q =
      q.takeWhile (fun a => decide (prio x ≤ prio a)) ++
        x :: q.dropWhile (fun a => decide (prio x ≤ prio a)) := by
  intro q
  induction q with
  | nil => rfl
  | cons y ys ih =>
    simp only [insertByPriority, List.takeWhile_cons, List.dropWhile_cons]
    by_cases hlt : prio y < prio x
    · rw [if_pos hlt]
      have : decide (prio x ≤ prio y) = false := decide_eq_false (by omega)
      simp [this]
    · rw [if_neg hlt]
      have : decide (prio x ≤ prio y) = true := decide_eq_true (by omega)
      simp [this, ih]

/-- C17: for every queue `q`, sorted or not, and every lane `x`, `enqueue`
inserts `x` in front of the first element whose priority is strictly less than
that of `x`, and at the end if there is none: the result is the longest prefix
of `q` whose priorities are all greater than or equal to the priority of `x`,
followed by `x`, followed by the rest of `q`; so `x` stands behind every lane
of equal priority in that prefix. -/
theorem enqueue_inserts_before_first_lower (h : Heap) (q : List Nat) (x : Nat)
    (hq : ∀ a ∈ q, a < h.length) (hx : x < h.length) :
    Traffic27.enqueue h q x =
        some (q.takeWhile (fun a => decide (prioOf h x ≤ prioOf h a)) ++
          x :: q.dropWhile (fun a => decide (prioOf h x ≤ prioOf h a))) ∧
      (∀ a ∈ q.takeWhile (fun a => decide (prioOf h x ≤ prioOf h a)),
        prioOf h x ≤ prioOf h a) ∧
      (∀ b, (q.dropWhile (fun a => decide (prioOf h x ≤ prioOf h a))).head? = some b →
        prioOf h b < prioOf h x) ∧
      ∀ a ∈ x :: q, ∃ l, load h a = some l ∧ prioOf h a = l.priority := by
  refine ⟨?_, ?_, ?_, ?_⟩
  · rw [enqueue_eq h q x hq hx, insertByPriority_eq_takeWhile]
  · intro a ha
    have := List.mem_takeWhile_imp ha
    simpa using this
  · intro b hb
    have := List.head?_dropWhile_not (fun a => decide (prioOf h x ≤ prioOf h a)) q
    rw [hb] at this
    simp only [Option.all_some, Bool.not_eq_true', decide_eq_false_iff_not, not_le] at this
    simpa using this
  · intro a ha
    have hlt : a < h.length := by
      rcases List.mem_cons.mp ha with rfl | ha
      · exact hx
      · exact hq a ha
    exact ⟨_, load_of_lt hlt, prioOf_of_load (load_of_lt hlt)⟩

/-- Witness for C17: lane 4 (priority 5) enqueued into the unsorted queue of
lanes 1, 2, 3 with priorities 5, 9, 2 lands between lane 2 and lane 3. -/
theorem enqueue_inserts_before_first_lower_witness :
    (∀ a ∈ [0, 1, 2], a < (withPriorities plusRing.1 [5, 9, 2, 5]).length) ∧
    3 < (withPriorities plusRing.1 [5, 9, 2, 5]).length ∧
    (Traffic27.enqueue (withPriorities plusRing.1 [5, 9, 2, 5]) [0, 1, 2] 3 =
        some ([0, 1, 2].takeWhile (fun a =>
            decide (prioOf (withPriorities plusRing.1 [5, 9, 2, 5]) 3 ≤
              prioOf (withPriorities plusRing.1 [5, 9, 2, 5]) a)) ++
          3 :: [0, 1, 2].dropWhile (fun a =>
            decide (prioOf (withPriorities plusRing.1 [5, 9, 2, 5]) 3 ≤
              prioOf (withPriorities plusRing.1 [5, 9, 2, 5]) a))) ∧
      (∀ a ∈ [0, 1, 2].takeWhile (fun a =>
          decide (prioOf (withPriorities plusRing.1 [5, 9, 2, 5]) 3 ≤
            prioOf (withPriorities plusRing.1 [5, 9, 2, 5]) a)),
        prioOf (withPriorities plusRing.1 [5, 9, 2, 5]) 3 ≤
          prioOf (withPriorities plusRing.1 [5, 9, 2, 5]) a) ∧
      (∀ b, ([0, 1, 2].dropWhile (fun a =>
          decide (prioOf (withPriorities plusRing.1 [5, 9, 2, 5]) 3 ≤
            prioOf (withPriorities plusRing.1 [5, 9, 2, 5]) a))).head? = some b →
        prioOf (withPriorities plusRing.1 [5, 9, 2, 5]) b <
          prioOf (withPriorities plusRing.1 [5, 9, 2, 5]) 3) ∧
      ∀ a ∈ 3 :: [0, 1, 2], ∃ l, load (withPriorities plusRing.1 [5, 9, 2, 5]) a = some l ∧
        prioOf (withPriorities plusRing.1 [5, 9, 2, 5]) a = l.priority) :=
  ⟨by decide, by decide,
    enqueue_inserts_before_first_lower (withPriorities plusRing.1 [5, 9, 2, 5]) [0, 1, 2] 3
      (by decide) (by decide)⟩

/-- The queue of the witness of C17 after the insertion. -/
theorem enqueue_example :
    Traffic27.enqueue (withPriorities plusRing.1 [5, 9, 2, 5]) [0, 1, 2] 3 = some [0, 1, 3, 2] := by
  decide
/-! ## C18: green time grows with the vehicle count (`Traffic.c`) -/

theorem Traffic.calculateGreenTime_nonemergency (l : Lane) (T n : Int)
    (he : l.emergencyVehicle = 0) (h0 : 0 ≤ l.vehicleCount)
    (hov : l.vehicleCount * 60 ≤ INT_MAX) (hT : 0 < T) :
    Traffic.calculateGreenTime l T n =
      some { l with greenTime := l.vehicleCount * 60 / T } := by
  have hw : wrap32 (l.vehicleCount * 60) = l.vehicleCount * 60 :=
    wrap32_of_int (by unfold INT_MIN; omega) hov
  unfold Traffic.calculateGreenTime
  rw [if_neg (by simpa using he), if_neg hT.ne', hw,
    if_neg (by unfold INT_MIN; omega), Int.tdiv_eq_ediv (by omega) hT.le]

/-- C18: in `Traffic.c`, for two non-emergency lanes of one cycle (the same
positive `totalVehicles`) with counts `0 ≤ a ≤ b` whose product with 60 is an
`int`, `calculateGreenTime` returns for both, gives the lane with count `a` a
green time that is not negative and not larger than that of the lane with
count `b`, and gives a lane with count 0 the green time 0. -/
theorem green_time_monotone_in_vehicle_count (la lb : Lane) (totalVehicles laneCount : Int)
    (hea : la.emergencyVehicle = 0) (heb : lb.emergencyVehicle = 0)
    (h0 : 0 ≤ la.vehicleCount) (hab : la.vehicleCount ≤ lb.vehicleCount)
    (hov : lb.vehicleCount * 60 ≤ INT_MAX) (hT : 0 < totalVehicles) :
    ∃ ga gb, Traffic.calculateGreenTime la totalVehicles laneCount = some ga ∧
      Traffic.calculateGreenTime lb totalVehicles laneCount = some gb ∧
      0 ≤ ga.greenTime ∧ ga.greenTime ≤ gb.greenTime ∧
      (la.vehicleCount = 0 → ga.greenTime = 0) := by
  refine ⟨_, _,
    Traffic.calculateGreenTime_nonemergency la totalVehicles laneCount hea h0 (by omega) hT,
    Traffic.calculateGreenTime_nonemergency lb totalVehicles laneCount heb (by omega) hov hT,
    ?_, ?_, ?_⟩
  · exact Int.ediv_nonneg (by omega) hT.le
  · exact Int.ediv_le_ediv hT (by omega)
  · intro hz
    simp [hz]

/-- Witness for C18: lanes with 5 and 10 of 20 vehicles. -/
theorem green_time_monotone_in_vehicle_count_witness :
    (laneWith 5 0).emergencyVehicle = 0 ∧ (laneWith 10 0).emergencyVehicle = 0 ∧
    0 ≤ (laneWith 5 0).vehicleCount ∧ (laneWith 5 0).vehicleCount ≤ (laneWith 10 0).vehicleCount ∧
    (laneWith 10 0).vehicleCount * 60 ≤ INT_MAX ∧ (0 : Int) < 20 ∧
    ∃ ga gb, Traffic.calculateGreenTime (laneWith 5 0) 20 3 = some ga ∧
      Traffic.calculateGreenTime (laneWith 10 0) 20 3 = some gb ∧
      0 ≤ ga.greenTime ∧ ga.greenTime ≤ gb.greenTime ∧
      ((laneWith 5 0).vehicleCount = 0 → ga.greenTime = 0) :=
  ⟨rfl, rfl, by decide, by decide, by decide, by decide,
    green_time_monotone_in_vehicle_count (laneWith 5 0) (laneWith 10 0) 20 3 rfl rfl
      (by decide) (by decide) (by decide) (by decide)⟩

/-! ## C14: the example with counts 10, 5, 5 -/

/-- On the T-junction with counts 10, 5, 5 and no emergency vehicle neither
program computes the green times 15, 7, 8. -/
theorem green_times_10_5_5_are_not_15_7_8 :
    (Traffic27.timingPasses 3 (populate tRing.1 [(10, 0), (5, 0), (5, 0)]) tRing.2).map
        (fun h => h.map Lane.greenTime) ≠ some [15, 7, 8] ∧
    (Traffic.calculateSignalTiming [(1, 10, 0), (2, 5, 0), (3, 5, 0)] 3 tRing.1 tRing.2).map
        (fun h => h.map Lane.greenTime) ≠ some [15, 7, 8] := by
  decide

/-- C14 (amended): for the 3-lane T-junction with vehicle counts 10, 5, 5 and
no emergency vehicle (20 vehicles in all), the green times that
`calculateSignalTiming` computes for lanes 1, 2, 3 are 45, 22, 22 in
`traffic27.c` (the shares of `30 * laneCount = 90` seconds, truncated) and
30, 15, 15 in `Traffic.c` (the shares of 60 seconds). -/
theorem green_times_of_example_junction :
    (Traffic27.timingPasses 3 (populate tRing.1 [(10, 0), (5, 0), (5, 0)]) tRing.2).map
        (fun h => h.map (fun l => (l.vehicleCount, l.greenTime))) =
      some [(10, 45), (5, 22), (5, 22)] ∧
    (Traffic27.calculateSignalTiming (fun _ => 0) 3
        (populate tRing.1 [(10, 0), (5, 0), (5, 0)]) tRing.2).map
        (fun h => h.map (fun l => (l.vehicleCount, l.greenTime))) =
      some [(10, 45), (5, 22), (5, 22)] ∧
    (Traffic.calculateSignalTiming [(1, 10, 0), (2, 5, 0), (3, 5, 0)] 3 tRing.1 tRing.2).map
        (fun h => h.map (fun l => (l.vehicleCount, l.greenTime))) =
      some [(10, 30), (5, 15), (5, 15)] := by
  decide

/-! ## C16: what the passes leave alone -/

theorem sweep_keeps {σ β : Type} (f : Lane → β) (g : σ → Lane → Option (σ × Lane))
    (hg : ∀ s l s1 l1, g s l = some (s1, l1) → f l1 = f l) :
    ∀ (ls : List Lane) (s : σ) (r : σ × List Lane), sweep g s ls = some r →
      r.2.map f = ls.map f := by
  intro ls
  induction ls with
  | nil => intro s r h; simp only [sweep, Option.some.injEq] at h; subst h; rfl
  | cons l ls ih =>
    intro s r h
    simp only [sweep] at h
    cases h1 : g s l with
    | none => simp [h1] at h
    | some p =>
      obtain ⟨s1, l1⟩ := p
      simp only [h1] at h
      cases h2 : sweep g s1 ls with
      | none => simp [h2] at h
      | some p2 =>
        obtain ⟨s2, ls2⟩ := p2
        simp only [h2, Option.some.injEq] at h
        subst h
        simp only [List.map_cons, hg s l s1 l1 h1, ih s1 _ h2]

theorem links_of_untimed {h1 h2 : Heap} (h : h1.map Lane.untimed = h2.map Lane.untimed) :
    h1.map Lane.links = h2.map Lane.links := by
  have e : ∀ h : Heap, h.map Lane.links =
      (h.map Lane.untimed).map (fun u => (u.2.2.2.1, u.2.2.2.2.1, u.2.2.2.2.2)) := by
    intro h
    simp [List.map_map, Function.comp_def, Lane.links, Lane.untimed]
  rw [e h1, e h2, h]

theorem untimed_countStep (s : Int) (l : Lane) (s1 : Int) (l1 : Lane)
    (h : countStep s l = some (s1, l1)) : l1.untimed = l.untimed := by
  simp only [countStep, Option.some.injEq, Prod.mk.injEq] at h
  rw [← h.2]

theorem untimed_redPriorityStep (totalTime : Int) (s : Unit) (l : Lane) (s1 : Unit) (l1 : Lane)
    (h : redPriorityStep totalTime s l = some (s1, l1)) : l1.untimed = l.untimed := by
  simp only [redPriorityStep, Option.some.injEq, Prod.mk.injEq] at h
  rw [← h.2]
  unfold calculatePriority calculateRedTime Lane.untimed
  split <;> rfl

theorem Traffic27.untimed_greenStep (totalVehicles laneCount : Int) (s : Int) (l : Lane)
    (s1 : Int) (l1 : Lane) (h : Traffic27.greenStep totalVehicles laneCount s l = some (s1, l1)) :
    l1.untimed = l.untimed := by
  unfold Traffic27.greenStep Traffic27.calculateGreenTime at h
  cases hg : Traffic27.greenSeconds l.vehicleCount totalVehicles laneCount with
  | none => simp [hg] at h
  | some g =>
    simp only [hg, Option.map_some', Option.some.injEq, Prod.mk.injEq] at h
    rw [← h.2]
    rfl

theorem Traffic.untimed_intGreenStep (totalVehicles laneCount : Int) (s : Int) (l : Lane)
    (s1 : Int) (l1 : Lane) (h : Traffic.greenStep totalVehicles laneCount s l = some (s1, l1)) :
    l1.untimed = l.untimed := by
  unfold Traffic.greenStep Traffic.calculateGreenTime at h
  split at h
  · simp only [Option.map_some', Option.some.injEq, Prod.mk.injEq] at h
    rw [← h.2]
    rfl
  · split at h
    · simp at h
    · split at h
      · simp at h
      · simp only [Option.map_some', Option.some.injEq, Prod.mk.injEq] at h
        rw [← h.2]
        rfl

theorem Traffic27.timingPasses_untimed {type : IntersectionType} {h h2 : Heap}
    {x : Intersection} (hr : IsRing type h x) {fuel : Nat} (hf : x.laneCount ≤ fuel)
    (hp : Traffic27.timingPasses fuel h x = some h2) :
    h2.map Lane.untimed = h.map Lane.untimed := by
  rw [Traffic27.timingPasses_eq hr hf] at hp
  cases e1 : sweep countStep 0 h with
  | none => simp [e1] at hp
  | some r1 =>
    obtain ⟨tv, hp1⟩ := r1
    simp only [e1] at hp
    cases e2 : sweep (Traffic27.greenStep tv x.laneCount) 0 hp1 with
    | none => simp [e2] at hp
    | some r2 =>
      obtain ⟨tt, hp2⟩ := r2
      simp only [e2] at hp
      cases e3 : sweep (redPriorityStep tt) () hp2 with
      | none => simp [e3] at hp
      | some r3 =>
        simp only [e3, Option.map_some', Option.some.injEq] at hp
        rw [← hp, sweep_keeps Lane.untimed _ (untimed_redPriorityStep tt) _ _ _ e3,
          sweep_keeps Lane.untimed _ (Traffic27.untimed_greenStep tv x.laneCount) _ _ _ e2,
          sweep_keeps Lane.untimed _ untimed_countStep _ _ _ e1]

theorem Traffic.intTimingPasses_untimed {type : IntersectionType} {h h2 : Heap}
    {x : Intersection} (hr : IsRing type h x) {fuel : Nat} (hf : x.laneCount ≤ fuel)
    (hp : Traffic.timingPasses fuel h x = some h2) :
    h2.map Lane.untimed = h.map Lane.untimed := by
  rw [Traffic.intTimingPasses_eq hr hf] at hp
  cases e1 : sweep countStep 0 h with
  | none => simp [e1] at hp
  | some r1 =>
    obtain ⟨tv, hp1⟩ := r1
    simp only [e1] at hp
    cases e2 : sweep (Traffic.greenStep tv x.laneCount) 0 hp1 with
    | none => simp [e2] at hp
    | some r2 =>
      obtain ⟨tt, hp2⟩ := r2
      simp only [e2] at hp
      cases e3 : sweep (redPriorityStep tt) () hp2 with
      | none => simp [e3] at hp
      | some r3 =>
        simp only [e3, Option.map_some', Option.some.injEq] at hp
        rw [← hp, sweep_keeps Lane.untimed _ (untimed_redPriorityStep tt) _ _ _ e3,
          sweep_keeps Lane.untimed _ (Traffic.untimed_intGreenStep tv x.laneCount) _ _ _ e2,
          sweep_keeps Lane.untimed _ untimed_countStep _ _ _ e1]

theorem sweep_updateStep (rand : Nat → Nat) : ∀ (ls : List Lane) (calls : Nat),
    ∃ r, sweep (Traffic27.updateStep rand) calls ls = some r := by
  intro ls
  induction ls with
  | nil => intro calls; exact ⟨_, rfl⟩
  | cons l ls ih =>
    intro calls
    obtain ⟨r, hr⟩ := ih (calls + 2)
    simp only [sweep, Traffic27.updateStep, hr]
    exact ⟨_, rfl⟩

/-- On a ring `updateVehicleCounts` returns and keeps the links. -/
theorem Traffic27.updateVehicleCounts_links {type : IntersectionType} {h : Heap}
    {x : Intersection} (hr : IsRing type h x) {fuel : Nat} (hf : x.laneCount ≤ fuel)
    (rand : Nat → Nat) :
    ∃ h1, Traffic27.updateVehicleCounts rand fuel h x = some h1 ∧
      h1.map Lane.links = h.map Lane.links := by
  obtain ⟨r, hs⟩ := sweep_updateStep rand h 0
  refine ⟨r.2, ?_, sweep_links _ (Traffic27.keepsLinks_updateStep rand) _ _ _ hs⟩
  rw [Traffic27.updateVehicleCounts_eq hr hf, hs]
  rfl

/-- The queue-building loop of `displaySignalTiming` returns the lane heap as
it found it. -/
theorem displayLoop_heap {type : IntersectionType} {h : Heap} {x : Intersection}
    (hr : IsRing type h x) {fuel : Nat} (hf : x.laneCount ≤ fuel) :
    doWhile (fun (pq : List Nat) h a => (Traffic27.enqueue h pq a).map (fun q => (q, h)))
        x.head fuel x.head [] h =
      some ((List.range h.length).foldl (fun q a => insertByPriority (prioOf h) a q) [], h) := by
  obtain ⟨n, hn, hcount, hhead, hlen, hlinks, _⟩ := isRing_shape hr
  have hfn : n ≤ fuel := by rw [hcount] at hf; exact_mod_cast hf
  have hrun := doWhile_eq_runOver _ preservesNext_enqueue (show 0 < n by omega) hfn
    ([] : List Nat) hlinks
  have hl : (List.range n).map (fun i => (0 + i) % n) = List.range n := by
    rcases hn with rfl | rfl <;> decide
  rw [hl, runOver_enqueue h _ _ (by intro a ha; rw [hlen]; exact List.mem_range.mp ha)
    (by intro a ha; simp at ha)] at hrun
  rw [hhead, hrun, hlen]

/-- C16: on every ring, `updateVehicleCounts`, the three passes of
`calculateSignalTiming` (in both programs) and the building of the dispatch
sequence leave the `laneNumber`, `next` and `prev` of every lane unchanged;
the three timing passes write no lane field other than `greenTime`, `redTime`
and `priority`, and the queue-building loop of `displaySignalTiming` writes no
lane field at all. -/
theorem lane_identity_and_links_preserved (type : IntersectionType) (h : Heap)
    (x : Intersection) (hr : IsRing type h x) (fuel : Nat) (hf : x.laneCount ≤ fuel)
    (rand : Nat → Nat) :
    (∃ h1, Traffic27.updateVehicleCounts rand fuel h x = some h1 ∧
      h1.map Lane.links = h.map Lane.links) ∧
    (∀ h2, Traffic27.timingPasses fuel h x = some h2 →
      h2.map Lane.untimed = h.map Lane.untimed ∧ h2.map Lane.links = h.map Lane.links) ∧
    (∀ h2, Traffic.timingPasses fuel h x = some h2 →
      h2.map Lane.untimed = h.map Lane.untimed ∧ h2.map Lane.links = h.map Lane.links) ∧
    (∀ h3, Traffic27.calculateSignalTiming rand fuel h x = some h3 →
      h3.map Lane.links = h.map Lane.links) ∧
    ∃ seq, doWhile (fun (pq : List Nat) h a => (Traffic27.enqueue h pq a).map (fun q => (q, h)))
      x.head fuel x.head [] h = some (seq, h) := by
  refine ⟨Traffic27.updateVehicleCounts_links hr hf rand, ?_, ?_, ?_, ⟨_, displayLoop_heap hr hf⟩⟩
  · intro h2 hp
    have := Traffic27.timingPasses_untimed hr hf hp
    exact ⟨this, links_of_untimed this⟩
  · intro h2 hp
    have := Traffic.intTimingPasses_untimed hr hf hp
    exact ⟨this, links_of_untimed this⟩
  · intro h3 hp
    obtain ⟨h1, hu, hl1⟩ := Traffic27.updateVehicleCounts_links hr hf rand
    unfold Traffic27.calculateSignalTiming at hp
    rw [hu] at hp
    simp only at hp
    have := Traffic27.timingPasses_untimed (isRing_of_links hr hl1) hf hp
    exact (links_of_untimed this).trans hl1

/-- Witness for C16: the T-junction with counts 10, 5, 5. -/
theorem lane_identity_and_links_preserved_witness :
    IsRing .T_INTERSECTION (populate tRing.1 [(10, 0), (5, 1), (5, 0)]) tRing.2 ∧
    tRing.2.laneCount ≤ (3 : Nat) ∧
    ((∃ h1, Traffic27.updateVehicleCounts (fun n => n) 3
        (populate tRing.1 [(10, 0), (5, 1), (5, 0)]) tRing.2 = some h1 ∧
      h1.map Lane.links = (populate tRing.1 [(10, 0), (5, 1), (5, 0)]).map Lane.links) ∧
    (∀ h2, Traffic27.timingPasses 3 (populate tRing.1 [(10, 0), (5, 1), (5, 0)]) tRing.2 =
        some h2 →
      h2.map Lane.untimed = (populate tRing.1 [(10, 0), (5, 1), (5, 0)]).map Lane.untimed ∧
      h2.map Lane.links = (populate tRing.1 [(10, 0), (5, 1), (5, 0)]).map Lane.links) ∧
    (∀ h2, Traffic.timingPasses 3 (populate tRing.1 [(10, 0), (5, 1), (5, 0)]) tRing.2 =
        some h2 →
      h2.map Lane.untimed = (populate tRing.1 [(10, 0), (5, 1), (5, 0)]).map Lane.untimed ∧
      h2.map Lane.links = (populate tRing.1 [(10, 0), (5, 1), (5, 0)]).map Lane.links) ∧
    (∀ h3, Traffic27.calculateSignalTiming (fun n => n) 3
        (populate tRing.1 [(10, 0), (5, 1), (5, 0)]) tRing.2 = some h3 →
      h3.map Lane.links = (populate tRing.1 [(10, 0), (5, 1), (5, 0)]).map Lane.links) ∧
    ∃ seq, doWhile (fun (pq : List Nat) h a => (Traffic27.enqueue h pq a).map (fun q => (q, h)))
      tRing.2.head 3 tRing.2.head [] (populate tRing.1 [(10, 0), (5, 1), (5, 0)]) =
        some (seq, populate tRing.1 [(10, 0), (5, 1), (5, 0)])) :=
  ⟨isRing_populate_T _ _ _, by decide,
    lane_identity_and_links_preserved .T_INTERSECTION
      (populate tRing.1 [(10, 0), (5, 1), (5, 0)]) tRing.2 (isRing_populate_T _ _ _) 3
      (by decide) (fun n => n)⟩

/-! ## Rings with the same snapshot (lemmas for C12) -/

theorem sweep_congr {σ α β : Type} (fin : Lane → α) (fout : Lane → β)
    (g : σ → Lane → Option (σ × Lane))
    (hg : ∀ s l l', fin l = fin l' →
      (g s l).map (fun r => (r.1, fout r.2)) = (g s l').map (fun r => (r.1, fout r.2))) :
    ∀ (ls ls' : List Lane) (s : σ), ls.map fin = ls'.map fin →
      (sweep g s ls).map (fun r => (r.1, r.2.map fout)) =
        (sweep g s ls').map (fun r => (r.1, r.2.map fout)) := by
  intro ls
  induction ls with
  | nil =>
    intro ls' s h
    cases ls' with
    | nil => rfl
    | cons l' ls' => simp at h
  | cons l ls ih =>
    intro ls' s h
    cases ls' with
    | nil => simp at h
    | cons l' ls' =>
      simp only [List.map_cons, List.cons.injEq] at h
      have h1 := hg s l l' h.1
      simp only [sweep]
      cases e : g s l with
      | none =>
        cases e' : g s l' with
        | none => rfl
        | some r' => simp [e, e'] at h1
      | some r =>
        cases e' : g s l' with
        | none => simp [e, e'] at h1
        | some r' =>
          obtain ⟨s1, l1⟩ := r
          obtain ⟨s1', l1'⟩ := r'
          simp only [e, e', Option.map_some', Option.some.injEq, Prod.mk.injEq] at h1
          obtain ⟨rfl, hout⟩ := h1
          have h2 := ih ls' s1 h.2
          simp only
          cases e2 : sweep g s1 ls with
          | none =>
            cases e2' : sweep g s1 ls' with
            | none => rfl
            | some q' => simp [e2, e2'] at h2
          | some q =>
            cases e2' : sweep g s1 ls' with
            | none => simp [e2, e2'] at h2
            | some q' =>
              simp only [e2, e2', Option.map_some', Option.some.injEq, Prod.mk.injEq] at h2
              simp only [Option.map_some', List.map_cons, h2.1, h2.2, hout]

theorem map_pair_eq {α β : Type} (f : Lane → α) (g : Lane → β) :
    ∀ (h h' : Heap), h.map f = h'.map f → h.map g = h'.map g →
      h.map (fun l => (f l, g l)) = h'.map (fun l => (f l, g l)) := by
  intro h
  induction h with
  | nil =>
    intro h' h1 _
    cases h' with
    | nil => rfl
    | cons l' ls' => simp at h1
  | cons l ls ih =>
    intro h' h1 h2
    cases h' with
    | nil => simp at h1
    | cons l' ls' =>
      simp only [List.map_cons, List.cons.injEq] at h1 h2 ⊢
      exact ⟨by rw [h1.1, h2.1], ih ls' h1.2 h2.2⟩

theorem totalOf_congr {h h' : Heap} (hs : h.map Lane.snapshot = h'.map Lane.snapshot) :
    totalOf h = totalOf h' := by
  have e : ∀ h : Heap, totalOf h =
      (h.map Lane.snapshot).foldl (fun tv p => wrap32 (tv + p.1)) 0 := by
    intro h
    unfold totalOf
    rw [List.foldl_map]
    rfl
  rw [e h, e h', hs]

/-- On a ring the three passes of `traffic27.c` amount to the sweep of the
green-time pass followed by a lane-wise map. -/
theorem Traffic27.timingPasses_closed {type : IntersectionType} {h : Heap} {x : Intersection}
    (hr : IsRing type h x) {fuel : Nat} (hf : x.laneCount ≤ fuel) :
    Traffic27.timingPasses fuel h x =
      (sweep (Traffic27.greenStep (totalOf h) x.laneCount) 0 h).map
        (fun r => r.2.map (fun l => calculatePriority (calculateRedTime l r.1))) := by
  rw [Traffic27.timingPasses_eq hr hf, sweep_countStep]
  unfold totalOf
  cases e : sweep (Traffic27.greenStep (List.foldl (fun tv l => wrap32 (tv + l.vehicleCount)) 0 h)
      x.laneCount) 0 h with
  | none => simp only [e, Option.map_none']
  | some r => simp only [e, sweep_redPriorityStep, Option.map_some']

/-- On a ring the three passes of `Traffic.c` amount to the sweep of the
green-time pass followed by a lane-wise map. -/
theorem Traffic.intTimingPasses_closed {type : IntersectionType} {h : Heap} {x : Intersection}
    (hr : IsRing type h x) {fuel : Nat} (hf : x.laneCount ≤ fuel) :
    Traffic.timingPasses fuel h x =
      (sweep (Traffic.greenStep (totalOf h) x.laneCount) 0 h).map
        (fun r => r.2.map (fun l => calculatePriority (calculateRedTime l r.1))) := by
  rw [Traffic.intTimingPasses_eq hr hf, sweep_countStep]
  unfold totalOf
  cases e : sweep (Traffic.greenStep (List.foldl (fun tv l => wrap32 (tv + l.vehicleCount)) 0 h)
      x.laneCount) 0 h with
  | none => simp only [e, Option.map_none']
  | some r => simp only [e, sweep_redPriorityStep, Option.map_some']

theorem timing_of_snapGreen (totalTime : Int) (l l' : Lane) (h : l.snapGreen = l'.snapGreen) :
    (calculatePriority (calculateRedTime l totalTime)).timing =
        (calculatePriority (calculateRedTime l' totalTime)).timing ∧
      (calculatePriority (calculateRedTime l totalTime)).snapshot =
        (calculatePriority (calculateRedTime l' totalTime)).snapshot := by
  simp only [Lane.snapGreen, Lane.snapshot, Prod.mk.injEq] at h
  obtain ⟨⟨h1, h2⟩, h3⟩ := h
  unfold calculatePriority calculateRedTime Lane.timing Lane.snapshot
  simp only [h1, h2, h3]
  split <;> exact ⟨rfl, rfl⟩

theorem map_timing_of_snapGreen (totalTime : Int) :
    ∀ (ls ls' : List Lane), ls.map Lane.snapGreen = ls'.map Lane.snapGreen →
      (ls.map (fun l => calculatePriority (calculateRedTime l totalTime))).map
          (fun l => (l.snapshot, l.timing)) =
        (ls'.map (fun l => calculatePriority (calculateRedTime l totalTime))).map
          (fun l => (l.snapshot, l.timing)) := by
  intro ls
  induction ls with
  | nil =>
    intro ls' h
    cases ls' with
    | nil => rfl
    | cons l' ls' => simp at h
  | cons l ls ih =>
    intro ls' h
    cases ls' with
    | nil => simp at h
    | cons l' ls' =>
      simp only [List.map_cons, List.cons.injEq] at h ⊢
      obtain ⟨ht, hs⟩ := timing_of_snapGreen totalTime l l' h.1
      exact ⟨by rw [ht, hs], ih ls' h.2⟩

theorem Traffic27.greenStep_congr (T n : Int) (s : Int) (l l' : Lane)
    (h : l.snapshot = l'.snapshot) :
    (Traffic27.greenStep T n s l).map (fun r => (r.1, r.2.snapGreen)) =
      (Traffic27.greenStep T n s l').map (fun r => (r.1, r.2.snapGreen)) := by
  simp only [Lane.snapshot, Prod.mk.injEq] at h
  unfold Traffic27.greenStep Traffic27.calculateGreenTime
  rw [h.1]
  cases Traffic27.greenSeconds l'.vehicleCount T n with
  | none => rfl
  | some g => simp [Lane.snapGreen, Lane.snapshot, h.1, h.2]

theorem Traffic.intGreenStep_congr (T n : Int) (s : Int) (l l' : Lane)
    (h : l.snapshot = l'.snapshot) :
    (Traffic.greenStep T n s l).map (fun r => (r.1, r.2.snapGreen)) =
      (Traffic.greenStep T n s l').map (fun r => (r.1, r.2.snapGreen)) := by
  simp only [Lane.snapshot, Prod.mk.injEq] at h
  unfold Traffic.greenStep Traffic.calculateGreenTime
  rw [h.1, h.2]
  split
  · simp [Lane.snapGreen, Lane.snapshot, h.1, h.2]
  · split
    · rfl
    · split
      · rfl
      · simp [Lane.snapGreen, Lane.snapshot, h.1, h.2]

/-- The passes of `traffic27.c` on two rings with the same snapshot. -/
theorem Traffic27.timingPasses_congr {type : IntersectionType} {h h' : Heap} {x : Intersection}
    (hr : IsRing type h x) (hr' : IsRing type h' x) {fuel : Nat} (hf : x.laneCount ≤ fuel)
    (hs : h.map Lane.snapshot = h'.map Lane.snapshot) :
    (Traffic27.timingPasses fuel h x).map (fun h2 => h2.map (fun l => (l.snapshot, l.timing))) =
      (Traffic27.timingPasses fuel h' x).map
        (fun h2 => h2.map (fun l => (l.snapshot, l.timing))) := by
  rw [Traffic27.timingPasses_closed hr hf, Traffic27.timingPasses_closed hr' hf,
    ← totalOf_congr hs]
  have hc := sweep_congr Lane.snapshot Lane.snapGreen
    (Traffic27.greenStep (totalOf h) x.laneCount)
    (fun s l l' => Traffic27.greenStep_congr (totalOf h) x.laneCount s l l') h h' 0 hs
  cases e : sweep (Traffic27.greenStep (totalOf h) x.laneCount) 0 h with
  | none =>
    cases e' : sweep (Traffic27.greenStep (totalOf h) x.laneCount) 0 h' with
    | none => rfl
    | some r' => simp [e, e'] at hc
  | some r =>
    cases e' : sweep (Traffic27.greenStep (totalOf h) x.laneCount) 0 h' with
    | none => simp [e, e'] at hc
    | some r' =>
      simp only [e, e', Option.map_some', Option.some.injEq, Prod.mk.injEq] at hc
      simp only [Option.map_some', Option.some.injEq]
      rw [hc.1]
      exact map_timing_of_snapGreen r'.1 _ _ hc.2

/-- The passes of `Traffic.c` on two rings with the same snapshot. -/
theorem Traffic.intTimingPasses_congr {type : IntersectionType} {h h' : Heap}
    {x : Intersection} (hr : IsRing type h x) (hr' : IsRing type h' x) {fuel : Nat}
    (hf : x.laneCount ≤ fuel) (hs : h.map Lane.snapshot = h'.map Lane.snapshot) :
    (Traffic.timingPasses fuel h x).map (fun h2 => h2.map (fun l => (l.snapshot, l.timing))) =
      (Traffic.timingPasses fuel h' x).map
        (fun h2 => h2.map (fun l => (l.snapshot, l.timing))) := by
  rw [Traffic.intTimingPasses_closed hr hf, Traffic.intTimingPasses_closed hr' hf,
    ← totalOf_congr hs]
  have hc := sweep_congr Lane.snapshot Lane.snapGreen
    (Traffic.greenStep (totalOf h) x.laneCount)
    (fun s l l' => Traffic.intGreenStep_congr (totalOf h) x.laneCount s l l') h h' 0 hs
  cases e : sweep (Traffic.greenStep (totalOf h) x.laneCount) 0 h with
  | none =>
    cases e' : sweep (Traffic.greenStep (totalOf h) x.laneCount) 0 h' with
    | none => rfl
    | some r' => simp [e, e'] at hc
  | some r =>
    cases e' : sweep (Traffic.greenStep (totalOf h) x.laneCount) 0 h' with
    | none => simp [e, e'] at hc
    | some r' =>
      simp only [e, e', Option.map_some', Option.some.injEq, Prod.mk.injEq] at hc
      simp only [Option.map_some', Option.some.injEq]
      rw [hc.1]
      exact map_timing_of_snapGreen r'.1 _ _ hc.2

theorem load_map {β : Type} (p : Lane → β) (h : Heap) (a : Nat) :
    (load h a).map p = (h.map p)[a]? := by
  unfold load
  rw [List.getElem?_map]

theorem load_congr {β : Type} (p : Lane → β) {h h' : Heap} (hp : h.map p = h'.map p) (a : Nat) :
    (load h a).map p = (load h' a).map p := by
  rw [load_map, load_map, hp]

theorem update_congr {β : Type} (p : Lane → β) (f : Lane → Lane)
    (hf : ∀ l l', p l = p l' → p (f l) = p (f l')) {h h' : Heap} (hp : h.map p = h'.map p)
    (a : Nat) :
    (update h a f).map (fun h1 => h1.map p) = (update h' a f).map (fun h1 => h1.map p) := by
  have hl := load_congr p hp a
  have hlen : h.length = h'.length := by simpa using congrArg List.length hp
  unfold update
  cases e : load h a with
  | none =>
    cases e' : load h' a with
    | none => rfl
    | some l' => simp [e, e'] at hl
  | some l =>
    cases e' : load h' a with
    | none => simp [e, e'] at hl
    | some l' =>
      simp only [e, e', Option.map_some', Option.some.injEq] at hl
      have ha : a < h.length := by
        have e2 : h[a]? = some l := e
        exact (List.getElem?_eq_some_iff.mp e2).1
      simp only [store, if_pos ha, if_pos (hlen ▸ ha), Option.map_some', List.map_set, hp,
        hf l l' hl]

theorem update_keeps {β : Type} (q : Lane → β) (f : Lane → Lane) (hf : ∀ l, q (f l) = q l)
    {h h1 : Heap} {a : Nat} (hu : update h a f = some h1) : h1.map q = h.map q := by
  unfold update at hu
  cases e : load h a with
  | none => simp [e] at hu
  | some l =>
    have e2 : h[a]? = some l := e
    obtain ⟨ha, hget⟩ := List.getElem?_eq_some_iff.mp e2
    simp only [e, store, if_pos ha, Option.some.injEq] at hu
    rw [← hu, List.map_set, hf l, ← hget]
    apply List.ext_getElem
    · simp
    · intro i h1 h2
      by_cases hia : a = i
      · subst hia; simp
      · simp [List.getElem_set_ne hia]

theorem Traffic.fetchRows_links : ∀ (rows : List (Int × Int × Int)) (cur : Ptr) (h h0 : Heap),
    Traffic.fetchRows rows cur h = some h0 → h0.map Lane.links = h.map Lane.links := by
  intro rows
  induction rows with
  | nil =>
    intro cur h h0 hf
    simp only [Traffic.fetchRows, Option.some.injEq] at hf
    rw [hf]
  | cons row rows ih =>
    intro cur h h0 hf
    obtain ⟨ln, vc, ev⟩ := row
    cases cur with
    | none => simp [Traffic.fetchRows] at hf
    | some a =>
      simp only [Traffic.fetchRows] at hf
      cases e : update h a (fun l => { l with vehicleCount := vc, emergencyVehicle := ev }) with
      | none => simp [e] at hf
      | some h1 =>
        simp only [e] at hf
        cases e2 : load h1 a with
        | none => simp [e2] at hf
        | some l2 =>
          simp only [e2] at hf
          rw [ih _ _ _ hf]
          exact update_keeps Lane.links
            (fun l => { l with vehicleCount := vc, emergencyVehicle := ev }) (fun _ => rfl) e

theorem Traffic.fetchRows_congr : ∀ (rows : List (Int × Int × Int)) (cur : Ptr) (h h' : Heap),
    h.map Lane.snapLinks = h'.map Lane.snapLinks →
    (Traffic.fetchRows rows cur h).map (fun h0 => h0.map Lane.snapLinks) =
      (Traffic.fetchRows rows cur h').map (fun h0 => h0.map Lane.snapLinks) := by
  intro rows
  induction rows with
  | nil =>
    intro cur h h' hp
    simp only [Traffic.fetchRows, Option.map_some', hp]
  | cons row rows ih =>
    intro cur h h' hp
    obtain ⟨ln, vc, ev⟩ := row
    cases cur with
    | none => rfl
    | some a =>
      simp only [Traffic.fetchRows]
      have hu := update_congr Lane.snapLinks
        (fun l => { l with vehicleCount := vc, emergencyVehicle := ev })
        (by
          intro l l' hll
          exact congrArg (fun k : Ptr × Ptr × Int => ((vc, ev), k)) (congrArg Prod.snd hll)) hp a
      cases e : update h a (fun l => { l with vehicleCount := vc, emergencyVehicle := ev }) with
      | none =>
        cases e' : update h' a
            (fun l => { l with vehicleCount := vc, emergencyVehicle := ev }) with
        | none => rfl
        | some h1' => simp [e, e'] at hu
      | some h1 =>
        cases e' : update h' a
            (fun l => { l with vehicleCount := vc, emergencyVehicle := ev }) with
        | none => simp [e, e'] at hu
        | some h1' =>
          simp only [e, e', Option.map_some', Option.some.injEq] at hu
          have hl := load_congr Lane.snapLinks hu a
          simp only
          cases e2 : load h1 a with
          | none =>
            cases e2' : load h1' a with
            | none => rfl
            | some l2' => simp [e2, e2'] at hl
          | some l2 =>
            cases e2' : load h1' a with
            | none => simp [e2, e2'] at hl
            | some l2' =>
              simp only [e2, e2', Option.map_some', Option.some.injEq, Lane.snapLinks,
                Lane.links, Prod.mk.injEq] at hl
              simp only
              rw [hl.2.1]
              exact ih _ _ _ hu

theorem snapLinks_of_rings {type : IntersectionType} {h h' : Heap} {x : Intersection}
    (hr : IsRing type h x) (hr' : IsRing type h' x)
    (hs : h.map Lane.snapshot = h'.map Lane.snapshot) :
    h.map Lane.snapLinks = h'.map Lane.snapLinks := by
  obtain ⟨h0, hc, hm⟩ := hr
  obtain ⟨h0', hc', hm'⟩ := hr'
  rw [hc] at hc'
  obtain ⟨rfl, _⟩ := Prod.mk.inj (Option.some.inj hc')
  exact map_pair_eq Lane.snapshot Lane.links h h' hs (hm.trans hm'.symm)

theorem snapshot_of_snapLinks {h h' : Heap} (hp : h.map Lane.snapLinks = h'.map Lane.snapLinks) :
    h.map Lane.snapshot = h'.map Lane.snapshot ∧ h.map Lane.links = h'.map Lane.links := by
  have e1 : ∀ h : Heap, h.map Lane.snapshot = (h.map Lane.snapLinks).map Prod.fst := by
    intro h; simp [List.map_map, Function.comp_def, Lane.snapLinks]
  have e2 : ∀ h : Heap, h.map Lane.links = (h.map Lane.snapLinks).map Prod.snd := by
    intro h; simp [List.map_map, Function.comp_def, Lane.snapLinks]
  exact ⟨by rw [e1 h, e1 h', hp], by rw [e2 h, e2 h', hp]⟩

/-- The function `calculateSignalTiming` of `Traffic.c` on two rings with the
same snapshot and the same query result. -/
theorem Traffic.intCalculateSignalTiming_congr {type : IntersectionType} {h h' : Heap}
    {x : Intersection} (hr : IsRing type h x) (hr' : IsRing type h' x) {fuel : Nat}
    (hf : x.laneCount ≤ fuel) (hs : h.map Lane.snapshot = h'.map Lane.snapshot)
    (rows : List (Int × Int × Int)) :
    (Traffic.calculateSignalTiming rows fuel h x).map
        (fun h2 => h2.map (fun l => (l.snapshot, l.timing))) =
      (Traffic.calculateSignalTiming rows fuel h' x).map
        (fun h2 => h2.map (fun l => (l.snapshot, l.timing))) := by
  have hc := Traffic.fetchRows_congr rows x.head h h' (snapLinks_of_rings hr hr' hs)
  unfold Traffic.calculateSignalTiming Traffic.fetchLaneData
  cases e : Traffic.fetchRows rows x.head h with
  | none =>
    cases e' : Traffic.fetchRows rows x.head h' with
    | none => rfl
    | some h0' => simp [e, e'] at hc
  | some h0 =>
    cases e' : Traffic.fetchRows rows x.head h' with
    | none => simp [e, e'] at hc
    | some h0' =>
      simp only [e, e', Option.map_some', Option.some.injEq] at hc
      simp only
      exact Traffic.intTimingPasses_congr
        (isRing_of_links hr (Traffic.fetchRows_links _ _ _ _ e))
        (isRing_of_links hr' (Traffic.fetchRows_links _ _ _ _ e')) hf
        (snapshot_of_snapLinks hc).1

theorem Traffic27.updateStep_congr (rand : Nat → Nat) (s : Nat) (l l' : Lane)
    (h : l.snapshot = l'.snapshot) :
    (Traffic27.updateStep rand s l).map (fun r => (r.1, r.2.snapshot)) =
      (Traffic27.updateStep rand s l').map (fun r => (r.1, r.2.snapshot)) := by
  simp only [Lane.snapshot, Prod.mk.injEq] at h
  simp [Traffic27.updateStep, Lane.snapshot, h.1]

/-- The function `calculateSignalTiming` of `traffic27.c` on two rings with
the same snapshot and the same random numbers. -/
theorem Traffic27.calculateSignalTiming_congr {type : IntersectionType} {h h' : Heap}
    {x : Intersection} (hr : IsRing type h x) (hr' : IsRing type h' x) {fuel : Nat}
    (hf : x.laneCount ≤ fuel) (hs : h.map Lane.snapshot = h'.map Lane.snapshot)
    (rand : Nat → Nat) :
    (Traffic27.calculateSignalTiming rand fuel h x).map
        (fun h2 => h2.map (fun l => (l.snapshot, l.timing))) =
      (Traffic27.calculateSignalTiming rand fuel h' x).map
        (fun h2 => h2.map (fun l => (l.snapshot, l.timing))) := by
  obtain ⟨h1, hu, hl1⟩ := Traffic27.updateVehicleCounts_links hr hf rand
  obtain ⟨h1', hu', hl1'⟩ := Traffic27.updateVehicleCounts_links hr' hf rand
  have hc := sweep_congr Lane.snapshot Lane.snapshot (Traffic27.updateStep rand)
    (fun s l l' => Traffic27.updateStep_congr rand s l l') h h' 0 hs
  have hu2 := hu
  have hu2' := hu'
  rw [Traffic27.updateVehicleCounts_eq hr hf] at hu2
  rw [Traffic27.updateVehicleCounts_eq hr' hf] at hu2'
  cases e : sweep (Traffic27.updateStep rand) 0 h with
  | none => simp [e] at hu2
  | some r =>
    cases e' : sweep (Traffic27.updateStep rand) 0 h' with
    | none => simp [e'] at hu2'
    | some r' =>
      simp only [e, e', Option.map_some', Option.some.injEq, Prod.mk.injEq] at hc hu2 hu2'
      subst hu2
      subst hu2'
      unfold Traffic27.calculateSignalTiming
      rw [hu, hu']
      simp only
      exact Traffic27.timingPasses_congr (isRing_of_links hr hl1) (isRing_of_links hr' hl1') hf
        hc.2

theorem prioOf_congr {h h' : Heap} (hp : h.map Lane.priority = h'.map Lane.priority) :
    prioOf h = prioOf h' := by
  funext a
  unfold prioOf
  rw [load_congr Lane.priority hp a]

theorem displaySignalTiming_congr {type : IntersectionType} {h h' : Heap} {x : Intersection}
    (hr : IsRing type h x) (hr' : IsRing type h' x) {fuel : Nat} (hf : x.laneCount ≤ fuel)
    (hp : h.map Lane.priority = h'.map Lane.priority) :
    Traffic27.displaySignalTiming fuel h x = Traffic27.displaySignalTiming fuel h' x := by
  have hlen : h.length = h'.length := by simpa using congrArg List.length hp
  rw [displaySignalTiming_eq hr hf, displaySignalTiming_eq hr' hf, prioOf_congr hp, hlen]

theorem Traffic27.calculateSignalTiming_links {type : IntersectionType} {h h3 : Heap}
    {x : Intersection} (hr : IsRing type h x) {fuel : Nat} (hf : x.laneCount ≤ fuel)
    (rand : Nat → Nat) (hp : Traffic27.calculateSignalTiming rand fuel h x = some h3) :
    h3.map Lane.links = h.map Lane.links := by
  obtain ⟨h1, hu, hl1⟩ := Traffic27.updateVehicleCounts_links hr hf rand
  unfold Traffic27.calculateSignalTiming at hp
  rw [hu] at hp
  simp only at hp
  have := Traffic27.timingPasses_untimed (isRing_of_links hr hl1) hf hp
  exact (links_of_untimed this).trans hl1

theorem timing_of_pairs {h h' : Heap}
    (hp : h.map (fun l => (l.snapshot, l.timing)) = h'.map (fun l => (l.snapshot, l.timing))) :
    h.map Lane.timing = h'.map Lane.timing ∧ h.map Lane.priority = h'.map Lane.priority ∧
      h.map Lane.snapshot = h'.map Lane.snapshot := by
  have e1 : ∀ h : Heap, h.map Lane.timing =
      (h.map (fun l => (l.snapshot, l.timing))).map Prod.snd := by
    intro h; simp [List.map_map, Function.comp_def]
  have e2 : ∀ h : Heap, h.map Lane.priority =
      (h.map (fun l => (l.snapshot, l.timing))).map (fun p => p.2.2.2) := by
    intro h; simp [List.map_map, Function.comp_def, Lane.timing]
  have e3 : ∀ h : Heap, h.map Lane.snapshot =
      (h.map (fun l => (l.snapshot, l.timing))).map Prod.fst := by
    intro h; simp [List.map_map, Function.comp_def]
  exact ⟨by rw [e1 h, e1 h', hp], by rw [e2 h, e2 h', hp], by rw [e3 h, e3 h', hp]⟩

theorem snapshot_of_untimed {h1 h2 : Heap} (h : h1.map Lane.untimed = h2.map Lane.untimed) :
    h1.map Lane.snapshot = h2.map Lane.snapshot := by
  have e : ∀ h : Heap, h.map Lane.snapshot =
      (h.map Lane.untimed).map (fun u => (u.1, u.2.2.1)) := by
    intro h
    simp [List.map_map, Function.comp_def, Lane.snapshot, Lane.untimed]
  rw [e h1, e h2, h]

theorem option_map_map {α β γ : Type} (f : α → β) (g : β → γ) (o : Option α) :
    (o.map f).map g = o.map (fun a => g (f a)) := by
  cases o <;> rfl

/-- The cycle of `traffic27.c` on two rings with the same snapshot and the
same random numbers. -/
theorem Traffic27.cycle_congr {type : IntersectionType} {h h' : Heap} {x : Intersection}
    (hr : IsRing type h x) (hr' : IsRing type h' x) {fuel : Nat} (hf : x.laneCount ≤ fuel)
    (hs : h.map Lane.snapshot = h'.map Lane.snapshot) (rand : Nat → Nat) :
    (Traffic27.cycle rand fuel h x).map (fun r => (r.1.map Lane.timing, r.2)) =
      (Traffic27.cycle rand fuel h' x).map (fun r => (r.1.map Lane.timing, r.2)) := by
  have hc := Traffic27.calculateSignalTiming_congr hr hr' hf hs rand
  unfold Traffic27.cycle
  cases e : Traffic27.calculateSignalTiming rand fuel h x with
  | none =>
    cases e' : Traffic27.calculateSignalTiming rand fuel h' x with
    | none => rfl
    | some h2' => simp [e, e'] at hc
  | some h2 =>
    cases e' : Traffic27.calculateSignalTiming rand fuel h' x with
    | none => simp [e, e'] at hc
    | some h2' =>
      simp only [e, e', Option.map_some', Option.some.injEq] at hc
      obtain ⟨ht, hp, _⟩ := timing_of_pairs hc
      have hr2 := isRing_of_links hr (Traffic27.calculateSignalTiming_links hr hf rand e)
      have hr2' := isRing_of_links hr' (Traffic27.calculateSignalTiming_links hr' hf rand e')
      simp only [option_map_map, displaySignalTiming_congr hr2 hr2' hf hp, ht]

/-! ## C19: the dispatch sequence as a sort by a composite key -/

theorem keyLE_total (k1 k2 : Int × Int × Int) : keyLE k1 k2 = true ∨ keyLE k2 k1 = true := by
  simp only [keyLE, decide_eq_true_eq]
  omega

theorem keyLE_trans {k1 k2 k3 : Int × Int × Int} (h12 : keyLE k1 k2 = true)
    (h23 : keyLE k2 k3 = true) : keyLE k1 k3 = true := by
  simp only [keyLE, decide_eq_true_eq] at h12 h23 ⊢
  omega

theorem keyLE_antisymm {k1 k2 : Int × Int × Int} (h12 : keyLE k1 k2 = true)
    (h21 : keyLE k2 k1 = true) : k1.2.2 = k2.2.2 := by
  simp only [keyLE, decide_eq_true_eq] at h12 h21
  omega

/-- A permutation of the addresses below `n` that is sorted by a total,
transitive relation which is antisymmetric on those addresses is the insertion
sort of the addresses. -/
theorem eq_insertionSort_of_sorted (r : Nat → Nat → Prop) [DecidableRel r] (n : Nat)
    (htot : ∀ a b, r a b ∨ r b a) (htrans : ∀ a b c, r a b → r b c → r a c)
    (hanti : ∀ a b, a < n → b < n → r a b → r b a → a = b) (seq : List Nat)
    (hperm : seq.Perm (List.range n)) (hs : seq.Pairwise r) :
    seq = (List.range n).insertionSort r := by
  haveI : IsTotal Nat r := ⟨htot⟩
  haveI : IsTrans Nat r := ⟨htrans⟩
  haveI : IsAntisymm Nat (fun a b => a < n ∧ b < n ∧ r a b) :=
    ⟨fun a b hab hba => hanti a b hab.1 hab.2.1 hab.2.2 hba.2.2⟩
  have hp2 : ((List.range n).insertionSort r).Perm (List.range n) := List.perm_insertionSort r _
  have hs2 : ((List.range n).insertionSort r).Pairwise r := List.sorted_insertionSort r _
  refine List.eq_of_perm_of_sorted (r := fun a b => a < n ∧ b < n ∧ r a b)
    (hperm.trans hp2.symm) ?_ ?_
  · exact hs.imp_of_mem (fun ha hb hab =>
      ⟨List.mem_range.mp (hperm.mem_iff.mp ha), List.mem_range.mp (hperm.mem_iff.mp hb), hab⟩)
  · exact hs2.imp_of_mem (fun ha hb hab =>
      ⟨List.mem_range.mp (hp2.mem_iff.mp ha), List.mem_range.mp (hp2.mem_iff.mp hb), hab⟩)

/-- A counterexample to C19: on the T-junction with counts 3, 9, 1 and an
emergency vehicle in lanes 1 and 2, `calculatePriority` gives both emergency
lanes the priority `INT_MAX` and the dispatch sequence is lane 1, lane 2,
lane 3, whereas the sort by the composite key (emergency tier, `vehicleCount`
descending, `laneNumber` ascending) puts lane 2 with its 9 vehicles before
lane 1 with its 3. -/
theorem dispatch_sequence_is_not_sort_by_composite_key :
    IsRing .T_INTERSECTION (populate tRing.1 [(3, 1), (9, 1), (1, 0)]) tRing.2 ∧
    (∀ l ∈ populate tRing.1 [(3, 1), (9, 1), (1, 0)], 0 ≤ l.vehicleCount) ∧
    ((populate tRing.1 [(3, 1), (9, 1), (1, 0)]).map calculatePriority).map Lane.priority =
      [2147483647, 2147483647, 1] ∧
    Traffic27.displaySignalTiming 3
      ((populate tRing.1 [(3, 1), (9, 1), (1, 0)]).map calculatePriority) tRing.2 =
        some [0, 1, 2] ∧
    (Traffic27.timingPasses 3 (populate tRing.1 [(3, 1), (9, 1), (1, 0)]) tRing.2).bind
        (fun h => Traffic27.displaySignalTiming 3 h tRing.2) = some [0, 1, 2] ∧
    sortByKey specCompositeKey (populate tRing.1 [(3, 1), (9, 1), (1, 0)]) = [1, 0, 2] ∧
    sortByKey specCompositeKey
      ((populate tRing.1 [(3, 1), (9, 1), (1, 0)]).map calculatePriority) = [1, 0, 2] :=
  ⟨isRing_populate_T _ _ _, by decide, by decide, by decide, by decide, by decide, by decide⟩

theorem lane_at {type : IntersectionType} {h : Heap} {x : Intersection} (hr : IsRing type h x)
    (key : Lane → Int × Int × Int) {a : Nat} (ha : a < h.length) :
    ∃ l, l ∈ h ∧ keyAt key h a = key l ∧ prioOf h a = l.priority ∧
      l.laneNumber = (a : Int) + 1 := by
  have hl := load_of_lt ha
  refine ⟨h.get ⟨a, ha⟩, List.get_mem _ _ _, ?_, ?_, isRing_laneNumber hr hl⟩
  · simp only [keyAt, hl, Option.map_some', Option.getD_some]
  · simp only [prioOf, hl, Option.map_some', Option.getD_some]

/-- C19 (amended): for every ring whose lanes hold the priority that
`calculatePriority` computes from their `vehicleCount` and `emergencyVehicle`,
with vehicle counts below `INT_MAX`, the dispatch sequence built by repeated
`enqueue` is the list of the ring's lanes sorted by the composite key
(emergency tier first, then `vehicleCount` descending among the lanes without
an emergency vehicle, then `laneNumber` ascending): the lanes with an
emergency vehicle stand in the order of their lane numbers, whatever their
vehicle counts. -/
theorem dispatch_sequence_is_sort_by_tiered_key (type : IntersectionType) (h : Heap)
    (x : Intersection) (hr : IsRing type h x) (fuel : Nat) (hf : x.laneCount ≤ fuel)
    (hprio : ∀ l ∈ h, l.priority = (calculatePriority l).priority)
    (hint : ∀ l ∈ h, l.vehicleCount < INT_MAX) :
    Traffic27.displaySignalTiming fuel h x = some (sortByKey tieredKey h) := by
  obtain ⟨seq, hseq, hperm, hpw⟩ := dispatch_facts hr hf
  rw [hseq]
  refine congrArg some ?_
  unfold sortByKey
  refine eq_insertionSort_of_sorted
    (fun a b => keyLE (keyAt tieredKey h a) (keyAt tieredKey h b) = true) h.length
    (fun a b => keyLE_total _ _) (fun a b c => keyLE_trans) ?_ seq hperm ?_
  · intro a b ha hb hab hba
    obtain ⟨la, _, hka, _, hna⟩ := lane_at hr tieredKey ha
    obtain ⟨lb, _, hkb, _, hnb⟩ := lane_at hr tieredKey hb
    have := keyLE_antisymm hab hba
    rw [hka, hkb] at this
    simp only [tieredKey] at this
    omega
  · refine hpw.imp_of_mem ?_
    intro a b ha hb hab
    have ha2 := List.mem_range.mp (hperm.mem_iff.mp ha)
    have hb2 := List.mem_range.mp (hperm.mem_iff.mp hb)
    obtain ⟨la, hma, hka, hpa, hna⟩ := lane_at hr tieredKey ha2
    obtain ⟨lb, hmb, hkb, hpb, hnb⟩ := lane_at hr tieredKey hb2
    have hia := hint la hma
    have hib := hint lb hmb
    have hqa := hprio la hma
    have hqb := hprio lb hmb
    have hcp : ∀ l : Lane, (calculatePriority l).priority =
        if l.emergencyVehicle ≠ 0 then 2147483647 else l.vehicleCount := by
      intro l
      unfold calculatePriority
      split <;> rfl
    unfold DispatchBefore at hab
    rw [hpa, hpb, hqa, hqb, hcp la, hcp lb] at hab
    simp only [hka, hkb, keyLE, tieredKey, decide_eq_true_eq]
    unfold INT_MAX at hia hib
    by_cases hea : la.emergencyVehicle ≠ 0 <;> by_cases heb : lb.emergencyVehicle ≠ 0
    · simp only [if_pos hea, if_pos heb, true_and] at hab ⊢
      omega
    · simp only [if_pos hea, if_neg heb, true_and] at hab ⊢
      omega
    · simp only [if_neg hea, if_pos heb, true_and] at hab ⊢
      omega
    · simp only [if_neg hea, if_neg heb, true_and] at hab ⊢
      omega

/-- Witness for C19: the T-junction with counts 3, 9, 1 and an emergency
vehicle in lanes 1 and 2, after `calculatePriority` has run on every lane. -/
theorem dispatch_sequence_is_sort_by_tiered_key_witness :
    IsRing .T_INTERSECTION ((populate tRing.1 [(3, 1), (9, 1), (1, 0)]).map calculatePriority)
      tRing.2 ∧
    tRing.2.laneCount ≤ (3 : Nat) ∧
    (∀ l ∈ (populate tRing.1 [(3, 1), (9, 1), (1, 0)]).map calculatePriority,
      l.priority = (calculatePriority l).priority) ∧
    (∀ l ∈ (populate tRing.1 [(3, 1), (9, 1), (1, 0)]).map calculatePriority,
      l.vehicleCount < INT_MAX) ∧
    Traffic27.displaySignalTiming 3
        ((populate tRing.1 [(3, 1), (9, 1), (1, 0)]).map calculatePriority) tRing.2 =
      some (sortByKey tieredKey
        ((populate tRing.1 [(3, 1), (9, 1), (1, 0)]).map calculatePriority)) :=
  ⟨⟨tRing.1, createIntersection_T, by decide⟩, by decide, by decide, by decide,
    dispatch_sequence_is_sort_by_tiered_key .T_INTERSECTION
      ((populate tRing.1 [(3, 1), (9, 1), (1, 0)]).map calculatePriority) tRing.2
      ⟨tRing.1, createIntersection_T, by decide⟩ 3 (by decide) (by decide) (by decide)⟩


/-! ## C15: validation of the input -/

theorem update_eq_modify {h : Heap} {a : Nat} (ha : a < h.length) (f : Lane → Lane) :
    update h a f = some (h.modify f a) := by
  have hl : load h a = some (h.get ⟨a, ha⟩) := load_of_lt ha
  unfold update
  rw [hl]
  simp only [store, if_pos ha, Option.some.injEq]
  apply List.ext_getElem?
  intro i
  by_cases hia : a = i
  · subst hia
    simp [List.getElem?_set, ha]
  · simp [List.getElem?_set, hia]

theorem modify_modify (f g : Lane → Lane) (h : Heap) (a : Nat) :
    (h.modify f a).modify g a = h.modify (fun l => g (f l)) a := by
  apply List.ext_getElem?
  intro i
  by_cases hia : a = i
  · subst hia
    simp [Option.map_map, Function.comp_def]
  · simp [hia]

theorem modify_keeps {β : Type} (q : Lane → β) (f : Lane → Lane) (hf : ∀ l, q (f l) = q l)
    (h : Heap) (a : Nat) : (h.modify f a).map q = h.map q := by
  apply List.ext_getElem?
  intro i
  by_cases hia : a = i
  · subst hia
    cases e : h[a]? <;> simp [e, hf]
  · simp [hia]

/-- What the body of the loop of `inputVehicleCounts` does with the input on a
valid lane. -/
theorem Traffic27.inputLane_eq {h : Heap} {a : Nat} (ha : a < h.length) (input : Stdin) :
    Traffic27.inputLane input h a = some
      (match input with
       | some vc :: rest =>
         if vc < 0 then .error .vehicleCount
         else
           match rest with
           | some ev :: rest2 =>
             if ev < 0 ∨ ev > 1 then .error .emergencyVehicle
             else .ok (rest2, h.modify
               (fun l => { l with vehicleCount := vc, emergencyVehicle := ev }) a)
           | _ => .error .emergencyVehicle
       | _ => .error .vehicleCount) := by
  unfold Traffic27.inputLane
  rcases input with _ | ⟨_ | vc, rest⟩
  · rfl
  · rfl
  · simp only [scanInt, update_eq_modify ha]
    by_cases hvc : vc < 0
    · simp only [if_pos hvc]
    · simp only [if_neg hvc]
      have ha1 : a < (h.modify (fun l => { l with vehicleCount := vc }) a).length := by
        rw [List.length_modify]; exact ha
      rcases rest with _ | ⟨_ | ev, rest2⟩
      · rfl
      · rfl
      · simp only [scanInt, update_eq_modify ha1, modify_modify]
        by_cases hev : ev < 0 ∨ ev > 1
        · simp only [if_pos hev]
        · simp only [if_neg hev]

/-- The body of the loop of `inputVehicleCounts` accepts the input for a lane
exactly when the next two fields convert to a pair in the domain; it then
stores the pair in the lane and leaves the rest of the input. -/
theorem Traffic27.inputLane_ok_iff {h : Heap} {a : Nat} (ha : a < h.length) (input r : Stdin)
    (h1 : Heap) :
    Traffic27.inputLane input h a = some (.ok (r, h1)) ↔
      ∃ vc ev, input = some vc :: some ev :: r ∧ InDomain (vc, ev) ∧
        h1 = h.modify (fun l => { l with vehicleCount := vc, emergencyVehicle := ev }) a := by
  rw [Traffic27.inputLane_eq ha]
  unfold InDomain
  rcases input with _ | ⟨_ | vc, rest⟩
  · simp
  · simp
  · by_cases hvc : vc < 0
    · simp only [if_pos hvc]
      constructor
      · intro hh; simp at hh
      · rintro ⟨vc1, ev1, he, hd, _⟩
        simp only [List.cons.injEq, Option.some.injEq] at he
        omega
    · simp only [if_neg hvc]
      rcases rest with _ | ⟨_ | ev, rest2⟩
      · simp
      · simp
      · by_cases hev : ev < 0 ∨ ev > 1
        · simp only [if_pos hev]
          constructor
          · intro hh; simp at hh
          · rintro ⟨vc1, ev1, he, hd, _⟩
            simp only [List.cons.injEq, Option.some.injEq] at he
            omega
        · simp only [if_neg hev, Option.some.injEq, Except.ok.injEq, Prod.mk.injEq]
          constructor
          · rintro ⟨rfl, rfl⟩
            exact ⟨vc, ev, rfl, ⟨by omega, by omega⟩, rfl⟩
          · rintro ⟨vc1, ev1, he, _, hh⟩
            simp only [List.cons.injEq, Option.some.injEq] at he
            obtain ⟨rfl, rfl, rfl⟩ := he
            exact ⟨rfl, hh.symm⟩

/-- On a ring of `n` lanes the loop of `inputVehicleCounts`, entered at lane
`i` with `j` lanes to go, always ends, and it returns exactly when the input
starts with `j` pairs in the domain; it has then stored these pairs in the
lanes `i`, `i + 1`, ... -/
theorem Traffic27.inputLoop_spec (n : Nat) :
    ∀ (j i fuel : Nat) (input : Stdin) (h : Heap), 0 < j → i + j = n → j ≤ fuel →
      RingLinks n h →
      (∃ res, Traffic27.inputLoop (some 0) fuel (some i) input h = some res) ∧
      ∀ (r : Stdin) (h1 : Heap),
        Traffic27.inputLoop (some 0) fuel (some i) input h = some (.ok (r, h1)) ↔
          ∃ d : List (Int × Int), d.length = j ∧ input = tokens d ++ r ∧
            (∀ p ∈ d, InDomain p) ∧ h1 = writeFrom i d h := by
  intro j
  induction j with
  | zero => intro i fuel input h hj; omega
  | succ j ih =>
    intro i fuel input h _ hij hf hr
    obtain ⟨fuel, rfl⟩ : ∃ f, fuel = f + 1 := ⟨fuel - 1, by omega⟩
    have hi : i < h.length := by rw [ringLinks_length hr]; omega
    rw [Traffic27.inputLoop]
    have hok := Traffic27.inputLane_ok_iff hi input
    cases hres : Traffic27.inputLane input h i with
    | none => rw [Traffic27.inputLane_eq hi] at hres; exact Option.noConfusion hres
    | some res =>
      cases res with
      | error e =>
        refine ⟨⟨_, rfl⟩, ?_⟩
        intro r h1
        constructor
        · intro hh; simp at hh
        · rintro ⟨d, hd, hin, hdom, _⟩
          rcases d with _ | ⟨p, d⟩
          · simp at hd
          · have := (hok (tokens d ++ r) _).mpr ⟨p.1, p.2, hin, hdom p (List.mem_cons_self _ _), rfl⟩
            rw [hres] at this
            simp at this
      | ok v =>
        obtain ⟨r1, h2⟩ := v
        obtain ⟨vc, ev, hin, hdom, hh2⟩ := (hok r1 h2).mp hres
        have hr2 : RingLinks n h2 := by
          unfold RingLinks
          rw [hh2, modify_keeps Lane.next
            (fun l => { l with vehicleCount := vc, emergencyVehicle := ev }) (fun _ => rfl)]
          exact hr
        obtain ⟨l, hl, hnext⟩ := ringLinks_load hr2 (show i < n by omega)
        simp only [hl, hnext]
        by_cases hj0 : j = 0
        · subst hj0
          have hmod : (i + 1) % n = 0 := by
            have : i + 1 = n := by omega
            rw [this, Nat.mod_self]
          rw [hmod, if_pos rfl]
          refine ⟨⟨_, rfl⟩, ?_⟩
          intro r h1
          simp only [Option.some.injEq, Except.ok.injEq, Prod.mk.injEq]
          constructor
          · rintro ⟨rfl, rfl⟩
            exact ⟨[(vc, ev)], rfl, by simpa [tokens] using hin,
              by intro p hp; simp at hp; rw [hp]; exact hdom, by rw [hh2]; rfl⟩
          · rintro ⟨d, hd, hin2, _, hw⟩
            rcases d with _ | ⟨p, _ | ⟨q, d⟩⟩
            · simp at hd
            · rw [hin] at hin2
              simp only [tokens, List.cons_append, List.nil_append, List.cons.injEq,
                Option.some.injEq] at hin2
              obtain ⟨h1e, h2e, h3e⟩ := hin2
              refine ⟨h3e, ?_⟩
              rw [hw, hh2, h1e, h2e]
              rfl
            · simp at hd
        · have hmod : (i + 1) % n = i + 1 := Nat.mod_eq_of_lt (by omega)
          have hne : (some ((i + 1) % n) : Ptr) ≠ some 0 := by
            rw [hmod]; intro hh; exact Nat.succ_ne_zero i (Option.some.inj hh)
          rw [if_neg hne, hmod]
          obtain ⟨htot, hiff⟩ := ih (i + 1) fuel r1 h2 (by omega) (by omega) (by omega) hr2
          refine ⟨htot, ?_⟩
          intro r h1
          rw [hiff r h1]
          constructor
          · rintro ⟨d, hd, hin2, hdom2, hw⟩
            refine ⟨(vc, ev) :: d, by simp [hd], ?_, ?_, ?_⟩
            · rw [hin, hin2]; rfl
            · intro p hp
              rcases List.mem_cons.mp hp with rfl | hp
              · exact hdom
              · exact hdom2 p hp
            · rw [hw, hh2]; rfl
          · rintro ⟨d, hd, hin2, hdom2, hw⟩
            rcases d with _ | ⟨p, d⟩
            · simp at hd
            · rw [hin] at hin2
              simp only [tokens, List.cons_append, List.cons.injEq, Option.some.injEq] at hin2
              obtain ⟨h1e, h2e, h3e⟩ := hin2
              refine ⟨d, by simpa using hd, h3e, fun q hq => hdom2 q (List.mem_cons_of_mem _ hq), ?_⟩
              rw [hw, hh2, h1e, h2e]
              rfl

theorem writeFrom_T (d : List (Int × Int)) (hd : d.length = 3) :
    writeFrom 0 d tRing.1 = populate tRing.1 d := by
  rcases d with _ | ⟨p1, _ | ⟨p2, _ | ⟨p3, _ | ⟨p4, d⟩⟩⟩⟩ <;> simp at hd
  rfl

theorem writeFrom_PLUS (d : List (Int × Int)) (hd : d.length = 4) :
    writeFrom 0 d plusRing.1 = populate plusRing.1 d := by
  rcases d with _ | ⟨p1, _ | ⟨p2, _ | ⟨p3, _ | ⟨p4, _ | ⟨p5, d⟩⟩⟩⟩⟩ <;> simp at hd
  rfl

/-- On a ring as `createIntersection` leaves it, `inputVehicleCounts` always
ends, and it returns exactly when the input starts with one pair in the domain
for every lane; the lanes then hold these pairs. -/
theorem Traffic27.inputVehicleCounts_spec {type : IntersectionType} {h0 : Heap}
    {x : Intersection} (hc : createIntersection type = some (h0, x)) {fuel : Nat}
    (hf : 4 ≤ fuel) (input : Stdin) :
    (∃ res, Traffic27.inputVehicleCounts fuel input h0 x = some res) ∧
    ∀ (r : Stdin) (h1 : Heap),
      Traffic27.inputVehicleCounts fuel input h0 x = some (.ok (r, h1)) ↔
        ∃ d : List (Int × Int), d.length = h0.length ∧ input = tokens d ++ r ∧
          (∀ p ∈ d, InDomain p) ∧ h1 = populate h0 d := by
  cases type with
  | T_INTERSECTION =>
    rw [createIntersection_T] at hc
    obtain ⟨rfl, rfl⟩ : tRing.1 = h0 ∧ tRing.2 = x := by
      have := Option.some.inj hc
      exact ⟨congrArg Prod.fst this, congrArg Prod.snd this⟩
    obtain ⟨htot, hiff⟩ := Traffic27.inputLoop_spec 3 3 0 fuel input tRing.1 (by omega) rfl
      (by omega) (by unfold RingLinks; decide)
    refine ⟨htot, ?_⟩
    intro r h1
    refine (hiff r h1).trans ?_
    constructor
    · rintro ⟨d, hd, hin, hdom, hw⟩
      exact ⟨d, hd, hin, hdom, by rw [hw, writeFrom_T d hd]⟩
    · rintro ⟨d, hd, hin, hdom, hw⟩
      exact ⟨d, hd, hin, hdom, by rw [hw, writeFrom_T d hd]⟩
  | PLUS_INTERSECTION =>
    rw [createIntersection_PLUS] at hc
    obtain ⟨rfl, rfl⟩ : plusRing.1 = h0 ∧ plusRing.2 = x := by
      have := Option.some.inj hc
      exact ⟨congrArg Prod.fst this, congrArg Prod.snd this⟩
    obtain ⟨htot, hiff⟩ := Traffic27.inputLoop_spec 4 4 0 fuel input plusRing.1 (by omega) rfl
      (by omega) (by unfold RingLinks; decide)
    refine ⟨htot, ?_⟩
    intro r h1
    refine (hiff r h1).trans ?_
    constructor
    · rintro ⟨d, hd, hin, hdom, hw⟩
      exact ⟨d, hd, hin, hdom, by rw [hw, writeFrom_PLUS d hd]⟩
    · rintro ⟨d, hd, hin, hdom, hw⟩
      exact ⟨d, hd, hin, hdom, by rw [hw, writeFrom_PLUS d hd]⟩

theorem createIntersection_total (type : IntersectionType) :
    ∃ h0 x0, createIntersection type = some (h0, x0) := by
  cases type with
  | T_INTERSECTION => exact ⟨tRing.1, tRing.2, createIntersection_T⟩
  | PLUS_INTERSECTION => exact ⟨plusRing.1, plusRing.2, createIntersection_PLUS⟩

/-- The program `traffic27.c` reaches its first call of `calculateSignalTiming`
exactly when the input starts with an intersection type that is 0 or 1,
followed by one pair `(vehicleCount, emergencyVehicle)` in the domain for
every lane of that intersection; the ring on which the call is made then
holds these pairs.  On every other input the program ends with an error
before the call. -/
theorem Traffic27.main_spec (fuel : Nat) (hf : 4 ≤ fuel) (input : Stdin) :
    (∃ res, Traffic27.main fuel input = some res) ∧
    ∀ (h : Heap) (x : Intersection),
      Traffic27.main fuel input = some (.ok (h, x)) ↔
        ∃ (t : Int) (d : List (Int × Int)) (rest : Stdin) (h0 : Heap),
          input = some t :: (tokens d ++ rest) ∧ (t = 0 ∨ t = 1) ∧
          createIntersection (typeOfInput t) = some (h0, x) ∧ d.length = h0.length ∧
          (∀ p ∈ d, InDomain p) ∧ h = populate h0 d := by
  unfold Traffic27.main
  rcases input with _ | ⟨_ | t, in1⟩
  · refine ⟨⟨_, rfl⟩, fun h x => ⟨fun hh => by simp [scanInt] at hh, ?_⟩⟩
    rintro ⟨t, d, rest, h0, he, _⟩
    simp at he
  · refine ⟨⟨_, rfl⟩, fun h x => ⟨fun hh => by simp [scanInt] at hh, ?_⟩⟩
    rintro ⟨t, d, rest, h0, he, _⟩
    simp at he
  · simp only [scanInt]
    by_cases ht : t ≠ 0 ∧ t ≠ 1
    · rw [if_pos ht]
      refine ⟨⟨_, rfl⟩, fun h x => ⟨fun hh => by simp at hh, ?_⟩⟩
      rintro ⟨t1, d, rest, h0, he, ht1, _⟩
      simp only [List.cons.injEq, Option.some.injEq] at he
      omega
    · rw [if_neg ht]
      obtain ⟨h0, x0, hc⟩ := createIntersection_total (typeOfInput t)
      obtain ⟨⟨res, hres⟩, hiff⟩ := Traffic27.inputVehicleCounts_spec hc hf in1
      simp only [hc, hres]
      cases res with
      | error e =>
        refine ⟨⟨_, rfl⟩, fun h x => ⟨fun hh => by simp at hh, ?_⟩⟩
        rintro ⟨t1, d, rest, h1, he, _, hc1, hd, hdom, hp⟩
        simp only [List.cons.injEq, Option.some.injEq] at he
        obtain ⟨rfl, rfl⟩ := he
        rw [hc] at hc1
        simp only [Option.some.injEq, Prod.mk.injEq] at hc1
        obtain ⟨rfl, rfl⟩ := hc1
        have := (hiff rest h).mpr ⟨d, hd, rfl, hdom, hp⟩
        rw [hres] at this
        simp at this
      | ok v =>
        obtain ⟨r, h1⟩ := v
        obtain ⟨d, hd, hin, hdom, hp⟩ := (hiff r h1).mp hres
        refine ⟨⟨_, rfl⟩, fun h x => ?_⟩
        simp only [Option.some.injEq, Except.ok.injEq, Prod.mk.injEq]
        constructor
        · rintro ⟨rfl, rfl⟩
          exact ⟨t, d, r, h0, by rw [hin], by omega, hc, hd, hdom, hp⟩
        · rintro ⟨t1, d1, rest, h2, he, _, hc1, hd1, hdom1, hp1⟩
          simp only [List.cons.injEq, Option.some.injEq] at he
          obtain ⟨rfl, rfl⟩ := he
          rw [hc] at hc1
          simp only [Option.some.injEq, Prod.mk.injEq] at hc1
          obtain ⟨rfl, rfl⟩ := hc1
          have := (hiff rest h).mpr ⟨d1, hd1, rfl, hdom1, hp1⟩
          rw [hres] at this
          simp only [Option.some.injEq, Except.ok.injEq, Prod.mk.injEq] at this
          exact ⟨this.2, rfl⟩

/-- Both programs end with "Invalid intersection type." exactly when the
first field of the input does not convert to 0 or 1. -/
theorem main_rejects_type_iff (rows : List (Int × Int × Int)) (fuel : Nat) (input : Stdin) :
    (Traffic27.main fuel input = some (.error .intersectionType) ↔
      ¬ ∃ t rest, input = some t :: rest ∧ (t = 0 ∨ t = 1)) ∧
    (Traffic.main rows fuel input = some (.error .intersectionType) ↔
      ¬ ∃ t rest, input = some t :: rest ∧ (t = 0 ∨ t = 1)) := by
  have key : ∀ (h0 : Heap) (x0 : Intersection) (in1 : Stdin),
      Traffic27.inputVehicleCounts fuel in1 h0 x0 ≠ some (.error .intersectionType) := by
    intro h0 x0 in1
    unfold Traffic27.inputVehicleCounts
    generalize x0.head = start
    suffices hs : ∀ (f : Nat) (cur : Ptr) (inp : Stdin) (h : Heap),
        Traffic27.inputLoop start f cur inp h ≠ some (.error .intersectionType) from
      hs fuel start in1 h0
    intro f
    induction f with
    | zero => intro cur inp h hh; simp [Traffic27.inputLoop] at hh
    | succ f ih =>
      intro cur inp h
      cases cur with
      | none => simp [Traffic27.inputLoop]
      | some a =>
        rw [Traffic27.inputLoop]
        cases hl : Traffic27.inputLane inp h a with
        | none => simp
        | some res =>
          cases res with
          | error e =>
            simp only [ne_eq, Option.some.injEq, Except.error.injEq]
            rintro rfl
            revert hl
            unfold Traffic27.inputLane
            repeat' split
            all_goals simp
          | ok v =>
            obtain ⟨r, h1⟩ := v
            simp only
            cases load h1 a with
            | none => simp
            | some l =>
              simp only
              split
              · simp
              · exact ih _ _ _
  constructor
  · unfold Traffic27.main
    rcases input with _ | ⟨_ | t, in1⟩
    · simp [scanInt]
    · simp [scanInt]
    · simp only [scanInt]
      by_cases ht : t ≠ 0 ∧ t ≠ 1
      · rw [if_pos ht]
        simp only [true_iff, not_exists, not_and]
        intro t1 rest he
        simp only [List.cons.injEq, Option.some.injEq] at he
        omega
      · rw [if_neg ht]
        obtain ⟨h0, x0, hc⟩ := createIntersection_total (typeOfInput t)
        simp only [hc]
        have hk := key h0 x0 in1
        constructor
        · intro hh
          exfalso
          cases hres : Traffic27.inputVehicleCounts fuel in1 h0 x0 with
          | none => simp [hres] at hh
          | some res =>
            cases res with
            | error e =>
              simp only [hres, Option.some.injEq, Except.error.injEq] at hh
              rw [hh] at hres
              exact hk hres
            | ok v => simp [hres] at hh
        · intro hh
          exact absurd ⟨t, in1, rfl, by omega⟩ hh
  · unfold Traffic.main
    rcases input with _ | ⟨_ | t, in1⟩
    · simp [scanInt]
    · simp [scanInt]
    · simp only [scanInt]
      by_cases ht : t ≠ 0 ∧ t ≠ 1
      · rw [if_pos ht]
        simp only [true_iff, not_exists, not_and]
        intro t1 rest he
        simp only [List.cons.injEq, Option.some.injEq] at he
        omega
      · rw [if_neg ht]
        obtain ⟨h0, x0, hc⟩ := createIntersection_total (typeOfInput t)
        simp only [hc]
        constructor
        · intro hh
          cases hres : Traffic.calculateSignalTiming rows fuel h0 x0 <;> simp [hres] at hh
        · intro hh
          exact absurd ⟨t, in1, rfl, by omega⟩ hh

/-- C15 (failing input): `Traffic.c` on a T-junction whose query returns the
rows `(1, -5, 0)`, `(2, 10, 0)`, `(3, 5, 0)` passes the type check, and
`fetchLaneData` stores the count -5 unchecked: `calculateSignalTiming`
computes from it the green time -30 and the priority -5 for lane 1.  With the
rows `(1, 5, 0)`, `(2, 10, 2)`, `(3, 5, 0)` the flag 2 of lane 2 is stored and
treated as an emergency vehicle.  `traffic27.c` ends with an error on the same
values before its `calculateSignalTiming` is reached. -/
theorem out_of_domain_rows_enter_signal_timing :
    Traffic.main [(1, -5, 0), (2, 10, 0), (3, 5, 0)] 3 [some 0] =
      (Traffic.calculateSignalTiming [(1, -5, 0), (2, 10, 0), (3, 5, 0)] 3 tRing.1 tRing.2).map
        .ok ∧
    (Traffic.calculateSignalTiming [(1, -5, 0), (2, 10, 0), (3, 5, 0)] 3 tRing.1 tRing.2).map
        (fun h => h.map (fun l =>
          (l.vehicleCount, l.emergencyVehicle, l.greenTime, l.redTime, l.priority))) =
      some [(-5, 0, -30, 90, -5), (10, 0, 60, 0, 10), (5, 0, 30, 30, 5)] ∧
    (Traffic.calculateSignalTiming [(1, 5, 0), (2, 10, 2), (3, 5, 0)] 3 tRing.1 tRing.2).map
        (fun h => h.map (fun l =>
          (l.vehicleCount, l.emergencyVehicle, l.greenTime, l.redTime, l.priority))) =
      some [(5, 0, 15, -2147483634, 5), (10, 2, 2147483647, 30, 2147483647),
        (5, 0, 15, -2147483634, 5)] ∧
    Traffic27.main 3 [some 0, some (-5), some 0, some 10, some 0, some 5, some 0] =
      some (.error .vehicleCount) ∧
    Traffic27.main 3 [some 0, some 5, some 0, some 10, some 2, some 5, some 0] =
      some (.error .emergencyVehicle) :=
  ⟨by decide, by decide, by decide, by decide, by decide⟩


/-! ## C12: what a cycle depends on -/

theorem totalOf_inRange {h : Heap} (hd : CountsInRange h) :
    totalOf h = (h.map Lane.vehicleCount).sum := by
  unfold totalOf
  rw [foldl_count_exact h 0 hd.1 (le_refl _) (by simpa using hd.2.2)]
  simp

theorem count_le_total {h : Heap} (hd : CountsInRange h) :
    ∀ l ∈ h, 0 ≤ l.vehicleCount ∧ l.vehicleCount ≤ (h.map Lane.vehicleCount).sum := by
  intro l hl
  refine ⟨hd.1 l hl, List.single_le_sum ?_ _ (List.mem_map_of_mem _ hl)⟩
  intro v hv
  obtain ⟨l', hl', rfl⟩ := List.mem_map.mp hv
  exact hd.1 l' hl'

/-- On a ring whose counts are in range the three passes of `traffic27.c`
return. -/
theorem Traffic27.timingPasses_returns {type : IntersectionType} {h : Heap} {x : Intersection}
    (hr : IsRing type h x) {fuel : Nat} (hf : x.laneCount ≤ fuel) (hd : CountsInRange h) :
    ∃ h2, Traffic27.timingPasses fuel h x = some h2 := by
  obtain ⟨n, hn, hcount, _, _, _, _⟩ := isRing_shape hr
  have hn' : x.laneCount = 3 ∨ x.laneCount = 4 := by
    rcases hn with rfl | rfl
    · exact Or.inl hcount
    · exact Or.inr hcount
  obtain ⟨tt, htt⟩ := Traffic27.sweep_greenStep (h.map Lane.vehicleCount).sum x.laneCount h 0
    (by
      intro l hl
      obtain ⟨g, hg, _⟩ := greenSeconds_bounds l.vehicleCount _ x.laneCount
        (count_le_total hd l hl).1 (count_le_total hd l hl).2 hd.2.1 hd.2.2 hn'
      exact ⟨g, hg⟩)
  rw [Traffic27.timingPasses_closed hr hf, totalOf_inRange hd, htt]
  exact ⟨_, rfl⟩

theorem Traffic.sweep_intGreenStep_returns (T n : Int) (hT : 0 < T) :
    ∀ (ls : List Lane) (s : Int), ∃ r, sweep (Traffic.greenStep T n) s ls = some r := by
  intro ls
  induction ls with
  | nil => intro s; exact ⟨_, rfl⟩
  | cons l ls ih =>
    intro s
    have hg : ∃ l1, Traffic.calculateGreenTime l T n = some l1 := by
      unfold Traffic.calculateGreenTime
      by_cases he : l.emergencyVehicle ≠ 0
      · exact ⟨_, if_pos he⟩
      · rw [if_neg he, if_neg (by omega), if_neg (by omega)]
        exact ⟨_, rfl⟩
    obtain ⟨l1, hl1⟩ := hg
    obtain ⟨r, hr⟩ := ih (wrap32 (s + l1.greenTime))
    simp only [sweep, Traffic.greenStep, hl1, Option.map_some', hr]
    exact ⟨_, rfl⟩

/-- On a ring whose counts are in range the three passes of `Traffic.c`
return. -/
theorem Traffic.intTimingPasses_returns {type : IntersectionType} {h : Heap} {x : Intersection}
    (hr : IsRing type h x) {fuel : Nat} (hf : x.laneCount ≤ fuel) (hd : CountsInRange h) :
    ∃ h2, Traffic.timingPasses fuel h x = some h2 := by
  obtain ⟨r, hs⟩ := Traffic.sweep_intGreenStep_returns (h.map Lane.vehicleCount).sum x.laneCount
    hd.2.1 h 0
  rw [Traffic.intTimingPasses_closed hr hf, totalOf_inRange hd, hs]
  exact ⟨_, rfl⟩

/-- On a ring `fetchLaneData` returns, whatever rows the query gives. -/
theorem Traffic.fetchLaneData_returns {type : IntersectionType} {h : Heap} {x : Intersection}
    (hr : IsRing type h x) (rows : List (Int × Int × Int)) :
    ∃ h1, Traffic.fetchLaneData rows h x = some h1 ∧ IsRing type h1 x := by
  obtain ⟨n, hn, _, hhead, _, hlinks, _⟩ := isRing_shape hr
  have key : ∀ (rows : List (Int × Int × Int)) (a : Nat) (h : Heap), a < n → RingLinks n h →
      ∃ h1, Traffic.fetchRows rows (some a) h = some h1 := by
    intro rows
    induction rows with
    | nil => intro a h _ _; exact ⟨h, rfl⟩
    | cons row rows ih =>
      intro a h ha hl
      obtain ⟨ln, vc, ev⟩ := row
      have hal : a < h.length := by rw [ringLinks_length hl]; exact ha
      have hl1 : RingLinks n
          (h.modify (fun l => { l with vehicleCount := vc, emergencyVehicle := ev }) a) := by
        unfold RingLinks
        rw [modify_keeps Lane.next
          (fun l => { l with vehicleCount := vc, emergencyVehicle := ev }) (fun _ => rfl)]
        exact hl
      obtain ⟨l, hload, hnext⟩ := ringLinks_load hl1 ha
      obtain ⟨h1, hh1⟩ := ih ((a + 1) % n) _ (Nat.mod_lt _ (by omega)) hl1
      refine ⟨h1, ?_⟩
      simp only [Traffic.fetchRows, update_eq_modify hal, hload, hnext, hh1]
  obtain ⟨h1, hh1⟩ := key rows 0 h (by omega) hlinks
  have hf : Traffic.fetchLaneData rows h x = some h1 := by
    unfold Traffic.fetchLaneData
    rw [hhead]
    exact hh1
  refine ⟨h1, hf, isRing_of_links hr ?_⟩
  unfold Traffic.fetchLaneData at hf
  exact Traffic.fetchRows_links rows x.head h h1 hf

theorem displaySignalTiming_returns {type : IntersectionType} {h : Heap} {x : Intersection}
    (hr : IsRing type h x) {fuel : Nat} (hf : x.laneCount ≤ fuel) :
    ∃ seq, Traffic27.displaySignalTiming fuel h x = some seq :=
  ⟨_, displaySignalTiming_eq hr hf⟩

/-- The three passes of `traffic27.c`, run again on the ring they have just
left, compute the same timing and the same dispatch sequence. -/
theorem Traffic27.timingPasses_again {type : IntersectionType} {h h2 : Heap} {x : Intersection}
    (hr : IsRing type h x) {fuel : Nat} (hf : x.laneCount ≤ fuel)
    (hp : Traffic27.timingPasses fuel h x = some h2) :
    IsRing type h2 x ∧
    (Traffic27.timingPasses fuel h2 x).map (fun h3 => h3.map Lane.timing) =
        some (h2.map Lane.timing) ∧
      (Traffic27.timingPasses fuel h2 x).bind
          (fun h3 => Traffic27.displaySignalTiming fuel h3 x) =
        Traffic27.displaySignalTiming fuel h2 x := by
  have hu := Traffic27.timingPasses_untimed hr hf hp
  have hr2 : IsRing type h2 x := isRing_of_links hr (links_of_untimed hu)
  have hc := Traffic27.timingPasses_congr hr2 hr hf (snapshot_of_untimed hu)
  rw [hp] at hc
  cases e : Traffic27.timingPasses fuel h2 x with
  | none => simp [e] at hc
  | some h3 =>
    simp only [e, Option.map_some', Option.some.injEq] at hc
    obtain ⟨ht, hpr, _⟩ := timing_of_pairs hc
    have hu3 := Traffic27.timingPasses_untimed hr2 hf e
    have hr3 : IsRing type h3 x := isRing_of_links hr2 (links_of_untimed hu3)
    exact ⟨hr2, by simp only [Option.map_some', ht],
      by simp only [Option.some_bind]; exact displaySignalTiming_congr hr3 hr2 hf hpr⟩

/-- The three passes of `Traffic.c`, run again on the ring they have just
left, compute the same timing. -/
theorem Traffic.intTimingPasses_again {type : IntersectionType} {h h2 : Heap}
    {x : Intersection} (hr : IsRing type h x) {fuel : Nat} (hf : x.laneCount ≤ fuel)
    (hp : Traffic.timingPasses fuel h x = some h2) :
    (Traffic.timingPasses fuel h2 x).map (fun h3 => h3.map Lane.timing) =
      some (h2.map Lane.timing) := by
  have hu := Traffic.intTimingPasses_untimed hr hf hp
  have hr2 : IsRing type h2 x := isRing_of_links hr (links_of_untimed hu)
  have hc := Traffic.intTimingPasses_congr hr2 hr hf (snapshot_of_untimed hu)
  rw [hp] at hc
  cases e : Traffic.timingPasses fuel h2 x with
  | none => simp [e] at hc
  | some h3 =>
    simp only [e, Option.map_some', Option.some.injEq] at hc
    obtain ⟨ht, _, _⟩ := timing_of_pairs hc
    simp only [Option.map_some', ht]

/-- The three passes of `traffic27.c` followed by the dispatch, on two rings
with the same snapshot. -/
theorem Traffic27.passes_dispatch_congr {type : IntersectionType} {h h' : Heap}
    {x : Intersection} (hr : IsRing type h x) (hr' : IsRing type h' x) {fuel : Nat}
    (hf : x.laneCount ≤ fuel) (hs : h.map Lane.snapshot = h'.map Lane.snapshot) :
    (Traffic27.timingPasses fuel h x).map (fun h2 => h2.map Lane.timing) =
        (Traffic27.timingPasses fuel h' x).map (fun h2 => h2.map Lane.timing) ∧
      (Traffic27.timingPasses fuel h x).bind
          (fun h2 => Traffic27.displaySignalTiming fuel h2 x) =
        (Traffic27.timingPasses fuel h' x).bind
          (fun h2 => Traffic27.displaySignalTiming fuel h2 x) := by
  have hc := Traffic27.timingPasses_congr hr hr' hf hs
  cases e : Traffic27.timingPasses fuel h x with
  | none =>
    cases e' : Traffic27.timingPasses fuel h' x with
    | none => exact ⟨rfl, rfl⟩
    | some h2' => simp [e, e'] at hc
  | some h2 =>
    cases e' : Traffic27.timingPasses fuel h' x with
    | none => simp [e, e'] at hc
    | some h2' =>
      simp only [e, e', Option.map_some', Option.some.injEq] at hc
      obtain ⟨ht, hp, _⟩ := timing_of_pairs hc
      have hr2 := isRing_of_links hr (links_of_untimed (Traffic27.timingPasses_untimed hr hf e))
      have hr2' :=
        isRing_of_links hr' (links_of_untimed (Traffic27.timingPasses_untimed hr' hf e'))
      exact ⟨by simp only [Option.map_some', ht],
        by simp only [Option.some_bind]; exact displaySignalTiming_congr hr2 hr2' hf hp⟩

/-- A counterexample to C12: on one snapshot (the T-junction with the counts
10, 5, 5 and no emergency vehicle) two runs of the cycle give different
results, because `calculateSignalTiming` first redraws the snapshot.  In
`traffic27.c`, when `rand()` returns 0 throughout the green times are 45, 22,
22 and the dispatch sequence is lane 1, lane 2, lane 3; when it returns 4, 1,
0, 0, 0, 0 lane 1 gets 52 seconds and the priority `INT_MAX`; when it returns
0, 0, 0, 0, 0, 1 the dispatch sequence is lane 3, lane 1, lane 2.  In
`Traffic.c` the rows with the counts 10, 5, 5 give the green times 30, 15, 15
and the rows with the counts 1, 2, 3 give 10, 20, 30. -/
theorem cycle_differs_on_one_snapshot :
    (Traffic27.cycle (fun _ => 0) 3 (populate tRing.1 [(10, 0), (5, 0), (5, 0)]) tRing.2).map
        (fun r => (r.1.map Lane.timing, r.2)) =
      some ([(45, 44, 10), (22, 67, 5), (22, 67, 5)], [0, 1, 2]) ∧
    (Traffic27.cycle (fun n => [4, 1, 0, 0, 0, 0].getD n 0) 3
        (populate tRing.1 [(10, 0), (5, 0), (5, 0)]) tRing.2).map
        (fun r => (r.1.map Lane.timing, r.2)) =
      some ([(52, 36, 2147483647), (18, 70, 5), (18, 70, 5)], [0, 1, 2]) ∧
    (Traffic27.cycle (fun n => [0, 0, 0, 0, 0, 1].getD n 0) 3
        (populate tRing.1 [(10, 0), (5, 0), (5, 0)]) tRing.2).map
        (fun r => (r.1.map Lane.timing, r.2)) =
      some ([(45, 44, 10), (22, 67, 5), (22, 67, 2147483647)], [2, 0, 1]) ∧
    (Traffic.calculateSignalTiming [(1, 10, 0), (2, 5, 0), (3, 5, 0)] 3
        (populate tRing.1 [(10, 0), (5, 0), (5, 0)]) tRing.2).map
        (fun h2 => h2.map Lane.timing) =
      some [(30, 30, 10), (15, 45, 5), (15, 45, 5)] ∧
    (Traffic.calculateSignalTiming [(1, 1, 0), (2, 2, 0), (3, 3, 0)] 3
        (populate tRing.1 [(10, 0), (5, 0), (5, 0)]) tRing.2).map
        (fun h2 => h2.map Lane.timing) =
      some [(10, 50, 1), (20, 40, 2), (30, 30, 3)] :=
  ⟨by decide, by decide, by decide, by decide, by decide⟩

/-- C12 (amended): a cycle is determined by the snapshot together with the
data it acquires.  On two rings whose `vehicleCount` and `emergencyVehicle`
fields agree, whatever `greenTime`, `redTime` and `priority` an earlier cycle
left in them, (1) the cycle of `traffic27.c` run with the same results of
`rand()` and `calculateSignalTiming` of `Traffic.c` run with the same query
rows give the same `greenTime`, `redTime` and `priority` for every lane and
the same dispatch sequence, or no result on either ring; (2) the three passes
that follow the acquisition, and the dispatch built after them, give the same
on both rings.  (3) When the counts are not negative and their total is
positive and an `int`, the passes and the dispatch return, and run again on
the ring they have just left they return the same timing and the same
dispatch sequence.  (4) The acquisition returns, and the whole cycle returns
when the counts it has acquired are in that range. -/
theorem cycle_determined_by_snapshot_and_acquired_data (type : IntersectionType)
    (h h' : Heap) (x : Intersection) (hr : IsRing type h x) (hr' : IsRing type h' x)
    (fuel : Nat) (hf : x.laneCount ≤ fuel) (hs : h.map Lane.snapshot = h'.map Lane.snapshot)
    (rand : Nat → Nat) (rows : List (Int × Int × Int)) :
    ((Traffic27.cycle rand fuel h x).map (fun r => (r.1.map Lane.timing, r.2)) =
        (Traffic27.cycle rand fuel h' x).map (fun r => (r.1.map Lane.timing, r.2)) ∧
      (Traffic.calculateSignalTiming rows fuel h x).map (fun h2 => h2.map Lane.timing) =
        (Traffic.calculateSignalTiming rows fuel h' x).map (fun h2 => h2.map Lane.timing)) ∧
    ((Traffic27.timingPasses fuel h x).map (fun h2 => h2.map Lane.timing) =
        (Traffic27.timingPasses fuel h' x).map (fun h2 => h2.map Lane.timing) ∧
      (Traffic27.timingPasses fuel h x).bind
          (fun h2 => Traffic27.displaySignalTiming fuel h2 x) =
        (Traffic27.timingPasses fuel h' x).bind
          (fun h2 => Traffic27.displaySignalTiming fuel h2 x) ∧
      (Traffic.timingPasses fuel h x).map (fun h2 => h2.map Lane.timing) =
        (Traffic.timingPasses fuel h' x).map (fun h2 => h2.map Lane.timing)) ∧
    (CountsInRange h →
      (∃ h2 seq, Traffic27.timingPasses fuel h x = some h2 ∧
        Traffic27.displaySignalTiming fuel h2 x = some seq ∧
        (Traffic27.timingPasses fuel h2 x).map (fun h3 => h3.map Lane.timing) =
          some (h2.map Lane.timing) ∧
        (Traffic27.timingPasses fuel h2 x).bind
          (fun h3 => Traffic27.displaySignalTiming fuel h3 x) = some seq) ∧
      ∃ h2, Traffic.timingPasses fuel h x = some h2 ∧
        (Traffic.timingPasses fuel h2 x).map (fun h3 => h3.map Lane.timing) =
          some (h2.map Lane.timing)) ∧
    (∃ h1, Traffic27.updateVehicleCounts rand fuel h x = some h1 ∧
      (CountsInRange h1 → ∃ res, Traffic27.cycle rand fuel h x = some res)) ∧
    ∃ h1, Traffic.fetchLaneData rows h x = some h1 ∧
      (CountsInRange h1 → ∃ h2, Traffic.calculateSignalTiming rows fuel h x = some h2) := by
  refine ⟨⟨Traffic27.cycle_congr hr hr' hf hs rand, ?_⟩, ?_, ?_, ?_, ?_⟩
  · have hc := Traffic.intCalculateSignalTiming_congr hr hr' hf hs rows
    have := congrArg (fun o : Option (List ((Int × Int) × Int × Int × Int)) =>
      o.map (fun ps => ps.map Prod.snd)) hc
    simpa [option_map_map, List.map_map, Function.comp_def] using this
  · obtain ⟨h1, h2⟩ := Traffic27.passes_dispatch_congr hr hr' hf hs
    refine ⟨h1, h2, ?_⟩
    have hc := Traffic.intTimingPasses_congr hr hr' hf hs
    have := congrArg (fun o : Option (List ((Int × Int) × Int × Int × Int)) =>
      o.map (fun ps => ps.map Prod.snd)) hc
    simpa [option_map_map, List.map_map, Function.comp_def] using this
  · intro hd
    constructor
    · obtain ⟨h2, hp⟩ := Traffic27.timingPasses_returns hr hf hd
      obtain ⟨hr2, ht, hb⟩ := Traffic27.timingPasses_again hr hf hp
      obtain ⟨seq, hseq⟩ := displaySignalTiming_returns hr2 hf
      exact ⟨h2, seq, hp, hseq, ht, hb.trans hseq⟩
    · obtain ⟨h2, hp⟩ := Traffic.intTimingPasses_returns hr hf hd
      exact ⟨h2, hp, Traffic.intTimingPasses_again hr hf hp⟩
  · obtain ⟨h1, hu, hl1⟩ := Traffic27.updateVehicleCounts_links hr hf rand
    refine ⟨h1, hu, ?_⟩
    intro hd
    have hr1 : IsRing type h1 x := isRing_of_links hr hl1
    obtain ⟨h2, hp⟩ := Traffic27.timingPasses_returns hr1 hf hd
    obtain ⟨hr2, _, _⟩ := Traffic27.timingPasses_again hr1 hf hp
    obtain ⟨seq, hseq⟩ := displaySignalTiming_returns hr2 hf
    refine ⟨(h2, seq), ?_⟩
    unfold Traffic27.cycle Traffic27.calculateSignalTiming
    simp only [hu, hp, hseq, Option.map_some']
  · obtain ⟨h1, hfe, hr1⟩ := Traffic.fetchLaneData_returns hr rows
    refine ⟨h1, hfe, ?_⟩
    intro hd
    obtain ⟨h2, hp⟩ := Traffic.intTimingPasses_returns hr1 hf hd
    refine ⟨h2, ?_⟩
    unfold Traffic.calculateSignalTiming
    simp only [hfe, hp]

/-- Witness for C12: the T-junction with counts 10, 5, 5, once as created and
once with the priorities 7, 8, 9 left in its lanes, with `rand()` returning
0, 1, 2, ... and the rows `(1, 10, 0)`, `(2, 5, 1)`, `(3, 5, 0)`. -/
theorem cycle_determined_by_snapshot_and_acquired_data_witness :
    IsRing .T_INTERSECTION exampleRing tRing.2 ∧
    IsRing .T_INTERSECTION exampleRingStale tRing.2 ∧
    tRing.2.laneCount ≤ (3 : Nat) ∧
    exampleRing.map Lane.snapshot = exampleRingStale.map Lane.snapshot ∧
    (((Traffic27.cycle (fun n => n) 3 exampleRing tRing.2).map
          (fun r => (r.1.map Lane.timing, r.2)) =
        (Traffic27.cycle (fun n => n) 3 exampleRingStale tRing.2).map
          (fun r => (r.1.map Lane.timing, r.2)) ∧
      (Traffic.calculateSignalTiming [(1, 10, 0), (2, 5, 1), (3, 5, 0)] 3 exampleRing
          tRing.2).map (fun h2 => h2.map Lane.timing) =
        (Traffic.calculateSignalTiming [(1, 10, 0), (2, 5, 1), (3, 5, 0)] 3 exampleRingStale
          tRing.2).map (fun h2 => h2.map Lane.timing)) ∧
    ((Traffic27.timingPasses 3 exampleRing tRing.2).map (fun h2 => h2.map Lane.timing) =
        (Traffic27.timingPasses 3 exampleRingStale tRing.2).map
          (fun h2 => h2.map Lane.timing) ∧
      (Traffic27.timingPasses 3 exampleRing tRing.2).bind
          (fun h2 => Traffic27.displaySignalTiming 3 h2 tRing.2) =
        (Traffic27.timingPasses 3 exampleRingStale tRing.2).bind
          (fun h2 => Traffic27.displaySignalTiming 3 h2 tRing.2) ∧
      (Traffic.timingPasses 3 exampleRing tRing.2).map (fun h2 => h2.map Lane.timing) =
        (Traffic.timingPasses 3 exampleRingStale tRing.2).map
          (fun h2 => h2.map Lane.timing)) ∧
    (CountsInRange exampleRing →
      (∃ h2 seq, Traffic27.timingPasses 3 exampleRing tRing.2 = some h2 ∧
        Traffic27.displaySignalTiming 3 h2 tRing.2 = some seq ∧
        (Traffic27.timingPasses 3 h2 tRing.2).map (fun h3 => h3.map Lane.timing) =
          some (h2.map Lane.timing) ∧
        (Traffic27.timingPasses 3 h2 tRing.2).bind
          (fun h3 => Traffic27.displaySignalTiming 3 h3 tRing.2) = some seq) ∧
      ∃ h2, Traffic.timingPasses 3 exampleRing tRing.2 = some h2 ∧
        (Traffic.timingPasses 3 h2 tRing.2).map (fun h3 => h3.map Lane.timing) =
          some (h2.map Lane.timing)) ∧
    (∃ h1, Traffic27.updateVehicleCounts (fun n => n) 3 exampleRing tRing.2 = some h1 ∧
      (CountsInRange h1 →
        ∃ res, Traffic27.cycle (fun n => n) 3 exampleRing tRing.2 = some res)) ∧
    ∃ h1, Traffic.fetchLaneData [(1, 10, 0), (2, 5, 1), (3, 5, 0)] exampleRing tRing.2 =
        some h1 ∧
      (CountsInRange h1 →
        ∃ h2, Traffic.calculateSignalTiming [(1, 10, 0), (2, 5, 1), (3, 5, 0)] 3 exampleRing
          tRing.2 = some h2)) ∧
    CountsInRange exampleRing :=
  ⟨⟨tRing.1, createIntersection_T, rfl⟩, ⟨tRing.1, createIntersection_T, rfl⟩, by decide,
    by decide,
    cycle_determined_by_snapshot_and_acquired_data .T_INTERSECTION exampleRing
      exampleRingStale tRing.2 ⟨tRing.1, createIntersection_T, rfl⟩
      ⟨tRing.1, createIntersection_T, rfl⟩ 3 (by decide) (by decide) (fun n => n)
      [(1, 10, 0), (2, 5, 1), (3, 5, 0)],
    by unfold CountsInRange; decide⟩

end TrafficManagement
